import Mathlib

/-!
Pull-request lifecycle and reviewer assignment.

A shallow embedding of the PR engine of `avito_test_task`:

* `internal/model/errors.go`, `internal/model/statistics.go` – the error values and the
  statistics records,
* `internal/repository/pull_request_repository.go` – `CreatePR`, `MergePR`,
  `ReassignPR` and their helper queries,
* `internal/repository/team_repository.go`, `users_repository.go`,
  `statistics_repository.go` – `AddTeam`, `GetTeam`, `SetUserIsActive`, `GetUserReview`,
  `GetUserStatistics`, `GetTeamStatistics`,
* `internal/service/*.go` – the validating wrappers,
* `internal/handler/pull_request_handler.go` – the HTTP status each PR handler writes.

The PostgreSQL database is an explicit `Store` value that every operation
receives and returns.  A transaction is a working copy of the store: a
`return` before `tx.Commit()` hands back the store the call started with
(the deferred `tx.Rollback()`), a return after it hands back the working copy.
`ORDER BY RANDOM()` reads its randomness from an explicit stream `rnd`, and
`CURRENT_TIMESTAMP` is the explicit argument `now`.

The operations come in two layers.  The first has the failures the data can
cause (no row to scan, a NULL scanned into a Go string or int, a key
constraint) and takes every database call to answer.  The namespace `Faulty`
repeats the three PR operations with every `if err != nil` branch, the
transaction and its rollback explicit, so that a call can also fail for a
reason outside the data (a lost connection, an expired context); without such
a failure the two layers agree.
-/

namespace AvitoPR

/-! ## Persisted state -/

/-- Modelled from the spec: the table `users(user_id PK, username, team_name FK, is_active)`
of section 6; the DDL is not among the sources. -/
structure UserRow where
  user_id : String
  username : String
  team_name : String
  is_active : Bool
deriving DecidableEq, Repr

/-- Modelled from the spec: the table
`pr(pr_id PK, pr_name, author_id FK, status, created_at, merged_at NULLABLE)` of section 6; the DDL
is not among the sources.  `merged_at = none` is SQL NULL.  The column `created_at` is left out:
no statement of the repository layer reads or writes it. -/
structure PRRow where
  pr_id : String
  pr_name : String
  author_id : String
  status : String
  merged_at : Option Nat
deriving DecidableEq, Repr

/-- Modelled from the spec: the table `reviewer_x_pr(pr_id FK, user_id FK, PK(pr_id,user_id))`
of section 6; the DDL is not among the sources. -/
structure ReviewerRow where
  user_id : String
  pr_id : String
deriving DecidableEq, Repr

/-- The database: one list of rows per table, in storage order. -/
structure Store where
  team : List String
  users : List UserRow
  pr : List PRRow
  reviewer_x_pr : List ReviewerRow
deriving DecidableEq, Repr

/-! ## `internal/model` -/

/-- The struct `model.PRError`. -/
structure PRError where
  Code : String
  Message : String
deriving DecidableEq, Repr

/-- A Go `error` value as the handlers tell them apart: a `*model.PRError`, or an error built
with `fmt.Errorf` around a driver error (the string is the text before the colon). -/
inductive GoError where
  | prError (e : PRError)
  | wrapped (msg : String)
deriving DecidableEq, Repr

def CodeTeamExists : String := "TEAM_EXISTS"
def CodePRExists : String := "PR_EXISTS"
def CodePRMerged : String := "PR_MERGED"
def CodeNotAssigned : String := "NOT_ASSIGNED"
def CodeNoCandidate : String := "NO_CANDIDATE"
def CodeNotFound : String := "NOT_FOUND"
def CodeEmptyField : String := "EMPTY_FIELD"

def MsgTeamExists : String := "team_name already exists"
def MsgPRExists : String := "PR id already exists"
def MsgPRMerged : String := "cannot reassign on merged PR"
def MsgNotAssigned : String := "reviewer is not assigned to this PR"
def MsgNoCandidate : String := "no active replacement candidate in team"
def MsgNotFound : String := "resource not found"
def MsgEmptyField : String := "field is empty"

def NewTeamExistsError : PRError := ⟨CodeTeamExists, MsgTeamExists⟩
def NewPRExistsError : PRError := ⟨CodePRExists, MsgPRExists⟩
def NewPRMergedsError : PRError := ⟨CodePRMerged, MsgPRMerged⟩
def NewNotAssignedError : PRError := ⟨CodeNotAssigned, MsgNotAssigned⟩
def NewNoCandidateError : PRError := ⟨CodeNoCandidate, MsgNoCandidate⟩
def NewNotFoundError : PRError := ⟨CodeNotFound, MsgNotFound⟩

/-- The constructor `fmt.Sprintf("%s %s", field, MsgEmptyField)`. -/
def NewEmptyFieldError (field : String) : PRError :=
  ⟨CodeEmptyField, field ++ " " ++ MsgEmptyField⟩

/-- Modelled from the spec: the struct `model.PullRequest` (with the embedded
`PullRequestShort`), whose declaration is not among the sources; the fields are the ones the
repository assigns.  `MergedAt` is a Go string: `none` is its zero value, the empty string, and
`some t` the text of the timestamp `t`. -/
structure PullRequest where
  PullRequestID : String
  PullRequestName : String
  AuthorID : String
  Status : String
  AssignedReviewers : List String
  MergedAt : Option Nat
deriving DecidableEq, Repr

/-- What an operation hands back: the Go return values and the database afterwards. -/
abbrev Outcome (α : Type) : Type := Except GoError α × Store

/-! ## Statements -/

/-- Modelled from the spec: `INSERT INTO pr (pr_id, pr_name, author_id)` under the schema of
section 6.  The primary key on `pr_id` and the foreign key on `author_id` reject the row
(`none`); `status` takes its default `OPEN` and `merged_at` is NULL. -/
def Store.insertPR (s : Store) (pr_id pr_name author_id : String) : Option Store :=
  if s.pr.any (fun r => decide (r.pr_id = pr_id)) then none
  else if s.users.any (fun u => decide (u.user_id = author_id)) then
    some { s with pr := s.pr ++ [⟨pr_id, pr_name, author_id, "OPEN", none⟩] }
  else none

/-- Modelled from the spec: `INSERT INTO reviewer_x_pr (user_id, pr_id)` under the schema of
section 6.  The primary key on the pair and the two foreign keys reject the row (`none`). -/
def Store.insertReviewer (s : Store) (user_id pr_id : String) : Option Store :=
  if s.reviewer_x_pr.any (fun r => decide (r.pr_id = pr_id) && decide (r.user_id = user_id)) then
    none
  else if s.pr.any (fun r => decide (r.pr_id = pr_id))
      && s.users.any (fun u => decide (u.user_id = user_id)) then
    some { s with reviewer_x_pr := s.reviewer_x_pr ++ [⟨user_id, pr_id⟩] }
  else none

/-- The statement `DELETE FROM reviewer_x_pr WHERE pr_id = $1 AND user_id = $2`. -/
def Store.deleteReviewer (s : Store) (pr_id user_id : String) : Store :=
  { s with reviewer_x_pr :=
      s.reviewer_x_pr.filter (fun r => !(decide (r.pr_id = pr_id) && decide (r.user_id = user_id))) }

/-- The row an `UPDATE pr SET status = 'MERGED', merged_at = CURRENT_TIMESTAMP` writes. -/
def PRRow.merged (r : PRRow) (now : Nat) : PRRow :=
  { r with status := "MERGED", merged_at := some now }

/-- The statement `UPDATE pr SET status = 'MERGED', merged_at = CURRENT_TIMESTAMP WHERE pr_id = $1`. -/
def Store.updateMerged (s : Store) (pr_id : String) (now : Nat) : Store :=
  { s with pr := s.pr.map (fun r => if r.pr_id = pr_id then r.merged now else r) }

/-- The clause `ORDER BY RANDOM() LIMIT n`: `n` draws without replacement (fewer when the rows
run out); the draw made when `k + 1` draws remain takes the row at index `rnd k` modulo the number
of rows left. -/
def orderByRandomLimit {α : Type} (rnd : Nat → Nat) : Nat → List α → List α
  | 0, _ => []
  | _ + 1, [] => []
  | n + 1, x :: xs =>
    (x :: xs).get ⟨rnd n % (x :: xs).length, Nat.mod_lt _ (Nat.succ_pos _)⟩
      :: orderByRandomLimit rnd n ((x :: xs).eraseIdx (rnd n % (x :: xs).length))

/-! ## `internal/repository/pull_request_repository.go` -/

namespace PRPostgresRepository

def AuthorExists (db : Store) (authorID : String) : Bool :=
  db.users.any (fun u => decide (u.user_id = authorID))

def PRExists (db : Store) (pullRequestID : String) : Bool :=
  db.pr.any (fun r => decide (r.pr_id = pullRequestID))

/-- The query of `FindReviewers`.  The scalar subquery `SELECT team_name FROM users WHERE
user_id = $1` is NULL when the author has no row, and then no row passes the `WHERE`
(`user_id` is the primary key of `users`, so the subquery has at most one row). -/
def FindReviewers (rnd : Nat → Nat) (tx : Store) (authorID : String) : List String :=
  match tx.users.find? (fun u => decide (u.user_id = authorID)) with
  | none => []
  | some a =>
    orderByRandomLimit rnd 2
      ((tx.users.filter (fun u =>
          decide (u.team_name = a.team_name) && u.is_active && decide (u.user_id ≠ authorID))).map
        (fun u => u.user_id))

def GetStatus (tx : Store) (pullRequestID : String) : Except GoError String :=
  match tx.pr.find? (fun r => decide (r.pr_id = pullRequestID)) with
  | none => .error (.wrapped "query row error")
  | some r => .ok r.status

def IsReviewer (tx : Store) (pullRequestID userID : String) : Bool :=
  tx.reviewer_x_pr.any (fun r => decide (r.pr_id = pullRequestID) && decide (r.user_id = userID))

def GetReviewers (tx : Store) (pullRequestID : String) : List String :=
  (tx.reviewer_x_pr.filter (fun r => decide (r.pr_id = pullRequestID))).map (fun r => r.user_id)

/-- The query of `FindNewReviewer`; `sql.ErrNoRows` gives the empty string.  Both scalar
subqueries are NULL when their row is missing, and then no row passes the `WHERE`. -/
def FindNewReviewer (rnd : Nat → Nat) (tx : Store) (pullRequestID oldReviewerID : String) :
    String :=
  match tx.users.find? (fun u => decide (u.user_id = oldReviewerID)),
        tx.pr.find? (fun r => decide (r.pr_id = pullRequestID)) with
  | some o, some p =>
    match orderByRandomLimit rnd 1
      ((tx.users.filter (fun u =>
          decide (u.team_name = o.team_name) && decide (u.user_id ≠ oldReviewerID)
            && decide (u.user_id ≠ p.author_id) && u.is_active
            && decide (u.user_id ∉ GetReviewers tx pullRequestID))).map (fun u => u.user_id)) with
    | [] => ""
    | newReviewerID :: _ => newReviewerID
  | _, _ => ""

/-- The helper `GetPR`: scanning a NULL `merged_at` into the Go string `MergedAt` is a scan
error. -/
def GetPR (tx : Store) (pullRequestID : String) : Except GoError PullRequest :=
  match tx.pr.find? (fun r => decide (r.pr_id = pullRequestID)) with
  | none => .error (.wrapped "scan error")
  | some r =>
    match r.merged_at with
    | none => .error (.wrapped "scan error")
    | some t =>
      .ok { PullRequestID := pullRequestID, PullRequestName := r.pr_name, AuthorID := r.author_id,
            Status := r.status, AssignedReviewers := GetReviewers tx pullRequestID,
            MergedAt := some t }

/-- The loop `for _, reviewer := range reviewers` of `CreatePR`, stopping at the first insert
that fails. -/
def insertReviewers (tx : Store) : List String → String → Option Store
  | [], _ => some tx
  | reviewer :: rest, pullRequestID =>
    match tx.insertReviewer reviewer pullRequestID with
    | none => none
    | some tx1 => insertReviewers tx1 rest pullRequestID

/-- The statements of `CreatePR` that follow the scan of `pr_id` (lines 56 to 94 of the source):
`FindReviewers`, the `INSERT INTO pr`, the loop of inserts into `reviewer_x_pr`, `tx.Commit()`
and the struct that is returned.  `db` is the store the transaction began with. -/
def CreatePRAfterScan (rnd : Nat → Nat) (db : Store)
    (pullRequestID pullRequestName authorID : String) : Outcome PullRequest :=
  let reviewers := FindReviewers rnd db authorID
  match db.insertPR pullRequestID pullRequestName authorID with
  | none => (.error (.wrapped "exec error"), db)
  | some tx1 =>
    match insertReviewers tx1 reviewers pullRequestID with
    | none => (.error (.wrapped "exec error"), db)
    | some tx2 =>
      (.ok { PullRequestID := pullRequestID, PullRequestName := pullRequestName,
             AuthorID := authorID, Status := "OPEN", AssignedReviewers := reviewers,
             MergedAt := none }, tx2)

def CreatePR (rnd : Nat → Nat) (db : Store) (pullRequestID pullRequestName authorID : String) :
    Outcome PullRequest :=
  if AuthorExists db authorID = false then
    (.error (.prError NewNotFoundError), db)
  else
    match db.pr.find? (fun r => decide (r.pr_id = pullRequestID)) with
    | none =>
      -- the branch `err == sql.ErrNoRows` of the source
      (.error (.prError NewPRExistsError), db)
    | some _ => CreatePRAfterScan rnd db pullRequestID pullRequestName authorID

def MergePR (now : Nat) (db : Store) (pullRequestID : String) : Outcome PullRequest :=
  if PRExists db pullRequestID = false then
    (.error (.prError NewNotFoundError), db)
  else
    match GetStatus db pullRequestID with
    | .error e => (.error e, db)
    | .ok status =>
      if status = "MERGED" then
        match GetPR db pullRequestID with
        | .error e => (.error e, db)
        | .ok pr => (.ok pr, db)
      else
        let tx := db.updateMerged pullRequestID now
        -- the first row of `RETURNING pr_id, pr_name, author_id, status, merged_at`
        match ((db.pr.filter (fun r => decide (r.pr_id = pullRequestID))).map
            (fun r => r.merged now)).head? with
        | none => (.error (.prError NewNotFoundError), db)
        | some r =>
          (.ok { PullRequestID := r.pr_id, PullRequestName := r.pr_name, AuthorID := r.author_id,
                 Status := r.status, AssignedReviewers := GetReviewers tx pullRequestID,
                 MergedAt := r.merged_at }, tx)

def ReassignPR (rnd : Nat → Nat) (db : Store) (pullRequestID oldReviewerID : String) :
    Outcome (PullRequest × String) :=
  if PRExists db pullRequestID = false then
    (.error (.prError NewNotFoundError), db)
  else
    match GetStatus db pullRequestID with
    | .error e => (.error e, db)
    | .ok status =>
      if status = "MERGED" then
        (.error (.prError NewPRMergedsError), db)
      else if IsReviewer db pullRequestID oldReviewerID = false then
        (.error (.prError NewNotAssignedError), db)
      else
        let newReviewerID := FindNewReviewer rnd db pullRequestID oldReviewerID
        if newReviewerID = "" then
          (.error (.prError NewNoCandidateError), db)
        else
          let tx1 := db.deleteReviewer pullRequestID oldReviewerID
          match tx1.insertReviewer newReviewerID pullRequestID with
          | none => (.error (.wrapped "exec error"), db)
          | some tx2 =>
            match tx2.pr.find? (fun r => decide (r.pr_id = pullRequestID)) with
            | none => (.error (.wrapped "scan error"), db)
            | some r =>
              (.ok ({ PullRequestID := r.pr_id, PullRequestName := r.pr_name,
                      AuthorID := r.author_id, Status := r.status,
                      AssignedReviewers := GetReviewers tx2 pullRequestID,
                      MergedAt := none }, newReviewerID), tx2)

end PRPostgresRepository

/-! ## `internal/service/pull_request_service.go` -/

namespace PullRequestService

def CreatePR (rnd : Nat → Nat) (db : Store) (pullRequestID pullRequestName authorID : String) :
    Outcome PullRequest :=
  if pullRequestID = "" then (.error (.prError (NewEmptyFieldError "pull_request_id")), db)
  else if pullRequestName = "" then
    (.error (.prError (NewEmptyFieldError "pull_request_name")), db)
  else if authorID = "" then (.error (.prError (NewEmptyFieldError "author_id")), db)
  else PRPostgresRepository.CreatePR rnd db pullRequestID pullRequestName authorID

def MergePR (now : Nat) (db : Store) (pullRequestID : String) : Outcome PullRequest :=
  if pullRequestID = "" then (.error (.prError (NewEmptyFieldError "pull_request_id")), db)
  else PRPostgresRepository.MergePR now db pullRequestID

def ReassignPR (rnd : Nat → Nat) (db : Store) (pullRequestID oldReviewerID : String) :
    Outcome (PullRequest × String) :=
  if pullRequestID = "" then (.error (.prError (NewEmptyFieldError "pull_request_id")), db)
  else if oldReviewerID = "" then
    (.error (.prError (NewEmptyFieldError "old_reviewer_id")), db)
  else PRPostgresRepository.ReassignPR rnd db pullRequestID oldReviewerID

end PullRequestService

/-! ## Reading the store -/

/-- The row of table `pr` with the given key, as `QueryRow(...).Scan` reads it. -/
def Store.lookupPR (s : Store) (pr_id : String) : Option PRRow :=
  s.pr.find? (fun r => decide (r.pr_id = pr_id))

/-- The primary key of `users`: no two rows share a `user_id`. -/
def Store.usersKeyed (s : Store) : Prop := (s.users.map (fun u => u.user_id)).Nodup

/-- What `TeamService.AddTeam` checks before a member is inserted: no row of `users` has an
empty `user_id`. -/
def Store.userIdsNonEmpty (s : Store) : Prop := ∀ u ∈ s.users, u.user_id ≠ ""

/-- The pool of section 4.1 in the words of the spec: the active members of the author's team,
the author excluded. -/
def activeTeammates (s : Store) (authorID : String) : List UserRow :=
  s.users.filter (fun u =>
    u.is_active && decide (u.user_id ≠ authorID)
      && s.users.any (fun a => decide (a.user_id = authorID) && decide (a.team_name = u.team_name)))

/-- The row of table `users` with the given key, as a scalar subquery on `user_id` reads it. -/
def Store.lookupUser (s : Store) (user_id : String) : Option UserRow :=
  s.users.find? (fun u => decide (u.user_id = user_id))

/-- The store a committed `ReassignPR` leaves: the row of the old reviewer deleted, the row of
the new one appended. -/
def reassigned (db : Store) (pullRequestID oldReviewerID newReviewerID : String) : Store :=
  { db with reviewer_x_pr :=
      (db.deleteReviewer pullRequestID oldReviewerID).reviewer_x_pr
        ++ [⟨newReviewerID, pullRequestID⟩] }

/-! ## Example stores -/

/-- Team `T` with the author `A`, two active teammates and an inactive one; no PR yet. -/
def storeT : Store :=
  { team := ["T"],
    users := [⟨"A", "a", "T", true⟩, ⟨"R1", "r1", "T", true⟩, ⟨"R2", "r2", "T", true⟩,
              ⟨"R3", "r3", "T", false⟩],
    pr := [],
    reviewer_x_pr := [] }

/-- The store `storeT` with the open PR `p1` of `A`, reviewed by `R1`. -/
def storeOpen : Store :=
  { storeT with
    pr := [⟨"p1", "x", "A", "OPEN", none⟩],
    reviewer_x_pr := [⟨"R1", "p1"⟩] }

/-- The store `storeT` with the PR `p1` of `A`, merged at time 7 and reviewed by `R1`. -/
def storeMerged : Store :=
  { storeT with
    pr := [⟨"p1", "x", "A", "MERGED", some 7⟩],
    reviewer_x_pr := [⟨"R1", "p1"⟩] }

/-! ## Teams, users and statistics -/

/-- Modelled from the spec: the struct `model.TeamMember`, whose declaration is not among the
sources; the fields are the ones `AddTeam` and `GetTeam` read and write. -/
structure TeamMember where
  UserID : String
  Username : String
  IsActive : Bool
deriving DecidableEq, Repr

/-- Modelled from the spec: the struct `model.Team`, whose declaration is not among the
sources. -/
structure Team where
  TeamName : String
  Members : List TeamMember
deriving DecidableEq, Repr

/-- Modelled from the spec: the struct `model.User`, whose declaration is not among the sources;
the fields are the ones `SetUserIsActive` scans. -/
structure User where
  UserID : String
  Username : String
  TeamName : String
  IsActive : Bool
deriving DecidableEq, Repr

/-- The struct `model.UserStatistics`; a Go `int` that holds a row count is a natural number. -/
structure UserStatistics where
  UserID : String
  Username : String
  TeamName : String
  AssignedReviewsCount : Nat
  AuthoredPRsCount : Nat
deriving DecidableEq, Repr

/-- The struct `model.TeamStatistics`; a Go `int` that holds a row count is a natural number. -/
structure TeamStatistics where
  TeamName : String
  TotalPRs : Nat
  MergedPRs : Nat
  OpenPRs : Nat
deriving DecidableEq, Repr

/-- Modelled from the spec: `INSERT INTO team (team_name)` under the schema of section 6; the
primary key on `team_name` rejects a second row (`none`). -/
def Store.insertTeam (s : Store) (team_name : String) : Option Store :=
  if s.team.any (fun t => decide (t = team_name)) then none
  else some { s with team := s.team ++ [team_name] }

/-- Modelled from the spec: `INSERT INTO users (user_id, username, team_name, is_active)` under
the schema of section 6; the primary key on `user_id` and the foreign key on `team_name` reject
the row (`none`). -/
def Store.insertUser (s : Store) (user_id username team_name : String) (is_active : Bool) :
    Option Store :=
  if s.users.any (fun u => decide (u.user_id = user_id)) then none
  else if s.team.any (fun t => decide (t = team_name)) then
    some { s with users := s.users ++ [⟨user_id, username, team_name, is_active⟩] }
  else none

/-- The statement `UPDATE users SET is_active = $1 WHERE user_id = $2`. -/
def Store.updateIsActive (s : Store) (user_id : String) (is_active : Bool) : Store :=
  { s with users :=
      s.users.map (fun u => if u.user_id = user_id then { u with is_active := is_active } else u) }

namespace TeamPostgresRepository

def TeamExists (tx : Store) (teamName : String) : Bool :=
  tx.team.any (fun t => decide (t = teamName))

/-- The loop `for _, teamMember := range team.Members` of `AddTeam`, stopping at the first
insert that fails. -/
def insertMembers (tx : Store) : List TeamMember → String → Option Store
  | [], _ => some tx
  | teamMember :: rest, teamName =>
    match tx.insertUser teamMember.UserID teamMember.Username teamName teamMember.IsActive with
    | none => none
    | some tx1 => insertMembers tx1 rest teamName

def AddTeam (db : Store) (team : Team) : Outcome Team :=
  if TeamExists db team.TeamName then
    (.error (.prError NewTeamExistsError), db)
  else
    match db.insertTeam team.TeamName with
    | none => (.error (.wrapped "exec error"), db)
    | some tx1 =>
      match insertMembers tx1 team.Members team.TeamName with
      | none => (.error (.wrapped "exec error"), db)
      | some tx2 => (.ok team, tx2)

end TeamPostgresRepository

namespace TeamService

/-- The loop over `team.Members` of the service: is some `UserID` empty? -/
def anyEmptyUserID (members : List TeamMember) : Bool :=
  members.any (fun member => decide (member.UserID = ""))

def AddTeam (db : Store) (team : Team) : Outcome Team :=
  if team.TeamName = "" then (.error (.prError (NewEmptyFieldError "team_name")), db)
  else if team.Members.length = 0 then (.error (.prError (NewEmptyFieldError "members")), db)
  else if anyEmptyUserID team.Members then
    (.error (.prError (NewEmptyFieldError "user_id")), db)
  else TeamPostgresRepository.AddTeam db team

end TeamService

namespace UsersPostgresRepository

def SetUserIsActive (db : Store) (userID : String) (isActive : Bool) : Outcome User :=
  let tx := db.updateIsActive userID isActive
  -- `result.RowsAffected()`: the rows the `WHERE` of the `UPDATE` selects
  let rowsAffected := (db.users.filter (fun u => decide (u.user_id = userID))).length
  if rowsAffected = 0 then
    (.error (.prError NewNotFoundError), db)
  else
    match tx.users.find? (fun u => decide (u.user_id = userID)) with
    | none => (.error (.wrapped "scan error"), db)
    | some u => (.ok ⟨u.user_id, u.username, u.team_name, u.is_active⟩, tx)

end UsersPostgresRepository

namespace UsersService

def SetUserIsActive (db : Store) (userID : String) (isActive : Bool) : Outcome User :=
  if userID = "" then (.error (.prError (NewEmptyFieldError "user_id")), db)
  else UsersPostgresRepository.SetUserIsActive db userID isActive

end UsersService

namespace StatisticsPostgresRepository

def UserExists (db : Store) (userID : String) : Bool :=
  db.users.any (fun u => decide (u.user_id = userID))

def TeamExists (db : Store) (teamName : String) : Bool :=
  db.team.any (fun t => decide (t = teamName))

def GetUserStatistics (db : Store) (userID : String) : Outcome UserStatistics :=
  if UserExists db userID = false then
    (.error (.prError NewNotFoundError), db)
  else
    match db.users.find? (fun u => decide (u.user_id = userID)) with
    | none => (.error (.wrapped "failed to get user info"), db)
    | some u =>
      (.ok { UserID := u.user_id, Username := u.username, TeamName := u.team_name,
             AuthoredPRsCount := (db.pr.filter (fun r => decide (r.author_id = userID))).length,
             AssignedReviewsCount :=
               (db.reviewer_x_pr.filter (fun r => decide (r.user_id = userID))).length }, db)

/-- The rows of `pr JOIN users as u ON pr.author_id = u.user_id WHERE u.team_name = $1`. -/
def joinPRUsers (db : Store) (teamName : String) : List (PRRow × UserRow) :=
  db.pr.flatMap (fun r =>
    (db.users.filter (fun u =>
        decide (r.author_id = u.user_id) && decide (u.team_name = teamName))).map
      (fun u => (r, u)))

/-- The query of `GetTeamStatistics`.  Over no rows `COUNT(*)` is 0 but both `SUM(...)` are
NULL, and scanning NULL into a Go `int` is a scan error. -/
def GetTeamStatistics (db : Store) (teamName : String) : Outcome TeamStatistics :=
  if TeamExists db teamName = false then
    (.error (.prError NewNotFoundError), db)
  else
    match joinPRUsers db teamName with
    | [] => (.error (.wrapped "scan error"), db)
    | row :: rows =>
      (.ok { TeamName := teamName,
             TotalPRs := (row :: rows).length,
             MergedPRs := ((row :: rows).filter (fun x => decide (x.1.status = "MERGED"))).length,
             OpenPRs := ((row :: rows).filter (fun x => decide (x.1.status = "OPEN"))).length },
        db)

end StatisticsPostgresRepository

namespace StatisticsService

def GetUserStatistics (db : Store) (userID : String) : Outcome UserStatistics :=
  if userID = "" then (.error (.prError (NewEmptyFieldError "user_id")), db)
  else StatisticsPostgresRepository.GetUserStatistics db userID

def GetTeamStatistics (db : Store) (teamName : String) : Outcome TeamStatistics :=
  if teamName = "" then (.error (.prError (NewEmptyFieldError "team_id")), db)
  else StatisticsPostgresRepository.GetTeamStatistics db teamName

end StatisticsService

/-! ## The operations that write -/

/-- A call of one of the five operations that can change the store, with its arguments, the
random stream and the clock reading it uses. -/
inductive Operation where
  | createPR (rnd : Nat → Nat) (pullRequestID pullRequestName authorID : String)
  | mergePR (now : Nat) (pullRequestID : String)
  | reassignPR (rnd : Nat → Nat) (pullRequestID oldReviewerID : String)
  | addTeam (team : Team)
  | setUserIsActive (userID : String) (isActive : Bool)

/-- The store after the call went through the service layer. -/
def Operation.run : Operation → Store → Store
  | .createPR rnd id name author, db => (PullRequestService.CreatePR rnd db id name author).2
  | .mergePR now id, db => (PullRequestService.MergePR now db id).2
  | .reassignPR rnd id old, db => (PullRequestService.ReassignPR rnd db id old).2
  | .addTeam team, db => (TeamService.AddTeam db team).2
  | .setUserIsActive userID isActive, db => (UsersService.SetUserIsActive db userID isActive).2

/-- The store after the call was made on the repository layer directly. -/
def Operation.runRepository : Operation → Store → Store
  | .createPR rnd id name author, db => (PRPostgresRepository.CreatePR rnd db id name author).2
  | .mergePR now id, db => (PRPostgresRepository.MergePR now db id).2
  | .reassignPR rnd id old, db => (PRPostgresRepository.ReassignPR rnd db id old).2
  | .addTeam team, db => (TeamPostgresRepository.AddTeam db team).2
  | .setUserIsActive userID isActive, db =>
    (UsersPostgresRepository.SetUserIsActive db userID isActive).2

/-- The invariant of section 3 on reviewer sets: for every PR the author is not among its
reviewers and no user appears twice among them. -/
def Store.reviewersWellFormed (s : Store) : Prop :=
  ∀ (id : String) (row : PRRow), s.lookupPR id = some row →
    row.author_id ∉ PRPostgresRepository.GetReviewers s id
      ∧ (PRPostgresRepository.GetReviewers s id).Nodup

/-- The PRs authored by the user, in the words of the spec. -/
def authoredPRs (s : Store) (userID : String) : List PRRow :=
  s.pr.filter (fun r => decide (r.author_id = userID))

/-- The PRs authored by members of the team, in the words of the spec. -/
def teamPRs (s : Store) (teamName : String) : List PRRow :=
  s.pr.filter (fun r =>
    s.users.any (fun u => decide (u.user_id = r.author_id) && decide (u.team_name = teamName)))

/-! ## The PR operations with every error branch

The same three functions once more, now with the branches `if err != nil` that a failing
database call takes.  `fails k` says whether call number `k` of the function (counted in source
order) fails for a reason outside the data.  Each body hands back the Go result, the working
copy of the transaction at the moment of the `return`, and whether `tx.Commit()` succeeded; the
deferred `tx.Rollback()` then decides what the database is.
-/

/-- The deferred `tx.Rollback()`: after a successful `tx.Commit()` it is `sql.ErrTxDone` and the
writes of the transaction stay; in every other case they are dropped and the database is the one
the call started with. -/
def deferredRollback (db tx : Store) (committed : Bool) : Store :=
  if committed then tx else db

namespace Faulty

/-- The loop over `reviewers` of `CreatePR`; call number `k` is the insert of the first
reviewer.  Gives the working copy and whether every insert succeeded. -/
def insertReviewers (fails : Nat → Bool) : Nat → Store → List String → String → Store × Bool
  | _, tx, [], _ => (tx, true)
  | k, tx, reviewer :: rest, pullRequestID =>
    if fails k then (tx, false)
    else
      match tx.insertReviewer reviewer pullRequestID with
      | none => (tx, false)
      | some tx1 => insertReviewers fails (k + 1) tx1 rest pullRequestID

/-- The body of `CreatePR`.  Calls: 0 `AuthorExists`, 1 `BeginTx`, 2 the `SELECT pr_id`,
3 `FindReviewers`, 4 the `INSERT INTO pr`, 5 and on the inserts of the reviewers, then
`Commit`. -/
def CreatePRBody (fails : Nat → Bool) (rnd : Nat → Nat) (db : Store)
    (pullRequestID pullRequestName authorID : String) :
    Except GoError PullRequest × Store × Bool :=
  if fails 0 then (.error (.wrapped "scan error"), db, false)
  else if PRPostgresRepository.AuthorExists db authorID = false then
    (.error (.prError NewNotFoundError), db, false)
  else if fails 1 then (.error (.wrapped "begin transaction error"), db, false)
  else if fails 2 then (.error (.wrapped "scan error"), db, false)
  else
    match db.pr.find? (fun r => decide (r.pr_id = pullRequestID)) with
    | none => (.error (.prError NewPRExistsError), db, false)
    | some _ =>
      if fails 3 then (.error (.wrapped "query error"), db, false)
      else if fails 4 then (.error (.wrapped "exec error"), db, false)
      else
        match db.insertPR pullRequestID pullRequestName authorID with
        | none => (.error (.wrapped "exec error"), db, false)
        | some tx1 =>
          match insertReviewers fails 5 tx1 (PRPostgresRepository.FindReviewers rnd db authorID)
              pullRequestID with
          | (tx2, false) => (.error (.wrapped "exec error"), tx2, false)
          | (tx2, true) =>
            if fails (5 + (PRPostgresRepository.FindReviewers rnd db authorID).length) then
              (.error (.wrapped "commit transaction error"), tx2, false)
            else
              (.ok { PullRequestID := pullRequestID, PullRequestName := pullRequestName,
                     AuthorID := authorID, Status := "OPEN",
                     AssignedReviewers := PRPostgresRepository.FindReviewers rnd db authorID,
                     MergedAt := none }, tx2, true)

def CreatePR (fails : Nat → Bool) (rnd : Nat → Nat) (db : Store)
    (pullRequestID pullRequestName authorID : String) : Outcome PullRequest :=
  ((CreatePRBody fails rnd db pullRequestID pullRequestName authorID).1,
    deferredRollback db (CreatePRBody fails rnd db pullRequestID pullRequestName authorID).2.1
      (CreatePRBody fails rnd db pullRequestID pullRequestName authorID).2.2)

/-- The body of `MergePR`.  Calls: 0 `PRExists`, 1 `BeginTx`, 2 `GetStatus`; on a merged PR
3 the row of `GetPR`, 4 its `GetReviewers`, 5 `Commit`; otherwise 6 the `UPDATE ... RETURNING`
(whose every scan error is reported as `NOT_FOUND`), 7 `GetReviewers`, 8 `Commit`. -/
def MergePRBody (fails : Nat → Bool) (now : Nat) (db : Store) (pullRequestID : String) :
    Except GoError PullRequest × Store × Bool :=
  if fails 0 then (.error (.wrapped "scan error"), db, false)
  else if PRPostgresRepository.PRExists db pullRequestID = false then
    (.error (.prError NewNotFoundError), db, false)
  else if fails 1 then (.error (.wrapped "begin transaction error"), db, false)
  else if fails 2 then (.error (.wrapped "query row error"), db, false)
  else
    match PRPostgresRepository.GetStatus db pullRequestID with
    | .error e => (.error e, db, false)
    | .ok status =>
      if status = "MERGED" then
        if fails 3 then (.error (.wrapped "scan error"), db, false)
        else
          match PRPostgresRepository.GetPR db pullRequestID with
          | .error e => (.error e, db, false)
          | .ok pr =>
            if fails 4 then (.error (.wrapped "query error"), db, false)
            else if fails 5 then (.error (.wrapped "commit transaction error"), db, false)
            else (.ok pr, db, true)
      else if fails 6 then (.error (.prError NewNotFoundError), db, false)
      else
        match ((db.pr.filter (fun r => decide (r.pr_id = pullRequestID))).map
            (fun r => r.merged now)).head? with
        | none => (.error (.prError NewNotFoundError), db.updateMerged pullRequestID now, false)
        | some r =>
          if fails 7 then
            (.error (.wrapped "query error"), db.updateMerged pullRequestID now, false)
          else if fails 8 then
            (.error (.wrapped "commit transaction error"), db.updateMerged pullRequestID now,
              false)
          else
            (.ok { PullRequestID := r.pr_id, PullRequestName := r.pr_name,
                   AuthorID := r.author_id, Status := r.status,
                   AssignedReviewers :=
                     PRPostgresRepository.GetReviewers (db.updateMerged pullRequestID now)
                       pullRequestID,
                   MergedAt := r.merged_at }, db.updateMerged pullRequestID now, true)

def MergePR (fails : Nat → Bool) (now : Nat) (db : Store) (pullRequestID : String) :
    Outcome PullRequest :=
  ((MergePRBody fails now db pullRequestID).1,
    deferredRollback db (MergePRBody fails now db pullRequestID).2.1
      (MergePRBody fails now db pullRequestID).2.2)

/-- The body of `ReassignPR`.  Calls: 0 `PRExists`, 1 `BeginTx`, 2 `GetStatus`, 3 `IsReviewer`,
4 `FindNewReviewer`, 5 the `DELETE`, 6 the `INSERT`, 7 the `SELECT` of the PR, 8 `GetReviewers`,
9 `Commit`. -/
def ReassignPRBody (fails : Nat → Bool) (rnd : Nat → Nat) (db : Store)
    (pullRequestID oldReviewerID : String) :
    Except GoError (PullRequest × String) × Store × Bool :=
  if fails 0 then (.error (.wrapped "scan error"), db, false)
  else if PRPostgresRepository.PRExists db pullRequestID = false then
    (.error (.prError NewNotFoundError), db, false)
  else if fails 1 then (.error (.wrapped "begin transaction error"), db, false)
  else if fails 2 then (.error (.wrapped "query row error"), db, false)
  else
    match PRPostgresRepository.GetStatus db pullRequestID with
    | .error e => (.error e, db, false)
    | .ok status =>
      if status = "MERGED" then (.error (.prError NewPRMergedsError), db, false)
      else if fails 3 then (.error (.wrapped "scan error"), db, false)
      else if PRPostgresRepository.IsReviewer db pullRequestID oldReviewerID = false then
        (.error (.prError NewNotAssignedError), db, false)
      else if fails 4 then (.error (.wrapped "query row error"), db, false)
      else if PRPostgresRepository.FindNewReviewer rnd db pullRequestID oldReviewerID = "" then
        (.error (.prError NewNoCandidateError), db, false)
      else if fails 5 then (.error (.wrapped "exec error"), db, false)
      else if fails 6 then
        (.error (.wrapped "exec error"), db.deleteReviewer pullRequestID oldReviewerID, false)
      else
        match (db.deleteReviewer pullRequestID oldReviewerID).insertReviewer
            (PRPostgresRepository.FindNewReviewer rnd db pullRequestID oldReviewerID)
            pullRequestID with
        | none =>
          (.error (.wrapped "exec error"), db.deleteReviewer pullRequestID oldReviewerID, false)
        | some tx2 =>
          if fails 7 then (.error (.wrapped "scan error"), tx2, false)
          else
            match tx2.pr.find? (fun r => decide (r.pr_id = pullRequestID)) with
            | none => (.error (.wrapped "scan error"), tx2, false)
            | some r =>
              if fails 8 then (.error (.wrapped "query error"), tx2, false)
              else if fails 9 then (.error (.wrapped "commit transaction error"), tx2, false)
              else
                (.ok ({ PullRequestID := r.pr_id, PullRequestName := r.pr_name,
                        AuthorID := r.author_id, Status := r.status,
                        AssignedReviewers :=
                          PRPostgresRepository.GetReviewers tx2 pullRequestID,
                        MergedAt := none },
                      PRPostgresRepository.FindNewReviewer rnd db pullRequestID oldReviewerID),
                  tx2, true)

def ReassignPR (fails : Nat → Bool) (rnd : Nat → Nat) (db : Store)
    (pullRequestID oldReviewerID : String) : Outcome (PullRequest × String) :=
  ((ReassignPRBody fails rnd db pullRequestID oldReviewerID).1,
    deferredRollback db (ReassignPRBody fails rnd db pullRequestID oldReviewerID).2.1
      (ReassignPRBody fails rnd db pullRequestID oldReviewerID).2.2)

end Faulty

/-- No body reports an error after a successful commit: an error comes with `committed = false`. -/
def commitsOnlyOnSuccess {α : Type} : Except GoError α × Store × Bool → Prop
  | (.ok _, _, _) => True
  | (.error _, _, committed) => committed = false

/-- No database call fails. -/
def noFault : Nat → Bool := fun _ => false

/-- Only call number `k` fails. -/
def faultAt (k : Nat) : Nat → Bool := fun i => decide (i = k)

/-! ## More example stores -/

/-- Team `S` with the author `B` and one more active member `Q`, who reviews the open PR `q1` of
`B`: nobody is left to replace `Q`. -/
def storeSole : Store :=
  { team := ["S"],
    users := [⟨"B", "b", "S", true⟩, ⟨"Q", "q", "S", true⟩],
    pr := [⟨"q1", "y", "B", "OPEN", none⟩],
    reviewer_x_pr := [⟨"Q", "q1"⟩] }

/-- Team `T` where `A` authored `p1` and `p2` and reviews `p3` of `R1`. -/
def storeStats : Store :=
  { storeT with
    pr := [⟨"p1", "x", "A", "OPEN", none⟩, ⟨"p2", "y", "A", "MERGED", some 3⟩,
           ⟨"p3", "z", "R1", "OPEN", none⟩],
    reviewer_x_pr := [⟨"R1", "p1"⟩, ⟨"R2", "p2"⟩, ⟨"A", "p3"⟩] }

/-- Team `T` where `A` authored three PRs and `R1` two, one of each merged. -/
def storeFive : Store :=
  { storeT with
    pr := [⟨"a0", "x", "A", "MERGED", some 1⟩, ⟨"a1", "x", "A", "OPEN", none⟩,
           ⟨"a2", "x", "A", "OPEN", none⟩, ⟨"b0", "x", "R1", "MERGED", some 2⟩,
           ⟨"b1", "x", "R1", "OPEN", none⟩] }

/-! ## Reading teams and reviews, and the PR handlers -/

/-- Modelled from the spec: the struct `model.PullRequestShort`, whose declaration is not among
the sources; the fields are the ones `GetUserReview` scans. -/
structure PullRequestShort where
  PullRequestID : String
  PullRequestName : String
  AuthorID : String
  Status : String
deriving DecidableEq, Repr

/-- The row of `users` that `AddTeam` inserts for a member of the team. -/
def TeamMember.toRow (m : TeamMember) (teamName : String) : UserRow :=
  ⟨m.UserID, m.Username, teamName, m.IsActive⟩

/-- The function `TeamPostgresRepository.GetTeam` of `team_repository.go`. -/
def TeamPostgresRepository.GetTeam (db : Store) (teamName : String) : Outcome Team :=
  if TeamPostgresRepository.TeamExists db teamName = false then
    (.error (.prError NewNotFoundError), db)
  else
    (.ok { TeamName := teamName,
           Members := (db.users.filter (fun u => decide (u.team_name = teamName))).map
             (fun u => ⟨u.user_id, u.username, u.is_active⟩) }, db)

/-- The function `TeamService.GetTeam` of `team_service.go`. -/
def TeamService.GetTeam (db : Store) (teamName : String) : Outcome Team :=
  if teamName = "" then (.error (.prError (NewEmptyFieldError "team_name")), db)
  else TeamPostgresRepository.GetTeam db teamName

/-- The function `UsersPostgresRepository.UserExists` of `users_repository.go`. -/
def UsersPostgresRepository.UserExists (db : Store) (userID : String) : Bool :=
  db.users.any (fun u => decide (u.user_id = userID))

/-- The function `UsersPostgresRepository.GetUserReview` of `users_repository.go`: the rows of
`pr INNER JOIN reviewer_x_pr as rpr ON pr.pr_id = rpr.pr_id WHERE rpr.user_id = $1`. -/
def UsersPostgresRepository.GetUserReview (db : Store) (userID : String) :
    Outcome (List PullRequestShort) :=
  if UsersPostgresRepository.UserExists db userID = false then
    (.error (.prError NewNotFoundError), db)
  else
    (.ok (db.pr.flatMap (fun pr =>
        (db.reviewer_x_pr.filter (fun rpr =>
            decide (pr.pr_id = rpr.pr_id) && decide (rpr.user_id = userID))).map
          (fun _ => ⟨pr.pr_id, pr.pr_name, pr.author_id, pr.status⟩))), db)

/-- The function `UsersService.GetUserReview` of `users_service.go`. -/
def UsersService.GetUserReview (db : Store) (userID : String) :
    Outcome (List PullRequestShort) :=
  if userID = "" then (.error (.prError (NewEmptyFieldError "user_id")), db)
  else UsersPostgresRepository.GetUserReview db userID

/-- The constant `http.StatusOK`. -/
def StatusOK : Nat := 200
/-- The constant `http.StatusCreated`. -/
def StatusCreated : Nat := 201
/-- The constant `http.StatusBadRequest`. -/
def StatusBadRequest : Nat := 400
/-- The constant `http.StatusNotFound`. -/
def StatusNotFound : Nat := 404
/-- The constant `http.StatusConflict`. -/
def StatusConflict : Nat := 409
/-- The constant `http.StatusInternalServerError`. -/
def StatusInternalServerError : Nat := 500

namespace Handler

/-- The status `Handler.CreatePR` writes for what the service returned, after the request body
was bound; `none` when the `switch` on the code has no case and nothing is written. -/
def createPRStatus : Except GoError PullRequest → Option Nat
  | .error (.prError prError) =>
    if prError.Code = CodeNotFound then some StatusNotFound
    else if prError.Code = CodePRExists then some StatusConflict
    else if prError.Code = CodeEmptyField then some StatusBadRequest
    else none
  | .error (.wrapped _) => some StatusInternalServerError
  | .ok _ => some StatusCreated

/-- The status `Handler.MergePR` writes for what the service returned. -/
def mergePRStatus : Except GoError PullRequest → Option Nat
  | .error (.prError prError) =>
    if prError.Code = CodeNotFound then some StatusNotFound
    else if prError.Code = CodeEmptyField then some StatusBadRequest
    else none
  | .error (.wrapped _) => some StatusInternalServerError
  | .ok _ => some StatusOK

/-- The status `Handler.ReassignPR` writes for what the service returned. -/
def reassignPRStatus : Except GoError (PullRequest × String) → Option Nat
  | .error (.prError prError) =>
    if prError.Code = CodeNotFound then some StatusNotFound
    else if prError.Code = CodePRMerged then some StatusConflict
    else if prError.Code = CodeNotAssigned then some StatusConflict
    else if prError.Code = CodeNoCandidate then some StatusConflict
    else if prError.Code = CodeEmptyField then some StatusBadRequest
    else none
  | .error (.wrapped _) => some StatusInternalServerError
  | .ok _ => some StatusOK

def CreatePR (rnd : Nat → Nat) (db : Store) (pullRequestID pullRequestName authorID : String) :
    Option Nat :=
  createPRStatus (PullRequestService.CreatePR rnd db pullRequestID pullRequestName authorID).1

def MergePR (now : Nat) (db : Store) (pullRequestID : String) : Option Nat :=
  mergePRStatus (PullRequestService.MergePR now db pullRequestID).1

def ReassignPR (rnd : Nat → Nat) (db : Store) (pullRequestID oldUserID : String) : Option Nat :=
  reassignPRStatus (PullRequestService.ReassignPR rnd db pullRequestID oldUserID).1

end Handler

/-- The mapping of section 7 in the words of the spec: success to the status of the operation,
`EMPTY_FIELD` to 400, `NOT_FOUND` to 404, the four conflicts to 409, every error that is not a
PRError to 500; a PRError with any other code has no status. -/
def claimedStatus {α : Type} (success : Nat) : Except GoError α → Option Nat
  | .ok _ => some success
  | .error (.wrapped _) => some 500
  | .error (.prError e) =>
    if e.Code = "EMPTY_FIELD" then some 400
    else if e.Code = "NOT_FOUND" then some 404
    else if e.Code = "PR_EXISTS" ∨ e.Code = "PR_MERGED" ∨ e.Code = "NOT_ASSIGNED"
        ∨ e.Code = "NO_CANDIDATE" then some 409
    else none

/-- The handler writes a status for the result, and it is the status the spec names. -/
def statusAsClaimed {α : Type} (success : Nat) (handler : Except GoError α → Option Nat)
    (result : Except GoError α) : Prop :=
  handler result = claimedStatus success result ∧ (handler result).isSome = true

/-! ## More constraints of the schema and one more invariant -/

/-- The primary key of `reviewer_x_pr`: no pair `(pr_id, user_id)` is stored twice. -/
def Store.reviewersKeyed (s : Store) : Prop := s.reviewer_x_pr.Nodup

/-- The foreign key of `reviewer_x_pr.pr_id`: every reviewer row belongs to a stored PR. -/
def Store.reviewersPRFK (s : Store) : Prop :=
  ∀ r ∈ s.reviewer_x_pr, ∃ p ∈ s.pr, p.pr_id = r.pr_id

/-- The foreign key of `users.team_name`: the team of every user is a row of `team`. -/
def Store.usersTeamFK (s : Store) : Prop := ∀ u ∈ s.users, u.team_name ∈ s.team

/-- Every assigned reviewer of every PR belongs to the same team as the author of that PR. -/
def Store.reviewersInAuthorsTeam (s : Store) : Prop :=
  ∀ (id : String) (row : PRRow), s.lookupPR id = some row →
    ∀ reviewer ∈ PRPostgresRepository.GetReviewers s id,
      ∃ a u, s.lookupUser row.author_id = some a ∧ s.lookupUser reviewer = some u
        ∧ u.team_name = a.team_name

/-- The PRs on which the user is an assigned reviewer, in the words of the spec, each as the
entry `GetUserReview` lists. -/
def reviewedPRs (s : Store) (userID : String) : List PullRequestShort :=
  (s.pr.filter (fun r => decide (userID ∈ PRPostgresRepository.GetReviewers s r.pr_id))).map
    (fun r => ⟨r.pr_id, r.pr_name, r.author_id, r.status⟩)

/-- The store `storeT` with the open PR `p1` of `A` and its reviewers `R2` and `R1`, in the order
of their rows. -/
def storeCreated : Store :=
  { storeT with
    pr := [⟨"p1", "x", "A", "OPEN", none⟩],
    reviewer_x_pr := [⟨"R2", "p1"⟩, ⟨"R1", "p1"⟩] }

/-- The team `N` of the two new members `U1` and `U2`. -/
def teamN : Team := ⟨"N", [⟨"U1", "u1", true⟩, ⟨"U2", "u2", false⟩]⟩

/-! ## Random draws -/

theorem orderByRandomLimit_length {α : Type} (rnd : Nat → Nat) (n : Nat) (l : List α) :
    (orderByRandomLimit rnd n l).length = min n l.length := by
  induction n generalizing l with
  | zero => simp [orderByRandomLimit]
  | succ n ih =>
    cases l with
    | nil => simp [orderByRandomLimit]
    | cons x xs =>
      have hlt : rnd n % (x :: xs).length < (x :: xs).length := Nat.mod_lt _ (Nat.succ_pos _)
      have hlen := List.length_eraseIdx_of_lt hlt
      simp only [orderByRandomLimit, List.length_cons, ih]
      simp only [List.length_cons] at hlen
      rw [hlen]
      omega

theorem orderByRandomLimit_subset {α : Type} (rnd : Nat → Nat) (n : Nat) (l : List α) :
    ∀ a ∈ orderByRandomLimit rnd n l, a ∈ l := by
  induction n generalizing l with
  | zero => simp [orderByRandomLimit]
  | succ n ih =>
    cases l with
    | nil => simp [orderByRandomLimit]
    | cons x xs =>
      intro a ha
      simp only [orderByRandomLimit, List.mem_cons] at ha
      rcases ha with ha | ha
      · rw [ha]
        exact List.get_mem _ _ _
      · exact (List.eraseIdx_sublist _ _).subset (ih _ a ha)

theorem orderByRandomLimit_nodup {α : Type} (rnd : Nat → Nat) (n : Nat) (l : List α)
    (hl : l.Nodup) : (orderByRandomLimit rnd n l).Nodup := by
  induction n generalizing l with
  | zero => simp [orderByRandomLimit]
  | succ n ih =>
    cases l with
    | nil => simp [orderByRandomLimit]
    | cons x xs =>
      simp only [orderByRandomLimit, List.nodup_cons]
      refine ⟨?_, ih _ (hl.sublist (List.eraseIdx_sublist _ _))⟩
      intro hmem
      have hmem2 := orderByRandomLimit_subset rnd n _ _ hmem
      rw [List.mem_eraseIdx_iff_getElem] at hmem2
      obtain ⟨i, hi, hne, heq⟩ := hmem2
      rw [List.get_eq_getElem] at heq
      exact hne ((hl.getElem_inj_iff).1 heq)

theorem orderByRandomLimit_one_ne_nil {α : Type} (rnd : Nat → Nat) (l : List α) (hl : l ≠ []) :
    orderByRandomLimit rnd 1 l ≠ [] := by
  cases l with
  | nil => exact absurd rfl hl
  | cons x xs => simp [orderByRandomLimit]

/-- Every row can be the single draw of `LIMIT 1`: the stream that answers `i` draws row `i`. -/
theorem orderByRandomLimit_one_reaches {α : Type} (l : List α) (i : Nat) (h : i < l.length) :
    orderByRandomLimit (fun _ => i) 1 l = [l.get ⟨i, h⟩] := by
  cases l with
  | nil => exact absurd h (Nat.not_lt_zero _)
  | cons x xs =>
    simp only [orderByRandomLimit, List.cons.injEq, and_true]
    congr 1
    exact Fin.ext (Nat.mod_eq_of_lt h)

/-- Every ordered pair of distinct rows can be the two draws of `LIMIT 2`: row `i`, then row `j`
of what is left. -/
theorem orderByRandomLimit_two_reaches {α : Type} (l : List α) (i j : Nat) (hi : i < l.length)
    (hj : j < (l.eraseIdx i).length) :
    orderByRandomLimit (fun k => if k = 1 then i else j) 2 l
      = [l.get ⟨i, hi⟩, (l.eraseIdx i).get ⟨j, hj⟩] := by
  cases l with
  | nil => exact absurd hi (Nat.not_lt_zero _)
  | cons x xs =>
    have hmod : i % (x :: xs).length = i := Nat.mod_eq_of_lt hi
    simp only [orderByRandomLimit, if_true]
    simp only [hmod]
    generalize hrest : (x :: xs).eraseIdx i = rest at hj ⊢
    cases rest with
    | nil => exact absurd hj (Nat.not_lt_zero _)
    | cons y ys =>
      have hmod2 : j % (y :: ys).length = j := Nat.mod_eq_of_lt hj
      have hsel : (if 0 = 1 then i else j) % (y :: ys).length = j := by
        rw [if_neg (by decide)]
        exact hmod2
      simp only [orderByRandomLimit]
      simp only [hsel]

/-! ## Shared facts about the helper queries -/

theorem AuthorExists_eq_true_iff (db : Store) (authorID : String) :
    PRPostgresRepository.AuthorExists db authorID = true ↔ ∃ u ∈ db.users, u.user_id = authorID := by
  simp [PRPostgresRepository.AuthorExists]

theorem PRExists_of_lookupPR {db : Store} {id : String} {row : PRRow}
    (h : db.lookupPR id = some row) : PRPostgresRepository.PRExists db id = true := by
  have hm := List.mem_of_find?_eq_some h
  have hp := List.find?_some h
  simp only [PRPostgresRepository.PRExists, List.any_eq_true]
  exact ⟨row, hm, hp⟩

theorem lookupPR_pr_id {db : Store} {id : String} {row : PRRow}
    (h : db.lookupPR id = some row) : row.pr_id = id := by
  have hp := List.find?_some h
  simpa using hp

theorem lookupPR_eq_none_iff (db : Store) (id : String) :
    db.lookupPR id = none ↔ ∀ r ∈ db.pr, r.pr_id ≠ id := by
  simp [Store.lookupPR]

theorem insertPR_eq_none_of_lookupPR {db : Store} {id : String} {row : PRRow}
    (h : db.lookupPR id = some row) (name author : String) : db.insertPR id name author = none := by
  have hex := PRExists_of_lookupPR h
  simp only [PRPostgresRepository.PRExists] at hex
  simp [Store.insertPR, hex]

/-- The repository's `CreatePR` returns an error and the store it was given, whatever the
arguments: a missing author is `NOT_FOUND`, a fresh id runs into the `sql.ErrNoRows` branch, and
an id that is taken runs into the primary key of `pr`. -/
theorem repository_CreatePR_cases (rnd : Nat → Nat) (db : Store) (id name author : String) :
    PRPostgresRepository.CreatePR rnd db id name author = (.error (.prError NewNotFoundError), db)
    ∨ PRPostgresRepository.CreatePR rnd db id name author = (.error (.prError NewPRExistsError), db)
    ∨ PRPostgresRepository.CreatePR rnd db id name author = (.error (.wrapped "exec error"), db) := by
  unfold PRPostgresRepository.CreatePR
  by_cases ha : PRPostgresRepository.AuthorExists db author = false
  · left
    simp [ha]
  · right
    simp only [ha, if_false]
    cases hf : db.pr.find? (fun r => decide (r.pr_id = id)) with
    | none => left; rfl
    | some row =>
      right
      have hl : db.lookupPR id = some row := hf
      have hins := insertPR_eq_none_of_lookupPR hl name author
      simp [PRPostgresRepository.CreatePRAfterScan, hins]

/-! ## CreatePR -/

/-- C1: with an existing author, a PR id that is not in the store and three non-empty
arguments, `CreatePR` (service, then repository) does not create the PR: it returns the PRError
with code `PR_EXISTS` and leaves the store as it was, so no PR row with that id exists
afterwards. -/
theorem CreatePR_fresh_id_reports_PR_EXISTS (rnd : Nat → Nat) (db : Store)
    (pullRequestID pullRequestName authorID : String)
    (hid : pullRequestID ≠ "") (hname : pullRequestName ≠ "") (hauthor : authorID ≠ "")
    (hu : ∃ u ∈ db.users, u.user_id = authorID)
    (hp : ∀ r ∈ db.pr, r.pr_id ≠ pullRequestID) :
    PullRequestService.CreatePR rnd db pullRequestID pullRequestName authorID
        = (.error (.prError NewPRExistsError), db)
      ∧ NewPRExistsError.Code = "PR_EXISTS"
      ∧ (PullRequestService.CreatePR rnd db pullRequestID pullRequestName authorID).2.lookupPR
          pullRequestID = none := by
  have hex : PRPostgresRepository.AuthorExists db authorID = true :=
    (AuthorExists_eq_true_iff db authorID).2 hu
  have hnone : db.pr.find? (fun r => decide (r.pr_id = pullRequestID)) = none :=
    (lookupPR_eq_none_iff db pullRequestID).2 hp
  have hrun : PullRequestService.CreatePR rnd db pullRequestID pullRequestName authorID
      = (.error (.prError NewPRExistsError), db) := by
    simp [PullRequestService.CreatePR, PRPostgresRepository.CreatePR,
      PRPostgresRepository.CreatePRAfterScan, hid, hname, hauthor, hex,
      hnone]
  refine ⟨hrun, rfl, ?_⟩
  rw [hrun]
  exact hnone

/-- The theorem of C1 at team `T` with author `A` and no PR: creating `p1` is refused. -/
theorem CreatePR_fresh_id_reports_PR_EXISTS_witness :
    PullRequestService.CreatePR (fun _ => 0) storeT "p1" "x" "A"
        = (.error (.prError NewPRExistsError), storeT)
      ∧ NewPRExistsError.Code = "PR_EXISTS"
      ∧ (PullRequestService.CreatePR (fun _ => 0) storeT "p1" "x" "A").2.lookupPR "p1" = none :=
  CreatePR_fresh_id_reports_PR_EXISTS (fun _ => 0) storeT "p1" "x" "A" (by decide) (by decide)
    (by decide) ⟨⟨"A", "a", "T", true⟩, by simp [storeT], rfl⟩ (by simp [storeT])

/-- C2: when a PR with the id already exists and the author exists (arguments non-empty),
`CreatePR` fails and leaves the store unchanged, but the error is the wrapped `exec error` of the
rejected `INSERT`, not a PRError, so in particular not the one with code `PR_EXISTS`. -/
theorem CreatePR_duplicate_id_reports_exec_error (rnd : Nat → Nat) (db : Store)
    (pullRequestID pullRequestName authorID : String) (row : PRRow)
    (hid : pullRequestID ≠ "") (hname : pullRequestName ≠ "") (hauthor : authorID ≠ "")
    (hu : ∃ u ∈ db.users, u.user_id = authorID)
    (hp : db.lookupPR pullRequestID = some row) :
    PullRequestService.CreatePR rnd db pullRequestID pullRequestName authorID
        = (.error (.wrapped "exec error"), db)
      ∧ ∀ e : PRError,
          (PullRequestService.CreatePR rnd db pullRequestID pullRequestName authorID).1
            ≠ .error (.prError e) := by
  have hex : PRPostgresRepository.AuthorExists db authorID = true :=
    (AuthorExists_eq_true_iff db authorID).2 hu
  have hins := insertPR_eq_none_of_lookupPR hp pullRequestName authorID
  have hfind : db.pr.find? (fun r => decide (r.pr_id = pullRequestID)) = some row := hp
  have hrun : PullRequestService.CreatePR rnd db pullRequestID pullRequestName authorID
      = (.error (.wrapped "exec error"), db) := by
    simp [PullRequestService.CreatePR, PRPostgresRepository.CreatePR,
      PRPostgresRepository.CreatePRAfterScan, hid, hname, hauthor, hex,
      hfind, hins]
  refine ⟨hrun, ?_⟩
  intro e
  rw [hrun]
  simp

/-- The theorem of C2 at the store that already holds `p1`. -/
theorem CreatePR_duplicate_id_reports_exec_error_witness :
    PullRequestService.CreatePR (fun _ => 0) storeOpen "p1" "y" "A"
        = (.error (.wrapped "exec error"), storeOpen)
      ∧ ∀ e : PRError,
          (PullRequestService.CreatePR (fun _ => 0) storeOpen "p1" "y" "A").1
            ≠ .error (.prError e) :=
  CreatePR_duplicate_id_reports_exec_error (fun _ => 0) storeOpen "p1" "y" "A"
    ⟨"p1", "x", "A", "OPEN", none⟩ (by decide) (by decide) (by decide)
    ⟨⟨"A", "a", "T", true⟩, by simp [storeOpen, storeT], rfl⟩ rfl

/-- The service's `CreatePR` ends in an error with the store unchanged for every store and all
arguments: the scan of `pr_id` lets only an id that is taken through, and the `INSERT` then runs
into the primary key of `pr`. -/
theorem CreatePR_never_returns_a_PR (rnd : Nat → Nat) (db : Store)
    (pullRequestID pullRequestName authorID : String) :
    ∃ e : GoError,
      PullRequestService.CreatePR rnd db pullRequestID pullRequestName authorID = (.error e, db) := by
  unfold PullRequestService.CreatePR
  by_cases h1 : pullRequestID = ""
  · exact ⟨.prError (NewEmptyFieldError "pull_request_id"), by simp [h1]⟩
  · by_cases h2 : pullRequestName = ""
    · exact ⟨.prError (NewEmptyFieldError "pull_request_name"), by simp [h1, h2]⟩
    · by_cases h3 : authorID = ""
      · exact ⟨.prError (NewEmptyFieldError "author_id"), by simp [h1, h2, h3]⟩
      · simp only [h1, h2, h3, if_false]
        rcases repository_CreatePR_cases rnd db pullRequestID pullRequestName authorID with
          h | h | h
        · exact ⟨_, h⟩
        · exact ⟨_, h⟩
        · exact ⟨_, h⟩

theorem FindReviewers_not_author (rnd : Nat → Nat) (db : Store) (authorID : String) :
    authorID ∉ PRPostgresRepository.FindReviewers rnd db authorID := by
  unfold PRPostgresRepository.FindReviewers
  cases db.users.find? (fun u => decide (u.user_id = authorID)) with
  | none => simp
  | some a =>
    intro hmem
    have hpool := orderByRandomLimit_subset rnd 2 _ authorID hmem
    simp only [List.mem_map, List.mem_filter, Bool.and_eq_true, decide_eq_true_eq] at hpool
    obtain ⟨u, ⟨_, _, hne⟩, hid⟩ := hpool
    exact hne hid

theorem FindReviewers_length_le (rnd : Nat → Nat) (db : Store) (authorID : String) :
    (PRPostgresRepository.FindReviewers rnd db authorID).length ≤ 2 := by
  unfold PRPostgresRepository.FindReviewers
  cases db.users.find? (fun u => decide (u.user_id = authorID)) with
  | none => simp
  | some a =>
    simp only
    rw [orderByRandomLimit_length]
    exact Nat.min_le_left _ _

theorem insertReviewer_GetReviewers {tx tx1 : Store} {user id : String}
    (h : tx.insertReviewer user id = some tx1) :
    PRPostgresRepository.GetReviewers tx1 id = PRPostgresRepository.GetReviewers tx id ++ [user] := by
  unfold Store.insertReviewer at h
  split at h
  · exact absurd h (by simp)
  · split at h
    · injection h with h
      subst h
      simp [PRPostgresRepository.GetReviewers]
    · exact absurd h (by simp)

theorem insertReviewers_GetReviewers : ∀ (reviewers : List String) {tx tx2 : Store} {id : String},
    PRPostgresRepository.insertReviewers tx reviewers id = some tx2 →
    PRPostgresRepository.GetReviewers tx2 id
      = PRPostgresRepository.GetReviewers tx id ++ reviewers
  | [], tx, tx2, id, h => by
    simp only [PRPostgresRepository.insertReviewers, Option.some.injEq] at h
    subst h
    simp
  | reviewer :: rest, tx, tx2, id, h => by
    simp only [PRPostgresRepository.insertReviewers] at h
    cases h1 : tx.insertReviewer reviewer id with
    | none => simp [h1] at h
    | some tx1 =>
      simp only [h1] at h
      rw [insertReviewers_GetReviewers rest h, insertReviewer_GetReviewers h1]
      simp

theorem insertPR_fresh {db tx1 : Store} {id name author : String}
    (h : db.insertPR id name author = some tx1) :
    (∀ r ∈ db.pr, r.pr_id ≠ id) ∧ tx1.reviewer_x_pr = db.reviewer_x_pr
      ∧ tx1.lookupPR id = some ⟨id, name, author, "OPEN", none⟩ := by
  unfold Store.insertPR at h
  split at h
  · exact absurd h (by simp)
  · rename_i hany
    split at h
    · injection h with h
      subst h
      have hfresh : ∀ r ∈ db.pr, r.pr_id ≠ id := by simpa using hany
      refine ⟨hfresh, rfl, ?_⟩
      have hnone : db.pr.find? (fun r => decide (r.pr_id = id)) = none := by
        simpa using hfresh
      simp [Store.lookupPR, List.find?_append, hnone]
    · exact absurd h (by simp)

theorem GetReviewers_of_fresh {db : Store} (hfk : db.reviewersPRFK) {id : String}
    (hfresh : ∀ r ∈ db.pr, r.pr_id ≠ id) : PRPostgresRepository.GetReviewers db id = [] := by
  unfold PRPostgresRepository.GetReviewers
  rw [List.map_eq_nil_iff, List.filter_eq_nil_iff]
  intro r hr
  obtain ⟨p, hp, hpid⟩ := hfk r hr
  simp only [decide_eq_true_eq]
  intro h
  exact hfresh p hp (hpid.trans h)

theorem repository_CreatePR_ok_inv {rnd : Nat → Nat} {db db1 : Store} {id name author : String}
    {pr : PullRequest}
    (h : PRPostgresRepository.CreatePR rnd db id name author = (.ok pr, db1)) :
    PRPostgresRepository.CreatePRAfterScan rnd db id name author = (.ok pr, db1) := by
  unfold PRPostgresRepository.CreatePR at h
  by_cases ha : PRPostgresRepository.AuthorExists db author = false
  · rw [if_pos ha] at h
    exact absurd h (by simp)
  · rw [if_neg ha] at h
    cases hf : db.pr.find? (fun r => decide (r.pr_id = id)) with
    | none =>
      simp only [hf] at h
      exact absurd h (by simp)
    | some row =>
      simp only [hf] at h
      exact h

theorem service_CreatePR_ok_inv {rnd : Nat → Nat} {db db1 : Store} {id name author : String}
    {pr : PullRequest}
    (h : PullRequestService.CreatePR rnd db id name author = (.ok pr, db1)) :
    PRPostgresRepository.CreatePRAfterScan rnd db id name author = (.ok pr, db1) := by
  unfold PullRequestService.CreatePR at h
  by_cases h1 : id = ""
  · rw [if_pos h1] at h
    exact absurd h (by simp)
  rw [if_neg h1] at h
  by_cases h2 : name = ""
  · rw [if_pos h2] at h
    exact absurd h (by simp)
  rw [if_neg h2] at h
  by_cases h3 : author = ""
  · rw [if_pos h3] at h
    exact absurd h (by simp)
  rw [if_neg h3] at h
  exact repository_CreatePR_ok_inv h

theorem CreatePRAfterScan_ok_inv {rnd : Nat → Nat} {db db1 : Store} {id name author : String}
    {pr : PullRequest}
    (h : PRPostgresRepository.CreatePRAfterScan rnd db id name author = (.ok pr, db1)) :
    ∃ tx1, db.insertPR id name author = some tx1
      ∧ PRPostgresRepository.insertReviewers tx1
          (PRPostgresRepository.FindReviewers rnd db author) id = some db1
      ∧ pr = { PullRequestID := id, PullRequestName := name, AuthorID := author,
               Status := "OPEN",
               AssignedReviewers := PRPostgresRepository.FindReviewers rnd db author,
               MergedAt := none } := by
  unfold PRPostgresRepository.CreatePRAfterScan at h
  simp only at h
  cases h1 : db.insertPR id name author with
  | none =>
    simp only [h1] at h
    exact absurd h (by simp)
  | some tx1 =>
    simp only [h1] at h
    cases h2 : PRPostgresRepository.insertReviewers tx1
        (PRPostgresRepository.FindReviewers rnd db author) id with
    | none =>
      simp only [h2] at h
      exact absurd h (by simp)
    | some tx2 =>
      simp only [h2, Prod.mk.injEq, Except.ok.injEq] at h
      exact ⟨tx1, rfl, by rw [← h.2]; exact h2, h.1.symm⟩

/-- C3: whenever `CreatePR` returns a PR without error, that PR has status `OPEN`, its author is
not among its assigned reviewers, it has at most 2 assigned reviewers, and the reviewer rows
stored for that PR after the call are exactly the returned assigned reviewers.  This holds for
the service, for the repository function, and for the statements of the repository function that
follow the scan of `pr_id` taken alone, which are the ones that write the rows and build the
returned PR; the store the call starts from satisfies the foreign key of `reviewer_x_pr.pr_id`.
The scan lets the service and the repository function reach those statements only with an id
that is taken (`CreatePR_never_returns_a_PR`), so a returned PR is seen by running them from a
store without the id. -/
theorem CreatePR_returned_PR_wellformed (rnd : Nat → Nat) (db db1 : Store)
    (pullRequestID pullRequestName authorID : String) (pr : PullRequest)
    (hfk : db.reviewersPRFK)
    (h : PullRequestService.CreatePR rnd db pullRequestID pullRequestName authorID = (.ok pr, db1)
      ∨ PRPostgresRepository.CreatePR rnd db pullRequestID pullRequestName authorID
          = (.ok pr, db1)
      ∨ PRPostgresRepository.CreatePRAfterScan rnd db pullRequestID pullRequestName authorID
          = (.ok pr, db1)) :
    pr.Status = "OPEN"
      ∧ pr.AuthorID ∉ pr.AssignedReviewers
      ∧ pr.AssignedReviewers.length ≤ 2
      ∧ (db1.reviewer_x_pr.filter (fun r => decide (r.pr_id = pr.PullRequestID))).map
          (fun r => r.user_id) = pr.AssignedReviewers := by
  have hrun : PRPostgresRepository.CreatePRAfterScan rnd db pullRequestID pullRequestName
      authorID = (.ok pr, db1) := by
    rcases h with h | h | h
    · exact service_CreatePR_ok_inv h
    · exact repository_CreatePR_ok_inv h
    · exact h
  obtain ⟨tx1, hins, hloop, hpr⟩ := CreatePRAfterScan_ok_inv hrun
  obtain ⟨hfresh, hrows, _⟩ := insertPR_fresh hins
  subst hpr
  refine ⟨rfl, FindReviewers_not_author rnd db authorID,
    FindReviewers_length_le rnd db authorID, ?_⟩
  have hstored := insertReviewers_GetReviewers _ hloop
  have hnone : PRPostgresRepository.GetReviewers tx1 pullRequestID = [] := by
    have := GetReviewers_of_fresh hfk hfresh
    unfold PRPostgresRepository.GetReviewers at this ⊢
    rw [hrows]
    exact this
  rw [hnone, List.nil_append] at hstored
  exact hstored

/-- The theorem of C3 at team `T` without PRs: the statements after the scan, run for the new
PR `p1` of `A`, return the PR with the reviewers `R2` and `R1` and store it with their two rows. -/
theorem CreatePR_returned_PR_wellformed_witness :
    storeT.reviewersPRFK
      ∧ PRPostgresRepository.CreatePRAfterScan (fun _ => 1) storeT "p1" "x" "A"
          = (.ok ⟨"p1", "x", "A", "OPEN", ["R2", "R1"], none⟩, storeCreated)
      ∧ "A" ∉ ["R2", "R1"]
      ∧ ["R2", "R1"].length ≤ 2
      ∧ (storeCreated.reviewer_x_pr.filter (fun r => decide (r.pr_id = "p1"))).map
          (fun r => r.user_id) = ["R2", "R1"] :=
  have hfk : storeT.reviewersPRFK := by simp [Store.reviewersPRFK, storeT]
  ⟨hfk, rfl,
    (CreatePR_returned_PR_wellformed (fun _ => 1) storeT storeCreated "p1" "x" "A"
      ⟨"p1", "x", "A", "OPEN", ["R2", "R1"], none⟩ hfk (Or.inr (Or.inr rfl))).2⟩

/-- C5: when no user has the id `authorID` (arguments non-empty), `CreatePR` fails with the
PRError whose code is `NOT_FOUND` and the store is unchanged. -/
theorem CreatePR_unknown_author_NOT_FOUND (rnd : Nat → Nat) (db : Store)
    (pullRequestID pullRequestName authorID : String)
    (hid : pullRequestID ≠ "") (hname : pullRequestName ≠ "") (hauthor : authorID ≠ "")
    (hu : ∀ u ∈ db.users, u.user_id ≠ authorID) :
    PullRequestService.CreatePR rnd db pullRequestID pullRequestName authorID
        = (.error (.prError NewNotFoundError), db)
      ∧ NewNotFoundError.Code = "NOT_FOUND" := by
  have hex : PRPostgresRepository.AuthorExists db authorID = false := by
    simpa [PRPostgresRepository.AuthorExists] using hu
  refine ⟨?_, rfl⟩
  simp [PullRequestService.CreatePR, PRPostgresRepository.CreatePR,
      PRPostgresRepository.CreatePRAfterScan, hid, hname, hauthor, hex]

/-- The theorem of C5 at team `T`, where nobody is called `Z`. -/
theorem CreatePR_unknown_author_NOT_FOUND_witness :
    PullRequestService.CreatePR (fun _ => 0) storeT "p2" "x" "Z"
        = (.error (.prError NewNotFoundError), storeT)
      ∧ NewNotFoundError.Code = "NOT_FOUND" :=
  CreatePR_unknown_author_NOT_FOUND (fun _ => 0) storeT "p2" "x" "Z" (by decide) (by decide)
    (by decide) (by simp [storeT])

/-! ## Initial reviewer selection -/

theorem usersKeyed_row_eq {db : Store} (hk : db.usersKeyed) {a b : UserRow}
    (ha : a ∈ db.users) (hb : b ∈ db.users) (h : a.user_id = b.user_id) : a = b :=
  List.inj_on_of_nodup_map hk ha hb h

theorem usersKeyed_pool_nodup {db : Store} (hk : db.usersKeyed) (p : UserRow → Bool) :
    ((db.users.filter p).map (fun u => u.user_id)).Nodup :=
  List.Nodup.sublist ((List.filter_sublist db.users).map (fun u => u.user_id)) hk

/-- Under the primary key of `users` the `WHERE` clause of `FindReviewers` selects exactly the
pool the spec describes. -/
theorem FindReviewers_pool_eq {db : Store} (hk : db.usersKeyed) {authorID : String} {a : UserRow}
    (hf : db.users.find? (fun u => decide (u.user_id = authorID)) = some a) :
    db.users.filter (fun u =>
        decide (u.team_name = a.team_name) && u.is_active && decide (u.user_id ≠ authorID))
      = activeTeammates db authorID := by
  have ham : a ∈ db.users := List.mem_of_find?_eq_some hf
  have haid : a.user_id = authorID := by simpa using List.find?_some hf
  unfold activeTeammates
  apply List.filter_congr
  intro u _
  have hany : db.users.any (fun a1 =>
      decide (a1.user_id = authorID) && decide (a1.team_name = u.team_name))
        = decide (u.team_name = a.team_name) := by
    rw [Bool.eq_iff_iff]
    simp only [List.any_eq_true, Bool.and_eq_true, decide_eq_true_eq]
    constructor
    · rintro ⟨a1, ha1, hid, hteam⟩
      have : a1 = a := usersKeyed_row_eq hk ha1 ham (hid.trans haid.symm)
      rw [← this, hteam]
    · intro h
      exact ⟨a, ham, haid, h.symm⟩
  rw [hany]
  cases decide (u.team_name = a.team_name) <;> cases u.is_active <;> simp

/-- C4: `FindReviewers` returns a duplicate-free list of user ids, each the id of an active
member of the author's team other than the author, and as many of them as
min(2, number of active members of the author's team other than the author); the store
satisfies the primary key of `users`. -/
theorem FindReviewers_selects_active_teammates (rnd : Nat → Nat) (db : Store) (authorID : String)
    (hk : db.usersKeyed) :
    (PRPostgresRepository.FindReviewers rnd db authorID).Nodup
      ∧ (∀ id ∈ PRPostgresRepository.FindReviewers rnd db authorID,
          id ≠ authorID ∧ ∃ u ∈ db.users, u.user_id = id ∧ u.is_active = true
            ∧ ∃ a ∈ db.users, a.user_id = authorID ∧ a.team_name = u.team_name)
      ∧ (PRPostgresRepository.FindReviewers rnd db authorID).length
          = min 2 (activeTeammates db authorID).length := by
  unfold PRPostgresRepository.FindReviewers
  cases hf : db.users.find? (fun u => decide (u.user_id = authorID)) with
  | none =>
    have hno : ∀ u ∈ db.users, u.user_id ≠ authorID := by simpa using hf
    have hempty : activeTeammates db authorID = [] := by
      unfold activeTeammates
      rw [List.filter_eq_nil_iff]
      intro u _
      simp only [Bool.and_eq_true, List.any_eq_true, decide_eq_true_eq, not_and, not_exists]
      intro _ a ha hid
      exact absurd hid (hno a ha)
    simp [hempty]
  | some a =>
    have ham : a ∈ db.users := List.mem_of_find?_eq_some hf
    have haid : a.user_id = authorID := by simpa using List.find?_some hf
    refine ⟨orderByRandomLimit_nodup rnd 2 _ (usersKeyed_pool_nodup hk _), ?_, ?_⟩
    · intro id hid
      have hpool := orderByRandomLimit_subset rnd 2 _ id hid
      simp only [List.mem_map, List.mem_filter, Bool.and_eq_true, decide_eq_true_eq] at hpool
      obtain ⟨u, ⟨hu, ⟨hteam, hact⟩, hne⟩, hid2⟩ := hpool
      refine ⟨?_, u, hu, hid2, hact, a, ham, haid, hteam.symm⟩
      rw [← hid2]
      exact hne
    · simp only
      rw [orderByRandomLimit_length, List.length_map, FindReviewers_pool_eq hk hf]

/-- The theorem of C4 at team `T`: of `A`, `R1`, `R2` and the inactive `R3`, the reviewers of a
PR of `A` are the two of `R1` and `R2`. -/
theorem FindReviewers_selects_active_teammates_witness :
    storeT.usersKeyed
      ∧ PRPostgresRepository.FindReviewers (fun _ => 1) storeT "A" = ["R2", "R1"]
      ∧ (PRPostgresRepository.FindReviewers (fun _ => 1) storeT "A").Nodup
      ∧ (PRPostgresRepository.FindReviewers (fun _ => 1) storeT "A").length
          = min 2 (activeTeammates storeT "A").length :=
  have hk : storeT.usersKeyed := by simp [Store.usersKeyed, storeT]
  ⟨hk, rfl,
    (FindReviewers_selects_active_teammates (fun _ => 1) storeT "A" hk).1,
    (FindReviewers_selects_active_teammates (fun _ => 1) storeT "A" hk).2.2⟩

/-! ## MergePR -/

theorem lookupPR_updateMerged {db : Store} {id : String} {row : PRRow} (now : Nat)
    (h : db.lookupPR id = some row) :
    (db.updateMerged id now).lookupPR id = some (row.merged now) := by
  have hcomp : ((fun r : PRRow => decide (r.pr_id = id)) ∘
      fun r : PRRow => if r.pr_id = id then r.merged now else r)
        = fun r : PRRow => decide (r.pr_id = id) := by
    funext r
    by_cases hr : r.pr_id = id <;> simp [hr, PRRow.merged]
  have h2 : db.pr.find? (fun r => decide (r.pr_id = id)) = some row := h
  simp only [Store.lookupPR, Store.updateMerged, List.find?_map, hcomp, h2, Option.map_some]
  have hid : row.pr_id = id := lookupPR_pr_id h
  simp [hid]

theorem lookupPR_updateMerged_of_ne (db : Store) {id other : String} (now : Nat)
    (hne : other ≠ id) :
    (db.updateMerged id now).lookupPR other = db.lookupPR other := by
  simp only [Store.lookupPR, Store.updateMerged, List.find?_map]
  have hcomp : ((fun r : PRRow => decide (r.pr_id = other)) ∘
      fun r : PRRow => if r.pr_id = id then r.merged now else r)
        = fun r : PRRow => decide (r.pr_id = other) := by
    funext r
    by_cases hr : r.pr_id = id <;> simp [hr, PRRow.merged]
  rw [hcomp]
  cases hf : db.pr.find? (fun r => decide (r.pr_id = other)) with
  | none => rfl
  | some r =>
    have hr : r.pr_id = other := by simpa using List.find?_some hf
    have hr2 : r.pr_id ≠ id := by rw [hr]; exact hne
    simp [hr2]

theorem returning_first_row (db : Store) (id : String) (now : Nat) :
    ((db.pr.filter (fun r => decide (r.pr_id = id))).map (fun r => r.merged now)).head?
      = (db.lookupPR id).map (fun r => r.merged now) := by
  unfold Store.lookupPR
  induction db.pr with
  | nil => rfl
  | cons r rs ih =>
    by_cases hr : r.pr_id = id
    · simp [List.filter_cons, List.find?_cons, hr]
    · simp only [List.filter_cons, List.find?_cons, hr, decide_False]
      exact ih

/-- What `MergePR` does on a PR that is already merged and carries its timestamp. -/
theorem MergePR_of_merged (now : Nat) {db : Store} {id : String} {row : PRRow} {t : Nat}
    (hrow : db.lookupPR id = some row) (hst : row.status = "MERGED")
    (hat : row.merged_at = some t) :
    PRPostgresRepository.MergePR now db id
      = (.ok { PullRequestID := id, PullRequestName := row.pr_name, AuthorID := row.author_id,
               Status := "MERGED",
               AssignedReviewers := PRPostgresRepository.GetReviewers db id,
               MergedAt := some t }, db) := by
  have hex := PRExists_of_lookupPR hrow
  have hf : db.pr.find? (fun r => decide (r.pr_id = id)) = some row := hrow
  simp [PRPostgresRepository.MergePR, PRPostgresRepository.GetStatus,
    PRPostgresRepository.GetPR, hex, hf, hst, hat]

/-- What `MergePR` does on a PR whose status is anything but `MERGED`. -/
theorem MergePR_of_not_merged (now : Nat) {db : Store} {id : String} {row : PRRow}
    (hrow : db.lookupPR id = some row) (hst : row.status ≠ "MERGED") :
    PRPostgresRepository.MergePR now db id
      = (.ok { PullRequestID := id, PullRequestName := row.pr_name, AuthorID := row.author_id,
               Status := "MERGED",
               AssignedReviewers := PRPostgresRepository.GetReviewers db id,
               MergedAt := some now }, db.updateMerged id now) := by
  have hex := PRExists_of_lookupPR hrow
  have hf : db.pr.find? (fun r => decide (r.pr_id = id)) = some row := hrow
  have hid : row.pr_id = id := lookupPR_pr_id hrow
  have hret := returning_first_row db id now
  rw [hrow] at hret
  simp only [PRPostgresRepository.MergePR, PRPostgresRepository.GetStatus, hex, hf, hst, hret]
  simp [PRRow.merged, hid, PRPostgresRepository.GetReviewers, Store.updateMerged]

/-- C6: on a PR stored with status `MERGED` and its `merged_at`, `MergePR` returns, without
error, the snapshot with status `MERGED` and the stored `merged_at`, and leaves the store
unchanged; and whenever a call of `MergePR` succeeds, calling it again on the resulting store (at
any later time) succeeds with the same snapshot, the same `merged_at` included, and changes
nothing. -/
theorem MergePR_idempotent (now now2 : Nat) (db : Store) (pullRequestID : String) (row : PRRow)
    (t : Nat) (hrow : db.lookupPR pullRequestID = some row) (hst : row.status = "MERGED")
    (hat : row.merged_at = some t) :
    (∃ pr : PullRequest,
        PRPostgresRepository.MergePR now db pullRequestID = (.ok pr, db)
          ∧ pr.PullRequestID = pullRequestID ∧ pr.Status = "MERGED" ∧ pr.MergedAt = some t)
      ∧ ∀ (db0 : Store) (pr1 : PullRequest),
          (PRPostgresRepository.MergePR now db0 pullRequestID).1 = .ok pr1 →
            PRPostgresRepository.MergePR now2
                (PRPostgresRepository.MergePR now db0 pullRequestID).2 pullRequestID
              = (.ok pr1, (PRPostgresRepository.MergePR now db0 pullRequestID).2) := by
  refine ⟨⟨_, MergePR_of_merged now hrow hst hat, rfl, rfl, rfl⟩, ?_⟩
  intro db0 pr1 h1
  cases hl : db0.lookupPR pullRequestID with
  | none =>
    have hex : PRPostgresRepository.PRExists db0 pullRequestID = false := by
      have := (lookupPR_eq_none_iff db0 pullRequestID).1 hl
      simpa [PRPostgresRepository.PRExists] using this
    simp [PRPostgresRepository.MergePR, hex] at h1
  | some row0 =>
    by_cases hs : row0.status = "MERGED"
    · cases hm : row0.merged_at with
      | none =>
        have hex := PRExists_of_lookupPR hl
        have hf : db0.pr.find? (fun r => decide (r.pr_id = pullRequestID)) = some row0 := hl
        simp [PRPostgresRepository.MergePR, PRPostgresRepository.GetStatus,
          PRPostgresRepository.GetPR, hex, hf, hs, hm] at h1
      | some t0 =>
        have e1 := MergePR_of_merged now hl hs hm
        have e2 := MergePR_of_merged now2 hl hs hm
        rw [e1] at h1 ⊢
        simp only [Except.ok.injEq] at h1
        rw [← h1]
        exact e2
    · have e1 := MergePR_of_not_merged now hl hs
      rw [e1] at h1 ⊢
      simp only [Except.ok.injEq] at h1
      rw [← h1]
      have hl2 := lookupPR_updateMerged now hl
      have e2 := MergePR_of_merged now2 hl2 rfl rfl
      rw [e2]
      rfl

/-- The theorem of C6 at the PR `p1` merged at time 7, together with the two successive merges
of the open `p1` at times 9 and 12. -/
theorem MergePR_idempotent_witness :
    (∃ pr : PullRequest,
        PRPostgresRepository.MergePR 9 storeMerged "p1" = (.ok pr, storeMerged)
          ∧ pr.PullRequestID = "p1" ∧ pr.Status = "MERGED" ∧ pr.MergedAt = some 7)
      ∧ PRPostgresRepository.MergePR 12 (PRPostgresRepository.MergePR 9 storeOpen "p1").2 "p1"
          = (.ok ⟨"p1", "x", "A", "MERGED", ["R1"], some 9⟩,
              (PRPostgresRepository.MergePR 9 storeOpen "p1").2) :=
  ⟨(MergePR_idempotent 9 12 storeMerged "p1" ⟨"p1", "x", "A", "MERGED", some 7⟩ 7 rfl rfl rfl).1,
    (MergePR_idempotent 9 12 storeMerged "p1" ⟨"p1", "x", "A", "MERGED", some 7⟩ 7 rfl rfl rfl).2
      storeOpen ⟨"p1", "x", "A", "MERGED", ["R1"], some 9⟩ rfl⟩

/-- C7: on a PR stored with status `OPEN`, `MergePR` returns no error, stores status `MERGED`
and `merged_at = now` for that PR, and returns the snapshot with the PR's id, name and author,
status `MERGED`, the non-empty `merged_at = now`, and the reviewer rows stored for that PR; no
other row of the store changes. -/
theorem MergePR_open_merges (now : Nat) (db : Store) (pullRequestID : String) (row : PRRow)
    (hrow : db.lookupPR pullRequestID = some row) (hst : row.status = "OPEN") :
    ∃ db1 : Store,
      PRPostgresRepository.MergePR now db pullRequestID
          = (.ok { PullRequestID := pullRequestID, PullRequestName := row.pr_name,
                   AuthorID := row.author_id, Status := "MERGED",
                   AssignedReviewers := PRPostgresRepository.GetReviewers db1 pullRequestID,
                   MergedAt := some now }, db1)
        ∧ db1.lookupPR pullRequestID
            = some { row with status := "MERGED", merged_at := some now }
        ∧ (∀ other : String, other ≠ pullRequestID → db1.lookupPR other = db.lookupPR other)
        ∧ db1.reviewer_x_pr = db.reviewer_x_pr ∧ db1.users = db.users ∧ db1.team = db.team := by
  have hne : row.status ≠ "MERGED" := by rw [hst]; decide
  refine ⟨db.updateMerged pullRequestID now, MergePR_of_not_merged now hrow hne,
    lookupPR_updateMerged now hrow, ?_, rfl, rfl, rfl⟩
  intro other ho
  exact lookupPR_updateMerged_of_ne db now ho

/-- The theorem of C7 at the open PR `p1`, merged at time 9. -/
theorem MergePR_open_merges_witness :
    ∃ db1 : Store,
      PRPostgresRepository.MergePR 9 storeOpen "p1"
          = (.ok { PullRequestID := "p1", PullRequestName := "x", AuthorID := "A",
                   Status := "MERGED",
                   AssignedReviewers := PRPostgresRepository.GetReviewers db1 "p1",
                   MergedAt := some 9 }, db1)
        ∧ db1.lookupPR "p1" = some ⟨"p1", "x", "A", "MERGED", some 9⟩
        ∧ (∀ other : String, other ≠ "p1" → db1.lookupPR other = storeOpen.lookupPR other)
        ∧ db1.reviewer_x_pr = storeOpen.reviewer_x_pr ∧ db1.users = storeOpen.users
        ∧ db1.team = storeOpen.team :=
  MergePR_open_merges 9 storeOpen "p1" ⟨"p1", "x", "A", "OPEN", none⟩ rfl rfl

/-! ## ReassignPR -/

/-- A non-empty answer of `FindNewReviewer` is the id of a row of `users` that passes the
`WHERE` clause of its query. -/
theorem FindNewReviewer_sound {rnd : Nat → Nat} {tx : Store} {id old x : String}
    (h : PRPostgresRepository.FindNewReviewer rnd tx id old = x) (hx : x ≠ "") :
    ∃ o p, tx.lookupUser old = some o
      ∧ tx.lookupPR id = some p
      ∧ ∃ u ∈ tx.users, u.user_id = x ∧ u.team_name = o.team_name ∧ u.user_id ≠ old
          ∧ u.user_id ≠ p.author_id ∧ u.is_active = true
          ∧ u.user_id ∉ PRPostgresRepository.GetReviewers tx id := by
  unfold PRPostgresRepository.FindNewReviewer at h
  cases ho : tx.users.find? (fun u => decide (u.user_id = old)) with
  | none =>
    simp only [ho] at h
    exact absurd h.symm hx
  | some o =>
    cases hp : tx.pr.find? (fun r => decide (r.pr_id = id)) with
    | none =>
      simp only [ho, hp] at h
      exact absurd h.symm hx
    | some p =>
      simp only [ho, hp] at h
      generalize hpool : (tx.users.filter (fun u =>
          decide (u.team_name = o.team_name) && decide (u.user_id ≠ old)
            && decide (u.user_id ≠ p.author_id) && u.is_active
            && decide (u.user_id ∉ PRPostgresRepository.GetReviewers tx id))).map
              (fun u => u.user_id) = pool at h
      cases hdraw : orderByRandomLimit rnd 1 pool with
      | nil =>
        simp only [hdraw] at h
        exact absurd h.symm hx
      | cons y ys =>
        simp only [hdraw] at h
        have hy : y ∈ pool := by
          apply orderByRandomLimit_subset rnd 1 pool
          rw [hdraw]
          exact List.mem_cons_self _ _
        rw [← hpool] at hy
        simp only [List.mem_map, List.mem_filter, Bool.and_eq_true, decide_eq_true_eq] at hy
        obtain ⟨u, ⟨hu, ⟨⟨⟨h1, h2⟩, h3⟩, h4⟩, h5⟩, h6⟩ := hy
        refine ⟨o, p, ho, hp, u, hu, ?_, h1, h2, h3, h4, h5⟩
        rw [h6, h]

/-- When some row of `users` passes the `WHERE` clause of `FindNewReviewer`, the answer is the id
of such a row. -/
theorem FindNewReviewer_complete (rnd : Nat → Nat) {tx : Store} {id old : String} {o : UserRow}
    {p : PRRow} (ho0 : tx.lookupUser old = some o)
    (hp : tx.lookupPR id = some p)
    (hc : ∃ u ∈ tx.users, u.team_name = o.team_name ∧ u.user_id ≠ old ∧ u.user_id ≠ p.author_id
        ∧ u.is_active = true ∧ u.user_id ∉ PRPostgresRepository.GetReviewers tx id) :
    ∃ u ∈ tx.users, PRPostgresRepository.FindNewReviewer rnd tx id old = u.user_id
      ∧ u.team_name = o.team_name ∧ u.user_id ≠ old ∧ u.user_id ≠ p.author_id
      ∧ u.is_active = true ∧ u.user_id ∉ PRPostgresRepository.GetReviewers tx id := by
  have hp2 : tx.pr.find? (fun r => decide (r.pr_id = id)) = some p := hp
  have ho : tx.users.find? (fun u => decide (u.user_id = old)) = some o := ho0
  unfold PRPostgresRepository.FindNewReviewer
  simp only [ho, hp2]
  generalize hpool : (tx.users.filter (fun u =>
      decide (u.team_name = o.team_name) && decide (u.user_id ≠ old)
        && decide (u.user_id ≠ p.author_id) && u.is_active
        && decide (u.user_id ∉ PRPostgresRepository.GetReviewers tx id))).map
          (fun u => u.user_id) = pool
  have hne : pool ≠ [] := by
    obtain ⟨u, hu, h1, h2, h3, h4, h5⟩ := hc
    have hmem : u.user_id ∈ pool := by
      rw [← hpool]
      simp only [List.mem_map, List.mem_filter, Bool.and_eq_true, decide_eq_true_eq]
      exact ⟨u, ⟨hu, ⟨⟨⟨h1, h2⟩, h3⟩, h4⟩, h5⟩, rfl⟩
    exact List.ne_nil_of_mem hmem
  cases hdraw : orderByRandomLimit rnd 1 pool with
  | nil => exact absurd hdraw (orderByRandomLimit_one_ne_nil rnd pool hne)
  | cons y ys =>
    have hy : y ∈ pool := by
      apply orderByRandomLimit_subset rnd 1 pool
      rw [hdraw]
      exact List.mem_cons_self _ _
    rw [← hpool] at hy
    simp only [List.mem_map, List.mem_filter, Bool.and_eq_true, decide_eq_true_eq] at hy
    obtain ⟨u, ⟨hu, ⟨⟨⟨h1, h2⟩, h3⟩, h4⟩, h5⟩, h6⟩ := hy
    exact ⟨u, hu, h6.symm, h1, h2, h3, h4, h5⟩

theorem GetReviewers_reassigned (db : Store) (id old new : String) :
    PRPostgresRepository.GetReviewers (reassigned db id old new) id
      = (PRPostgresRepository.GetReviewers db id).filter (fun x => decide (x ≠ old)) ++ [new] := by
  simp only [PRPostgresRepository.GetReviewers, reassigned, Store.deleteReviewer,
    List.filter_append, List.map_append, List.filter_filter, List.filter_map]
  congr 1
  · congr 1
    apply List.filter_congr
    intro r _
    by_cases h1 : r.pr_id = id <;> by_cases h2 : r.user_id = old <;> simp [h1, h2]
  · simp

/-- The insert of the new reviewer goes through once the old row is deleted, when the new
reviewer is a user, the PR exists and the pair is not stored yet. -/
theorem insertReviewer_after_delete {db : Store} {id new : String} (old : String)
    (hpr : PRPostgresRepository.PRExists db id = true)
    (hu : ∃ u ∈ db.users, u.user_id = new)
    (hnew : new ∉ PRPostgresRepository.GetReviewers db id) :
    (db.deleteReviewer id old).insertReviewer new id = some (reassigned db id old new) := by
  have hno : ∀ r ∈ db.reviewer_x_pr, r.pr_id = id → r.user_id ≠ new := by
    intro r hr hid hn
    apply hnew
    simp only [PRPostgresRepository.GetReviewers, List.mem_map, List.mem_filter,
      decide_eq_true_eq]
    exact ⟨r, ⟨hr, hid⟩, hn⟩
  have hpk : (db.deleteReviewer id old).reviewer_x_pr.any
      (fun r => decide (r.pr_id = id) && decide (r.user_id = new)) = false := by
    rw [List.any_eq_false]
    intro r hr
    simp only [Store.deleteReviewer, List.mem_filter] at hr
    simp only [Bool.and_eq_true, decide_eq_true_eq, not_and]
    exact hno r hr.1
  have hfk1 : (db.deleteReviewer id old).pr.any (fun r => decide (r.pr_id = id)) = true := hpr
  have hfk2 : (db.deleteReviewer id old).users.any (fun u => decide (u.user_id = new)) = true :=
    (AuthorExists_eq_true_iff db new).2 hu
  simp only [Store.insertReviewer, hpk, hfk1, hfk2, Bool.and_self, if_true, Bool.false_eq_true,
    if_false]
  rfl

/-- The successful run of `ReassignPR`, step by step. -/
theorem ReassignPR_commit {rnd : Nat → Nat} {db : Store} {id old : String} {row : PRRow}
    (hrow : db.lookupPR id = some row) (hst : row.status ≠ "MERGED")
    (hrev : PRPostgresRepository.IsReviewer db id old = true)
    (hne : PRPostgresRepository.FindNewReviewer rnd db id old ≠ "") :
    PRPostgresRepository.ReassignPR rnd db id old
      = (.ok ({ PullRequestID := id, PullRequestName := row.pr_name, AuthorID := row.author_id,
                Status := row.status,
                AssignedReviewers := PRPostgresRepository.GetReviewers
                  (reassigned db id old (PRPostgresRepository.FindNewReviewer rnd db id old)) id,
                MergedAt := none }, PRPostgresRepository.FindNewReviewer rnd db id old),
          reassigned db id old (PRPostgresRepository.FindNewReviewer rnd db id old)) := by
  have hex := PRExists_of_lookupPR hrow
  have hf : db.pr.find? (fun r => decide (r.pr_id = id)) = some row := hrow
  have hid : row.pr_id = id := lookupPR_pr_id hrow
  obtain ⟨o, p, _, _, u, hu, hux, _, _, _, _, hnot⟩ := FindNewReviewer_sound rfl hne
  have hins := insertReviewer_after_delete old hex ⟨u, hu, hux⟩ (hux ▸ hnot)
  have hf2 : (reassigned db id old (PRPostgresRepository.FindNewReviewer rnd db id old)).pr.find?
      (fun r => decide (r.pr_id = id)) = some row := hf
  simp only [PRPostgresRepository.ReassignPR, PRPostgresRepository.GetStatus, hex, hf, hst, hrev,
    hne, hins, hf2]
  simp [hid]

/-- A call of `ReassignPR` that returns a PR went through every check: the PR is stored and not
merged, the old reviewer is assigned, and the returned id is the non-empty answer of
`FindNewReviewer` on the store the call started with. -/
theorem ReassignPR_ok_inv {rnd : Nat → Nat} {db : Store} {id old new : String}
    {pr : PullRequest}
    (h : (PRPostgresRepository.ReassignPR rnd db id old).1 = .ok (pr, new)) :
    new = PRPostgresRepository.FindNewReviewer rnd db id old ∧ new ≠ ""
      ∧ (∃ row, db.lookupPR id = some row ∧ row.status ≠ "MERGED")
      ∧ PRPostgresRepository.IsReviewer db id old = true := by
  cases hl : db.lookupPR id with
  | none =>
    have hex : PRPostgresRepository.PRExists db id = false := by
      have := (lookupPR_eq_none_iff db id).1 hl
      simpa [PRPostgresRepository.PRExists] using this
    simp [PRPostgresRepository.ReassignPR, hex] at h
  | some row =>
    have hex := PRExists_of_lookupPR hl
    have hf : db.pr.find? (fun r => decide (r.pr_id = id)) = some row := hl
    by_cases hs : row.status = "MERGED"
    · simp [PRPostgresRepository.ReassignPR, PRPostgresRepository.GetStatus, hex, hf, hs] at h
    · by_cases hr : PRPostgresRepository.IsReviewer db id old = true
      · by_cases hn : PRPostgresRepository.FindNewReviewer rnd db id old = ""
        · simp [PRPostgresRepository.ReassignPR, PRPostgresRepository.GetStatus, hex, hf, hs, hr,
            hn] at h
        · rw [ReassignPR_commit hl hs hr hn] at h
          simp only [Except.ok.injEq, Prod.mk.injEq] at h
          refine ⟨h.2.symm, ?_, ⟨row, rfl, hs⟩, hr⟩
          rw [← h.2]
          exact hn
      · have hr2 : PRPostgresRepository.IsReviewer db id old = false := by
          simpa using hr
        simp [PRPostgresRepository.ReassignPR, PRPostgresRepository.GetStatus, hex, hf, hs,
          hr2] at h

theorem IsReviewer_eq_true_iff (db : Store) (id user : String) :
    PRPostgresRepository.IsReviewer db id user = true
      ↔ user ∈ PRPostgresRepository.GetReviewers db id := by
  simp only [PRPostgresRepository.IsReviewer, PRPostgresRepository.GetReviewers,
    List.any_eq_true, Bool.and_eq_true, decide_eq_true_eq, List.mem_map, List.mem_filter]
  constructor
  · rintro ⟨r, hr, h1, h2⟩
    exact ⟨r, ⟨hr, h1⟩, h2⟩
  · rintro ⟨r, ⟨hr, h1⟩, h2⟩
    exact ⟨r, hr, h1, h2⟩

/-- C8: on an `OPEN` PR of which `oldReviewerID` is an assigned reviewer, when some active
member of the old reviewer's team is neither the old reviewer, nor the author, nor a current
reviewer, `ReassignPR` succeeds; the old reviewer is then in neither the returned
`assigned_reviewers` nor the stored reviewer rows of the PR, and the returned replacement is in
both.  The store holds no empty user id. -/
theorem ReassignPR_replaces_old_reviewer (rnd : Nat → Nat) (db : Store)
    (pullRequestID oldReviewerID : String) (row : PRRow) (o : UserRow)
    (hids : db.userIdsNonEmpty)
    (hrow : db.lookupPR pullRequestID = some row) (hst : row.status = "OPEN")
    (hold : oldReviewerID ∈ PRPostgresRepository.GetReviewers db pullRequestID)
    (ho : db.lookupUser oldReviewerID = some o)
    (hcand : ∃ u ∈ db.users, u.team_name = o.team_name ∧ u.is_active = true
        ∧ u.user_id ≠ oldReviewerID ∧ u.user_id ≠ row.author_id
        ∧ u.user_id ∉ PRPostgresRepository.GetReviewers db pullRequestID) :
    ∃ (pr : PullRequest) (replacedBy : String) (db1 : Store),
      PRPostgresRepository.ReassignPR rnd db pullRequestID oldReviewerID
          = (.ok (pr, replacedBy), db1)
        ∧ oldReviewerID ∉ pr.AssignedReviewers
        ∧ oldReviewerID ∉ PRPostgresRepository.GetReviewers db1 pullRequestID
        ∧ replacedBy ∈ pr.AssignedReviewers
        ∧ replacedBy ∈ PRPostgresRepository.GetReviewers db1 pullRequestID := by
  have hne : row.status ≠ "MERGED" := by rw [hst]; decide
  have hrev := (IsReviewer_eq_true_iff db pullRequestID oldReviewerID).2 hold
  obtain ⟨u, hu, hteam, hact, h1, h2, h3⟩ := hcand
  obtain ⟨w, hw, hwnew, _, hwold, _, _, _⟩ :=
    FindNewReviewer_complete rnd ho hrow ⟨u, hu, hteam, h1, h2, hact, h3⟩
  have hnonempty :
      PRPostgresRepository.FindNewReviewer rnd db pullRequestID oldReviewerID ≠ "" := by
    rw [hwnew]
    exact hids w hw
  have hnewold : PRPostgresRepository.FindNewReviewer rnd db pullRequestID oldReviewerID
      ≠ oldReviewerID := by
    rw [hwnew]
    exact hwold
  have hrun := ReassignPR_commit hrow hne hrev hnonempty
  have hafter := GetReviewers_reassigned db pullRequestID oldReviewerID
    (PRPostgresRepository.FindNewReviewer rnd db pullRequestID oldReviewerID)
  have hout : oldReviewerID ∉ PRPostgresRepository.GetReviewers
      (reassigned db pullRequestID oldReviewerID
        (PRPostgresRepository.FindNewReviewer rnd db pullRequestID oldReviewerID))
      pullRequestID := by
    rw [hafter]
    simp only [List.mem_append, List.mem_filter, decide_eq_true_eq, List.mem_singleton, not_or]
    exact ⟨fun hc => hc.2 rfl, fun hc => hnewold hc.symm⟩
  have hin : PRPostgresRepository.FindNewReviewer rnd db pullRequestID oldReviewerID
      ∈ PRPostgresRepository.GetReviewers
        (reassigned db pullRequestID oldReviewerID
          (PRPostgresRepository.FindNewReviewer rnd db pullRequestID oldReviewerID))
        pullRequestID := by
    rw [hafter]
    simp
  exact ⟨_, _, _, hrun, hout, hout, hin, hin⟩

/-- C9: whenever `ReassignPR` succeeds, the returned new reviewer is the id of an active row of
`users` of the old reviewer's team, differs from the old reviewer and from the PR's author, and
was not among the reviewer rows of the PR in the store the call started with. -/
theorem ReassignPR_new_reviewer_eligible (rnd : Nat → Nat) (db db1 : Store)
    (pullRequestID oldReviewerID replacedBy : String) (pr : PullRequest)
    (h : PRPostgresRepository.ReassignPR rnd db pullRequestID oldReviewerID
        = (.ok (pr, replacedBy), db1)) :
    (∃ u ∈ db.users, u.user_id = replacedBy ∧ u.is_active = true
        ∧ ∃ o, db.lookupUser oldReviewerID = some o ∧ u.team_name = o.team_name)
      ∧ replacedBy ≠ oldReviewerID
      ∧ (∃ row, db.lookupPR pullRequestID = some row ∧ replacedBy ≠ row.author_id)
      ∧ replacedBy ∉ PRPostgresRepository.GetReviewers db pullRequestID := by
  have h1 : (PRPostgresRepository.ReassignPR rnd db pullRequestID oldReviewerID).1
      = .ok (pr, replacedBy) := by rw [h]
  obtain ⟨hnew, hne, _, _⟩ := ReassignPR_ok_inv h1
  obtain ⟨o, p, hfo, hp, u, hu, huid, hteam, hold, hauth, hact, hnot⟩ :=
    FindNewReviewer_sound hnew.symm hne
  refine ⟨⟨u, hu, huid, hact, o, hfo, hteam⟩, ?_, ⟨p, hp, ?_⟩, ?_⟩
  · rw [← huid]; exact hold
  · rw [← huid]; exact hauth
  · rw [← huid]; exact hnot

/-- The theorem of C8 at the open PR `p1` of `A` reviewed by `R1`: `R2` takes over. -/
theorem ReassignPR_replaces_old_reviewer_witness :
    ∃ (pr : PullRequest) (replacedBy : String) (db1 : Store),
      PRPostgresRepository.ReassignPR (fun _ => 0) storeOpen "p1" "R1"
          = (.ok (pr, replacedBy), db1)
        ∧ "R1" ∉ pr.AssignedReviewers
        ∧ "R1" ∉ PRPostgresRepository.GetReviewers db1 "p1"
        ∧ replacedBy ∈ pr.AssignedReviewers
        ∧ replacedBy ∈ PRPostgresRepository.GetReviewers db1 "p1" :=
  ReassignPR_replaces_old_reviewer (fun _ => 0) storeOpen "p1" "R1"
    ⟨"p1", "x", "A", "OPEN", none⟩ ⟨"R1", "r1", "T", true⟩
    (by simp [Store.userIdsNonEmpty, storeOpen, storeT])
    rfl rfl
    (by simp [PRPostgresRepository.GetReviewers, storeOpen])
    rfl
    ⟨⟨"R2", "r2", "T", true⟩, by simp [storeOpen, storeT], rfl, rfl, by decide, by decide,
      by simp [PRPostgresRepository.GetReviewers, storeOpen]⟩

/-- The theorem of C9 at the same call: the replacement `R2` is an active teammate of `R1`,
is neither `R1` nor the author `A`, and was not a reviewer of `p1`. -/
theorem ReassignPR_new_reviewer_eligible_witness :
    (∃ u ∈ storeOpen.users, u.user_id = "R2" ∧ u.is_active = true
        ∧ ∃ o, storeOpen.lookupUser "R1" = some o ∧ u.team_name = o.team_name)
      ∧ "R2" ≠ "R1"
      ∧ (∃ row, storeOpen.lookupPR "p1" = some row ∧ "R2" ≠ row.author_id)
      ∧ "R2" ∉ PRPostgresRepository.GetReviewers storeOpen "p1" :=
  ReassignPR_new_reviewer_eligible (fun _ => 0) storeOpen
    (reassigned storeOpen "p1" "R1" "R2") "p1" "R1" "R2" ⟨"p1", "x", "A", "OPEN", ["R2"], none⟩
    rfl

/-- C10: on a PR stored with status `MERGED`, `ReassignPR` fails with the PRError whose code is
`PR_MERGED` for every old reviewer id, assigned or not, and the store is unchanged; with
non-empty arguments the service call gives the same. -/
theorem ReassignPR_merged_PR_MERGED (rnd : Nat → Nat) (db : Store)
    (pullRequestID oldReviewerID : String) (row : PRRow)
    (hrow : db.lookupPR pullRequestID = some row) (hst : row.status = "MERGED") :
    PRPostgresRepository.ReassignPR rnd db pullRequestID oldReviewerID
        = (.error (.prError NewPRMergedsError), db)
      ∧ NewPRMergedsError.Code = "PR_MERGED"
      ∧ (pullRequestID ≠ "" → oldReviewerID ≠ "" →
          PullRequestService.ReassignPR rnd db pullRequestID oldReviewerID
            = (.error (.prError NewPRMergedsError), db)) := by
  have hex := PRExists_of_lookupPR hrow
  have hf : db.pr.find? (fun r => decide (r.pr_id = pullRequestID)) = some row := hrow
  have hrun : PRPostgresRepository.ReassignPR rnd db pullRequestID oldReviewerID
      = (.error (.prError NewPRMergedsError), db) := by
    simp [PRPostgresRepository.ReassignPR, PRPostgresRepository.GetStatus, hex, hf, hst]
  refine ⟨hrun, rfl, ?_⟩
  intro h1 h2
  simp [PullRequestService.ReassignPR, h1, h2, hrun]

/-- The theorem of C10 at the merged PR `p1`, for its reviewer `R1`; the same holds for `Z`, who
reviews nothing. -/
theorem ReassignPR_merged_PR_MERGED_witness :
    PullRequestService.ReassignPR (fun _ => 0) storeMerged "p1" "R1"
        = (.error (.prError NewPRMergedsError), storeMerged)
      ∧ PullRequestService.ReassignPR (fun _ => 0) storeMerged "p1" "Z"
        = (.error (.prError NewPRMergedsError), storeMerged) :=
  ⟨(ReassignPR_merged_PR_MERGED (fun _ => 0) storeMerged "p1" "R1"
      ⟨"p1", "x", "A", "MERGED", some 7⟩ rfl rfl).2.2 (by decide) (by decide),
    rfl⟩

/-- What `ReassignPR` does when the old reviewer is not assigned to a PR that is not merged. -/
theorem ReassignPR_of_not_assigned (rnd : Nat → Nat) {db : Store} {id old : String} {row : PRRow}
    (hrow : db.lookupPR id = some row) (hst : row.status ≠ "MERGED")
    (hnot : old ∉ PRPostgresRepository.GetReviewers db id) :
    PRPostgresRepository.ReassignPR rnd db id old
      = (.error (.prError NewNotAssignedError), db) := by
  have hex := PRExists_of_lookupPR hrow
  have hf : db.pr.find? (fun r => decide (r.pr_id = id)) = some row := hrow
  have hrev : PRPostgresRepository.IsReviewer db id old = false := by
    cases h : PRPostgresRepository.IsReviewer db id old with
    | false => rfl
    | true => exact absurd ((IsReviewer_eq_true_iff db id old).1 h) hnot
  simp [PRPostgresRepository.ReassignPR, PRPostgresRepository.GetStatus, hex, hf, hst, hrev]

/-- With no row of `users` passing its `WHERE` clause, `FindNewReviewer` answers the empty
string. -/
theorem FindNewReviewer_eq_empty (rnd : Nat → Nat) {db : Store} {id old : String} {row : PRRow}
    (hrow : db.lookupPR id = some row)
    (hnone : ∀ o, db.lookupUser old = some o → ∀ u ∈ db.users,
        ¬ (u.team_name = o.team_name ∧ u.is_active = true ∧ u.user_id ≠ old
            ∧ u.user_id ≠ row.author_id ∧ u.user_id ∉ PRPostgresRepository.GetReviewers db id)) :
    PRPostgresRepository.FindNewReviewer rnd db id old = "" := by
  by_contra hne
  obtain ⟨o, p, ho, hp, u, hu, _, h1, h2, h3, h4, h5⟩ := FindNewReviewer_sound rfl hne
  have hpr : p = row := by
    rw [hrow] at hp
    exact (Option.some.inj hp).symm
  exact hnone o ho u hu ⟨h1, h4, h2, hpr ▸ h3, h5⟩

theorem PRExists_eq_false_iff (db : Store) (id : String) :
    PRPostgresRepository.PRExists db id = false ↔ ∀ r ∈ db.pr, r.pr_id ≠ id := by
  simp [PRPostgresRepository.PRExists]

/-- C11: on a PR stored with status `OPEN`, when `oldReviewerID` is not an assigned reviewer of
it, `ReassignPR` fails with the PRError whose code is `NOT_ASSIGNED` and the store is unchanged;
with non-empty arguments the service call gives the same. -/
theorem ReassignPR_unassigned_NOT_ASSIGNED (rnd : Nat → Nat) (db : Store)
    (pullRequestID oldReviewerID : String) (row : PRRow)
    (hrow : db.lookupPR pullRequestID = some row) (hst : row.status = "OPEN")
    (hnot : oldReviewerID ∉ PRPostgresRepository.GetReviewers db pullRequestID) :
    PRPostgresRepository.ReassignPR rnd db pullRequestID oldReviewerID
        = (.error (.prError NewNotAssignedError), db)
      ∧ NewNotAssignedError.Code = "NOT_ASSIGNED"
      ∧ (pullRequestID ≠ "" → oldReviewerID ≠ "" →
          PullRequestService.ReassignPR rnd db pullRequestID oldReviewerID
            = (.error (.prError NewNotAssignedError), db)) := by
  have hne : row.status ≠ "MERGED" := by rw [hst]; decide
  have hrun := ReassignPR_of_not_assigned rnd hrow hne hnot
  refine ⟨hrun, rfl, ?_⟩
  intro h1 h2
  simp [PullRequestService.ReassignPR, h1, h2, hrun]

/-- The theorem of C11 at the open PR `p1`, asked to replace its author `A`. -/
theorem ReassignPR_unassigned_NOT_ASSIGNED_witness :
    PullRequestService.ReassignPR (fun _ => 0) storeOpen "p1" "A"
      = (.error (.prError NewNotAssignedError), storeOpen) :=
  (ReassignPR_unassigned_NOT_ASSIGNED (fun _ => 0) storeOpen "p1" "A"
    ⟨"p1", "x", "A", "OPEN", none⟩ rfl rfl
    (by simp [PRPostgresRepository.GetReviewers, storeOpen])).2.2 (by decide) (by decide)

/-- C12: on a PR stored with status `OPEN` of which `oldReviewerID` is an assigned reviewer,
when no active member of the old reviewer's team is left after the old reviewer, the author and
the current reviewers are excluded, `ReassignPR` fails with the PRError whose code is
`NO_CANDIDATE` and the store, the reviewer rows of the PR included, is unchanged. -/
theorem ReassignPR_no_candidate_NO_CANDIDATE (rnd : Nat → Nat) (db : Store)
    (pullRequestID oldReviewerID : String) (row : PRRow)
    (hrow : db.lookupPR pullRequestID = some row) (hst : row.status = "OPEN")
    (hold : oldReviewerID ∈ PRPostgresRepository.GetReviewers db pullRequestID)
    (hnone : ∀ o, db.lookupUser oldReviewerID = some o → ∀ u ∈ db.users,
        ¬ (u.team_name = o.team_name ∧ u.is_active = true ∧ u.user_id ≠ oldReviewerID
            ∧ u.user_id ≠ row.author_id
            ∧ u.user_id ∉ PRPostgresRepository.GetReviewers db pullRequestID)) :
    PRPostgresRepository.ReassignPR rnd db pullRequestID oldReviewerID
        = (.error (.prError NewNoCandidateError), db)
      ∧ NewNoCandidateError.Code = "NO_CANDIDATE"
      ∧ (pullRequestID ≠ "" → oldReviewerID ≠ "" →
          PullRequestService.ReassignPR rnd db pullRequestID oldReviewerID
            = (.error (.prError NewNoCandidateError), db)) := by
  have hne : row.status ≠ "MERGED" := by rw [hst]; decide
  have hex := PRExists_of_lookupPR hrow
  have hf : db.pr.find? (fun r => decide (r.pr_id = pullRequestID)) = some row := hrow
  have hrev := (IsReviewer_eq_true_iff db pullRequestID oldReviewerID).2 hold
  have hnew := FindNewReviewer_eq_empty rnd hrow hnone
  have hrun : PRPostgresRepository.ReassignPR rnd db pullRequestID oldReviewerID
      = (.error (.prError NewNoCandidateError), db) := by
    simp [PRPostgresRepository.ReassignPR, PRPostgresRepository.GetStatus, hex, hf, hne, hrev,
      hnew]
  refine ⟨hrun, rfl, ?_⟩
  intro h1 h2
  simp [PullRequestService.ReassignPR, h1, h2, hrun]

/-- The theorem of C12 at team `S`: `Q` is the only active member besides the author `B` and
already reviews `q1`. -/
theorem ReassignPR_no_candidate_NO_CANDIDATE_witness :
    PullRequestService.ReassignPR (fun _ => 0) storeSole "q1" "Q"
        = (.error (.prError NewNoCandidateError), storeSole)
      ∧ PRPostgresRepository.GetReviewers storeSole "q1" = ["Q"] :=
  ⟨(ReassignPR_no_candidate_NO_CANDIDATE (fun _ => 0) storeSole "q1" "Q"
      ⟨"q1", "y", "B", "OPEN", none⟩ rfl rfl
      (by simp [PRPostgresRepository.GetReviewers, storeSole])
      (by
        intro o _ u hu
        simp only [storeSole, List.mem_cons, List.mem_singleton, List.not_mem_nil, or_false] at hu
        rcases hu with rfl | rfl <;> simp)).2.2 (by decide) (by decide),
    rfl⟩

/-- C13: after a successful `ReassignPR(pr, R1)`, a second `ReassignPR(pr, R1)` on the
resulting store, whatever it would draw, fails with the PRError whose code is `NOT_ASSIGNED` and
changes nothing: `R1` is no longer an assigned reviewer of the PR. -/
theorem ReassignPR_twice_NOT_ASSIGNED (rnd rnd2 : Nat → Nat) (db db1 : Store)
    (pullRequestID oldReviewerID replacedBy : String) (pr : PullRequest)
    (h : PRPostgresRepository.ReassignPR rnd db pullRequestID oldReviewerID
        = (.ok (pr, replacedBy), db1)) :
    PRPostgresRepository.ReassignPR rnd2 db1 pullRequestID oldReviewerID
        = (.error (.prError NewNotAssignedError), db1)
      ∧ NewNotAssignedError.Code = "NOT_ASSIGNED"
      ∧ oldReviewerID ∉ PRPostgresRepository.GetReviewers db1 pullRequestID := by
  have h1 : (PRPostgresRepository.ReassignPR rnd db pullRequestID oldReviewerID).1
      = .ok (pr, replacedBy) := by rw [h]
  obtain ⟨hnew, hne, ⟨row, hrow, hst⟩, hrev⟩ := ReassignPR_ok_inv h1
  obtain ⟨_, _, _, _, u, _, huid, _, hold, _, _, _⟩ := FindNewReviewer_sound hnew.symm hne
  have hnewold : replacedBy ≠ oldReviewerID := by rw [← huid]; exact hold
  have hne2 : PRPostgresRepository.FindNewReviewer rnd db pullRequestID oldReviewerID ≠ "" := by
    rw [← hnew]; exact hne
  have hrun := ReassignPR_commit hrow hst hrev hne2
  rw [hrun] at h
  have hdb1 : db1 = reassigned db pullRequestID oldReviewerID replacedBy := by
    have := (Prod.mk.inj h).2
    rw [← this, ← hnew]
  have hrow1 : db1.lookupPR pullRequestID = some row := by
    rw [hdb1]
    exact hrow
  have hout : oldReviewerID ∉ PRPostgresRepository.GetReviewers db1 pullRequestID := by
    rw [hdb1, GetReviewers_reassigned]
    simp only [List.mem_append, List.mem_filter, decide_eq_true_eq, List.mem_singleton, not_or]
    exact ⟨fun hc => hc.2 rfl, fun hc => hnewold hc.symm⟩
  exact ⟨ReassignPR_of_not_assigned rnd2 hrow1 hst hout, rfl, hout⟩

/-- The theorem of C13 at the open PR `p1`: once `R2` has taken over from `R1`, replacing `R1`
again is refused. -/
theorem ReassignPR_twice_NOT_ASSIGNED_witness :
    PRPostgresRepository.ReassignPR (fun _ => 1) (reassigned storeOpen "p1" "R1" "R2") "p1" "R1"
        = (.error (.prError NewNotAssignedError), reassigned storeOpen "p1" "R1" "R2")
      ∧ NewNotAssignedError.Code = "NOT_ASSIGNED"
      ∧ "R1" ∉ PRPostgresRepository.GetReviewers (reassigned storeOpen "p1" "R1" "R2") "p1" :=
  ReassignPR_twice_NOT_ASSIGNED (fun _ => 0) (fun _ => 1) storeOpen
    (reassigned storeOpen "p1" "R1" "R2") "p1" "R1" "R2" ⟨"p1", "x", "A", "OPEN", ["R2"], none⟩
    rfl

/-- C14: when no PR has the id `pullRequestID`, both `MergePR` and `ReassignPR` fail with the
PRError whose code is `NOT_FOUND` and leave the store unchanged; with non-empty arguments the
service calls give the same. -/
theorem missing_PR_NOT_FOUND (rnd : Nat → Nat) (now : Nat) (db : Store)
    (pullRequestID oldReviewerID : String) (h : ∀ r ∈ db.pr, r.pr_id ≠ pullRequestID) :
    PRPostgresRepository.MergePR now db pullRequestID = (.error (.prError NewNotFoundError), db)
      ∧ PRPostgresRepository.ReassignPR rnd db pullRequestID oldReviewerID
          = (.error (.prError NewNotFoundError), db)
      ∧ NewNotFoundError.Code = "NOT_FOUND"
      ∧ (pullRequestID ≠ "" →
          PullRequestService.MergePR now db pullRequestID
            = (.error (.prError NewNotFoundError), db))
      ∧ (pullRequestID ≠ "" → oldReviewerID ≠ "" →
          PullRequestService.ReassignPR rnd db pullRequestID oldReviewerID
            = (.error (.prError NewNotFoundError), db)) := by
  have hex := (PRExists_eq_false_iff db pullRequestID).2 h
  have hm : PRPostgresRepository.MergePR now db pullRequestID
      = (.error (.prError NewNotFoundError), db) := by
    simp [PRPostgresRepository.MergePR, hex]
  have hr : PRPostgresRepository.ReassignPR rnd db pullRequestID oldReviewerID
      = (.error (.prError NewNotFoundError), db) := by
    simp [PRPostgresRepository.ReassignPR, hex]
  refine ⟨hm, hr, rfl, ?_, ?_⟩
  · intro h1
    simp [PullRequestService.MergePR, h1, hm]
  · intro h1 h2
    simp [PullRequestService.ReassignPR, h1, h2, hr]

/-- The theorem of C14 at the store with the single PR `p1`, asked about `nope`. -/
theorem missing_PR_NOT_FOUND_witness :
    PullRequestService.MergePR 9 storeOpen "nope" = (.error (.prError NewNotFoundError), storeOpen)
      ∧ PullRequestService.ReassignPR (fun _ => 0) storeOpen "nope" "R1"
          = (.error (.prError NewNotFoundError), storeOpen) :=
  ⟨(missing_PR_NOT_FOUND (fun _ => 0) 9 storeOpen "nope" "R1"
      (by simp [storeOpen])).2.2.2.1 (by decide),
    (missing_PR_NOT_FOUND (fun _ => 0) 9 storeOpen "nope" "R1"
      (by simp [storeOpen])).2.2.2.2 (by decide) (by decide)⟩

/-! ## What each operation can do to the store -/

theorem lookupPR_updateMerged_map (db : Store) (id other : String) (now : Nat) :
    (db.updateMerged id now).lookupPR other
      = (db.lookupPR other).map (fun r => if r.pr_id = id then r.merged now else r) := by
  have hcomp : ((fun r : PRRow => decide (r.pr_id = other)) ∘
      fun r : PRRow => if r.pr_id = id then r.merged now else r)
        = fun r : PRRow => decide (r.pr_id = other) := by
    funext r
    by_cases hr : r.pr_id = id <;> simp [hr, PRRow.merged]
  simp only [Store.lookupPR, Store.updateMerged, List.find?_map, hcomp]

/-- The store after `MergePR` is the store before, or the store before with the rows of a PR
that was not merged updated. -/
theorem MergePR_store (now : Nat) (db : Store) (id : String) :
    (PRPostgresRepository.MergePR now db id).2 = db
      ∨ ∃ row, db.lookupPR id = some row ∧ row.status ≠ "MERGED"
          ∧ (PRPostgresRepository.MergePR now db id).2 = db.updateMerged id now := by
  cases hl : db.lookupPR id with
  | none =>
    left
    have hex := (PRExists_eq_false_iff db id).2 ((lookupPR_eq_none_iff db id).1 hl)
    simp [PRPostgresRepository.MergePR, hex]
  | some row =>
    by_cases hs : row.status = "MERGED"
    · left
      have hex := PRExists_of_lookupPR hl
      have hf : db.pr.find? (fun r => decide (r.pr_id = id)) = some row := hl
      cases hm : row.merged_at with
      | none =>
        simp [PRPostgresRepository.MergePR, PRPostgresRepository.GetStatus,
          PRPostgresRepository.GetPR, hex, hf, hs, hm]
      | some t => rw [MergePR_of_merged now hl hs hm]
    · right
      exact ⟨row, rfl, hs, by rw [MergePR_of_not_merged now hl hs]⟩

/-- The store after `ReassignPR` is the store before, or the store before with the row of the
old reviewer replaced by the row of the answer of `FindNewReviewer`. -/
theorem ReassignPR_store (rnd : Nat → Nat) (db : Store) (id old : String) :
    (PRPostgresRepository.ReassignPR rnd db id old).2 = db
      ∨ ∃ row, db.lookupPR id = some row ∧ row.status ≠ "MERGED"
          ∧ PRPostgresRepository.FindNewReviewer rnd db id old ≠ ""
          ∧ (PRPostgresRepository.ReassignPR rnd db id old).2
              = reassigned db id old (PRPostgresRepository.FindNewReviewer rnd db id old) := by
  cases hl : db.lookupPR id with
  | none =>
    left
    have hex := (PRExists_eq_false_iff db id).2 ((lookupPR_eq_none_iff db id).1 hl)
    simp [PRPostgresRepository.ReassignPR, hex]
  | some row =>
    have hex := PRExists_of_lookupPR hl
    have hf : db.pr.find? (fun r => decide (r.pr_id = id)) = some row := hl
    by_cases hs : row.status = "MERGED"
    · left
      simp [PRPostgresRepository.ReassignPR, PRPostgresRepository.GetStatus, hex, hf, hs]
    · cases hr : PRPostgresRepository.IsReviewer db id old with
      | false =>
        left
        simp [PRPostgresRepository.ReassignPR, PRPostgresRepository.GetStatus, hex, hf, hs, hr]
      | true =>
        by_cases hn : PRPostgresRepository.FindNewReviewer rnd db id old = ""
        · left
          simp [PRPostgresRepository.ReassignPR, PRPostgresRepository.GetStatus, hex, hf, hs, hr,
            hn]
        · right
          exact ⟨row, rfl, hs, hn, by rw [ReassignPR_commit hl hs hr hn]⟩

theorem CreatePR_store (rnd : Nat → Nat) (db : Store) (id name author : String) :
    (PRPostgresRepository.CreatePR rnd db id name author).2 = db := by
  rcases repository_CreatePR_cases rnd db id name author with h | h | h <;> rw [h]

theorem insertUser_frame {s s1 : Store} {user_id username team_name : String} {is_active : Bool}
    (h : s.insertUser user_id username team_name is_active = some s1) :
    s1.pr = s.pr ∧ s1.reviewer_x_pr = s.reviewer_x_pr := by
  unfold Store.insertUser at h
  split at h
  · exact absurd h (by simp)
  · split at h
    · have := Option.some.inj h
      rw [← this]
      exact ⟨rfl, rfl⟩
    · exact absurd h (by simp)

theorem insertMembers_frame (members : List TeamMember) (teamName : String) {s s1 : Store}
    (h : TeamPostgresRepository.insertMembers s members teamName = some s1) :
    s1.pr = s.pr ∧ s1.reviewer_x_pr = s.reviewer_x_pr := by
  induction members generalizing s with
  | nil =>
    simp only [TeamPostgresRepository.insertMembers, Option.some.injEq] at h
    rw [← h]
    exact ⟨rfl, rfl⟩
  | cons m rest ih =>
    simp only [TeamPostgresRepository.insertMembers] at h
    cases hu : s.insertUser m.UserID m.Username teamName m.IsActive with
    | none => simp [hu] at h
    | some s2 =>
      simp only [hu] at h
      have h2 := insertUser_frame hu
      have h3 := ih h
      exact ⟨h3.1.trans h2.1, h3.2.trans h2.2⟩

theorem AddTeam_frame (db : Store) (team : Team) :
    (TeamPostgresRepository.AddTeam db team).2.pr = db.pr
      ∧ (TeamPostgresRepository.AddTeam db team).2.reviewer_x_pr = db.reviewer_x_pr := by
  unfold TeamPostgresRepository.AddTeam
  split
  · exact ⟨rfl, rfl⟩
  · cases ht : db.insertTeam team.TeamName with
    | none => exact ⟨rfl, rfl⟩
    | some tx1 =>
      have h1 : tx1.pr = db.pr ∧ tx1.reviewer_x_pr = db.reviewer_x_pr := by
        unfold Store.insertTeam at ht
        split at ht
        · exact absurd ht (by simp)
        · have := Option.some.inj ht
          rw [← this]
          exact ⟨rfl, rfl⟩
      cases hm : TeamPostgresRepository.insertMembers tx1 team.Members team.TeamName with
      | none => simp [hm]
      | some tx2 =>
        have h2 := insertMembers_frame team.Members team.TeamName hm
        simp only [hm]
        exact ⟨h2.1.trans h1.1, h2.2.trans h1.2⟩

theorem SetUserIsActive_frame (db : Store) (userID : String) (isActive : Bool) :
    (UsersPostgresRepository.SetUserIsActive db userID isActive).2.pr = db.pr
      ∧ (UsersPostgresRepository.SetUserIsActive db userID isActive).2.reviewer_x_pr
          = db.reviewer_x_pr := by
  unfold UsersPostgresRepository.SetUserIsActive
  simp only
  split
  · exact ⟨rfl, rfl⟩
  · split
    · exact ⟨rfl, rfl⟩
    · exact ⟨rfl, rfl⟩

/-- The service either refuses the call and leaves the store alone, or hands it to the
repository. -/
theorem run_eq (op : Operation) (db : Store) :
    op.run db = db ∨ op.run db = op.runRepository db := by
  cases op with
  | createPR rnd id name author =>
    simp only [Operation.run, Operation.runRepository, PullRequestService.CreatePR]
    split_ifs <;> simp
  | mergePR now id =>
    simp only [Operation.run, Operation.runRepository, PullRequestService.MergePR]
    split_ifs <;> simp
  | reassignPR rnd id old =>
    simp only [Operation.run, Operation.runRepository, PullRequestService.ReassignPR]
    split_ifs <;> simp
  | addTeam team =>
    simp only [Operation.run, Operation.runRepository, TeamService.AddTeam]
    split_ifs <;> simp
  | setUserIsActive userID isActive =>
    simp only [Operation.run, Operation.runRepository, UsersService.SetUserIsActive]
    split_ifs <;> simp

theorem lookupPR_congr {s1 s2 : Store} (h : s1.pr = s2.pr) (id : String) :
    s1.lookupPR id = s2.lookupPR id := by
  unfold Store.lookupPR
  rw [h]

theorem GetReviewers_congr {s1 s2 : Store} (h : s1.reviewer_x_pr = s2.reviewer_x_pr)
    (id : String) :
    PRPostgresRepository.GetReviewers s1 id = PRPostgresRepository.GetReviewers s2 id := by
  unfold PRPostgresRepository.GetReviewers
  rw [h]

/-- A merged PR keeps its row under every call on the repository layer. -/
theorem runRepository_keeps_merged (op : Operation) (db : Store) (id : String) (row : PRRow)
    (hrow : db.lookupPR id = some row) (hst : row.status = "MERGED") :
    (op.runRepository db).lookupPR id = some row := by
  cases op with
  | createPR rnd id1 name author =>
    simp only [Operation.runRepository, CreatePR_store]
    exact hrow
  | mergePR now id1 =>
    simp only [Operation.runRepository]
    rcases MergePR_store now db id1 with h | ⟨row1, hrow1, hst1, h⟩
    · rw [h]; exact hrow
    · rw [h]
      have hne : id ≠ id1 := by
        intro heq
        rw [heq, hrow1] at hrow
        exact hst1 ((Option.some.inj hrow) ▸ hst)
      rw [lookupPR_updateMerged_of_ne db now hne]
      exact hrow
  | reassignPR rnd id1 old =>
    simp only [Operation.runRepository]
    rcases ReassignPR_store rnd db id1 old with h | ⟨_, _, _, _, h⟩
    · rw [h]; exact hrow
    · rw [h]; exact hrow
  | addTeam team =>
    simp only [Operation.runRepository]
    rw [lookupPR_congr (AddTeam_frame db team).1]
    exact hrow
  | setUserIsActive userID isActive =>
    simp only [Operation.runRepository]
    rw [lookupPR_congr (SetUserIsActive_frame db userID isActive).1]
    exact hrow

/-- C15: a PR whose status is `MERGED` before one of `CreatePR`, `MergePR`, `ReassignPR`,
`AddTeam` and `SetUserIsActive` still has status `MERGED` and the same `merged_at` after it,
through the service as on the repository directly; its whole row is the one it was. -/
theorem merged_is_terminal (op : Operation) (db : Store) (pullRequestID : String) (row : PRRow)
    (hrow : db.lookupPR pullRequestID = some row) (hst : row.status = "MERGED") :
    (∃ row1, (op.run db).lookupPR pullRequestID = some row1 ∧ row1.status = "MERGED"
        ∧ row1.merged_at = row.merged_at ∧ row1 = row)
      ∧ ∃ row1, (op.runRepository db).lookupPR pullRequestID = some row1
          ∧ row1.status = "MERGED" ∧ row1.merged_at = row.merged_at ∧ row1 = row := by
  have hrepo := runRepository_keeps_merged op db pullRequestID row hrow hst
  refine ⟨?_, row, hrepo, hst, rfl, rfl⟩
  rcases run_eq op db with h | h
  · exact ⟨row, by rw [h]; exact hrow, hst, rfl, rfl⟩
  · exact ⟨row, by rw [h]; exact hrepo, hst, rfl, rfl⟩

/-- The theorem of C15 at the PR `p1` merged at time 7, merged once more at time 9. -/
theorem merged_is_terminal_witness :
    (∃ row1, ((Operation.mergePR 9 "p1").run storeMerged).lookupPR "p1" = some row1
        ∧ row1.status = "MERGED" ∧ row1.merged_at = some 7
        ∧ row1 = ⟨"p1", "x", "A", "MERGED", some 7⟩)
      ∧ ∃ row1, ((Operation.mergePR 9 "p1").runRepository storeMerged).lookupPR "p1" = some row1
          ∧ row1.status = "MERGED" ∧ row1.merged_at = some 7
          ∧ row1 = ⟨"p1", "x", "A", "MERGED", some 7⟩ :=
  merged_is_terminal (Operation.mergePR 9 "p1") storeMerged "p1"
    ⟨"p1", "x", "A", "MERGED", some 7⟩ rfl rfl

/-! ## The invariant on reviewer sets -/

theorem reviewersWellFormed_of_frame {s1 s2 : Store} (hpr : s1.pr = s2.pr)
    (hrv : s1.reviewer_x_pr = s2.reviewer_x_pr) (h : s2.reviewersWellFormed) :
    s1.reviewersWellFormed := by
  intro id row hrow
  rw [lookupPR_congr hpr] at hrow
  rw [GetReviewers_congr hrv]
  exact h id row hrow

theorem reviewersWellFormed_updateMerged (db : Store) (id : String) (now : Nat)
    (h : db.reviewersWellFormed) : (db.updateMerged id now).reviewersWellFormed := by
  intro other row1 hrow1
  rw [lookupPR_updateMerged_map] at hrow1
  have hrv : PRPostgresRepository.GetReviewers (db.updateMerged id now) other
      = PRPostgresRepository.GetReviewers db other := rfl
  rw [hrv]
  cases hl : db.lookupPR other with
  | none => simp [hl] at hrow1
  | some row =>
    simp only [hl, Option.map, Option.some.injEq] at hrow1
    have hauth : row1.author_id = row.author_id := by
      rw [← hrow1]
      by_cases hr : row.pr_id = id <;> simp [hr, PRRow.merged]
    rw [hauth]
    exact h other row hl

theorem GetReviewers_reassigned_of_ne (db : Store) {id other : String} (old new : String)
    (hne : other ≠ id) :
    PRPostgresRepository.GetReviewers (reassigned db id old new) other
      = PRPostgresRepository.GetReviewers db other := by
  simp only [PRPostgresRepository.GetReviewers, reassigned, Store.deleteReviewer,
    List.filter_append, List.map_append, List.filter_filter]
  have hlast : List.filter (fun r : ReviewerRow => decide (r.pr_id = other))
      [⟨new, id⟩] = [] := by
    simp [List.filter_cons, Ne.symm hne]
  rw [hlast, List.map_nil, List.append_nil]
  congr 1
  apply List.filter_congr
  intro r _
  by_cases h1 : r.pr_id = other
  · have h2 : r.pr_id ≠ id := by rw [h1]; exact hne
    simp [h1, h2, hne]
  · simp [h1]

theorem reviewersWellFormed_reassigned (rnd : Nat → Nat) (db : Store) (id old : String)
    (h : db.reviewersWellFormed)
    (hne : PRPostgresRepository.FindNewReviewer rnd db id old ≠ "") :
    (reassigned db id old
      (PRPostgresRepository.FindNewReviewer rnd db id old)).reviewersWellFormed := by
  obtain ⟨o, p, _, hp, u, _, huid, _, _, hauth, _, hnot⟩ := FindNewReviewer_sound rfl hne
  rw [huid] at hauth hnot
  intro other row hrow
  have hrow0 : db.lookupPR other = some row := hrow
  by_cases hid : other = id
  · rw [hid] at hrow0 ⊢
    have hpr : p = row := by
      rw [hp] at hrow0
      exact Option.some.inj hrow0
    obtain ⟨h1, h2⟩ := h id row hrow0
    rw [GetReviewers_reassigned]
    constructor
    · simp only [List.mem_append, List.mem_filter, decide_eq_true_eq, List.mem_singleton, not_or]
      exact ⟨fun hc => h1 hc.1, fun hc => hauth (hpr ▸ hc.symm)⟩
    · rw [List.nodup_append]
      refine ⟨h2.filter _, List.nodup_singleton _, ?_⟩
      intro a ha hb
      rw [List.mem_singleton] at hb
      rw [hb] at ha
      exact hnot (List.mem_of_mem_filter ha)
  · rw [GetReviewers_reassigned_of_ne db old _ hid]
    exact h other row hrow0

theorem runRepository_reviewersWellFormed (op : Operation) (db : Store)
    (h : db.reviewersWellFormed) : (op.runRepository db).reviewersWellFormed := by
  cases op with
  | createPR rnd id name author =>
    simp only [Operation.runRepository, CreatePR_store]
    exact h
  | mergePR now id =>
    simp only [Operation.runRepository]
    rcases MergePR_store now db id with h1 | ⟨_, _, _, h1⟩
    · rw [h1]; exact h
    · rw [h1]; exact reviewersWellFormed_updateMerged db id now h
  | reassignPR rnd id old =>
    simp only [Operation.runRepository]
    rcases ReassignPR_store rnd db id old with h1 | ⟨_, _, _, hne, h1⟩
    · rw [h1]; exact h
    · rw [h1]; exact reviewersWellFormed_reassigned rnd db id old h hne
  | addTeam team =>
    exact reviewersWellFormed_of_frame (AddTeam_frame db team).1 (AddTeam_frame db team).2 h
  | setUserIsActive userID isActive =>
    exact reviewersWellFormed_of_frame (SetUserIsActive_frame db userID isActive).1
      (SetUserIsActive_frame db userID isActive).2 h

/-- C16: the predicate "for every PR, the author is not among its reviewers and no user appears
twice among its reviewers" is preserved by every operation: when the store satisfies it, so does
the store after `CreatePR`, `MergePR`, `ReassignPR`, `AddTeam` or `SetUserIsActive`, whether the
call succeeds or fails, through the service as on the repository directly. -/
theorem reviewersWellFormed_preserved (op : Operation) (db : Store)
    (h : db.reviewersWellFormed) :
    (op.run db).reviewersWellFormed ∧ (op.runRepository db).reviewersWellFormed := by
  have hrepo := runRepository_reviewersWellFormed op db h
  refine ⟨?_, hrepo⟩
  rcases run_eq op db with h1 | h1
  · rw [h1]; exact h
  · rw [h1]; exact hrepo

theorem storeOpen_reviewersWellFormed : storeOpen.reviewersWellFormed := by
  intro id row hrow
  have hmem : row ∈ storeOpen.pr := List.mem_of_find?_eq_some hrow
  have hid : row.pr_id = id := lookupPR_pr_id hrow
  simp only [storeOpen, List.mem_singleton] at hmem
  subst hmem
  subst hid
  simp [PRPostgresRepository.GetReviewers, storeOpen]

/-- The theorem of C16 at the open PR `p1` of `A` reviewed by `R1`, when `R2` takes over. -/
theorem reviewersWellFormed_preserved_witness :
    storeOpen.reviewersWellFormed
      ∧ ((Operation.reassignPR (fun _ => 0) "p1" "R1").run storeOpen).reviewersWellFormed
      ∧ PRPostgresRepository.GetReviewers
          ((Operation.reassignPR (fun _ => 0) "p1" "R1").run storeOpen) "p1" = ["R2"] :=
  ⟨storeOpen_reviewersWellFormed,
    (reviewersWellFormed_preserved (Operation.reassignPR (fun _ => 0) "p1" "R1") storeOpen
      storeOpen_reviewersWellFormed).1,
    rfl⟩

/-! ## Input validation -/

/-- C17: given an empty required argument, `PullRequestService.CreatePR`, `MergePR` and
`ReassignPR` return the PRError with code `EMPTY_FIELD` and message "<field> field is empty" for
the first empty argument in declaration order, whatever the store holds (the repository is not
consulted), and the store is unchanged. -/
theorem service_validation_fails_fast (rnd : Nat → Nat) (now : Nat) (db : Store)
    (pullRequestID pullRequestName anyName anyAuthor anyReviewer : String)
    (hid : pullRequestID ≠ "") (hname : pullRequestName ≠ "") :
    PullRequestService.CreatePR rnd db "" anyName anyAuthor
        = (.error (.prError ⟨"EMPTY_FIELD", "pull_request_id field is empty"⟩), db)
      ∧ PullRequestService.CreatePR rnd db pullRequestID "" anyAuthor
        = (.error (.prError ⟨"EMPTY_FIELD", "pull_request_name field is empty"⟩), db)
      ∧ PullRequestService.CreatePR rnd db pullRequestID pullRequestName ""
        = (.error (.prError ⟨"EMPTY_FIELD", "author_id field is empty"⟩), db)
      ∧ PullRequestService.MergePR now db ""
        = (.error (.prError ⟨"EMPTY_FIELD", "pull_request_id field is empty"⟩), db)
      ∧ PullRequestService.ReassignPR rnd db "" anyReviewer
        = (.error (.prError ⟨"EMPTY_FIELD", "pull_request_id field is empty"⟩), db)
      ∧ PullRequestService.ReassignPR rnd db pullRequestID ""
        = (.error (.prError ⟨"EMPTY_FIELD", "old_reviewer_id field is empty"⟩), db) := by
  have e1 : NewEmptyFieldError "pull_request_id"
      = ⟨"EMPTY_FIELD", "pull_request_id field is empty"⟩ := by decide
  have e2 : NewEmptyFieldError "pull_request_name"
      = ⟨"EMPTY_FIELD", "pull_request_name field is empty"⟩ := by decide
  have e3 : NewEmptyFieldError "author_id"
      = ⟨"EMPTY_FIELD", "author_id field is empty"⟩ := by decide
  have e4 : NewEmptyFieldError "old_reviewer_id"
      = ⟨"EMPTY_FIELD", "old_reviewer_id field is empty"⟩ := by decide
  refine ⟨?_, ?_, ?_, ?_, ?_, ?_⟩
  · simp only [PullRequestService.CreatePR, if_true, e1]
  · simp only [PullRequestService.CreatePR, hid, if_false, if_true, e2]
  · simp only [PullRequestService.CreatePR, hid, hname, if_false, if_true, e3]
  · simp only [PullRequestService.MergePR, if_true, e1]
  · simp only [PullRequestService.ReassignPR, if_true, e1]
  · simp only [PullRequestService.ReassignPR, hid, if_false, if_true, e4]

/-- The theorem of C17 at the open PR `p1`: the empty argument is reported even though the PR,
its author and its reviewer are all stored. -/
theorem service_validation_fails_fast_witness :
    PullRequestService.CreatePR (fun _ => 0) storeOpen "" "" ""
        = (.error (.prError ⟨"EMPTY_FIELD", "pull_request_id field is empty"⟩), storeOpen)
      ∧ PullRequestService.CreatePR (fun _ => 0) storeOpen "p1" "" ""
        = (.error (.prError ⟨"EMPTY_FIELD", "pull_request_name field is empty"⟩), storeOpen)
      ∧ PullRequestService.CreatePR (fun _ => 0) storeOpen "p1" "x" ""
        = (.error (.prError ⟨"EMPTY_FIELD", "author_id field is empty"⟩), storeOpen)
      ∧ PullRequestService.MergePR 9 storeOpen ""
        = (.error (.prError ⟨"EMPTY_FIELD", "pull_request_id field is empty"⟩), storeOpen)
      ∧ PullRequestService.ReassignPR (fun _ => 0) storeOpen "" ""
        = (.error (.prError ⟨"EMPTY_FIELD", "pull_request_id field is empty"⟩), storeOpen)
      ∧ PullRequestService.ReassignPR (fun _ => 0) storeOpen "p1" ""
        = (.error (.prError ⟨"EMPTY_FIELD", "old_reviewer_id field is empty"⟩), storeOpen) :=
  service_validation_fails_fast (fun _ => 0) 9 storeOpen "p1" "x" "" "" "" (by decide) (by decide)


/-! ## Atomicity -/

theorem CreatePRBody_committed (fails : Nat → Bool) (rnd : Nat → Nat) (db : Store)
    (id name author : String) :
    commitsOnlyOnSuccess (Faulty.CreatePRBody fails rnd db id name author) := by
  unfold Faulty.CreatePRBody
  by_cases h0 : fails 0 = true
  · rw [if_pos h0]; exact rfl
  rw [if_neg h0]
  by_cases h1 : PRPostgresRepository.AuthorExists db author = false
  · rw [if_pos h1]; exact rfl
  rw [if_neg h1]
  by_cases h2 : fails 1 = true
  · rw [if_pos h2]; exact rfl
  rw [if_neg h2]
  by_cases h3 : fails 2 = true
  · rw [if_pos h3]; exact rfl
  rw [if_neg h3]
  cases db.pr.find? (fun r => decide (r.pr_id = id)) with
  | none => exact rfl
  | some row =>
    simp only []
    by_cases h4 : fails 3 = true
    · rw [if_pos h4]; exact rfl
    rw [if_neg h4]
    by_cases h5 : fails 4 = true
    · rw [if_pos h5]; exact rfl
    rw [if_neg h5]
    cases db.insertPR id name author with
    | none => exact rfl
    | some tx1 =>
      simp only []
      generalize Faulty.insertReviewers fails 5 tx1
        (PRPostgresRepository.FindReviewers rnd db author) id = res
      obtain ⟨tx2, ok⟩ := res
      cases ok with
      | false => exact rfl
      | true =>
        simp only []
        by_cases h6 : fails (5 + (PRPostgresRepository.FindReviewers rnd db author).length) = true
        · rw [if_pos h6]; exact rfl
        rw [if_neg h6]
        exact trivial

theorem MergePRBody_committed (fails : Nat → Bool) (now : Nat) (db : Store) (id : String) :
    commitsOnlyOnSuccess (Faulty.MergePRBody fails now db id) := by
  unfold Faulty.MergePRBody
  by_cases h0 : fails 0 = true
  · rw [if_pos h0]; exact rfl
  rw [if_neg h0]
  by_cases h1 : PRPostgresRepository.PRExists db id = false
  · rw [if_pos h1]; exact rfl
  rw [if_neg h1]
  by_cases h2 : fails 1 = true
  · rw [if_pos h2]; exact rfl
  rw [if_neg h2]
  by_cases h3 : fails 2 = true
  · rw [if_pos h3]; exact rfl
  rw [if_neg h3]
  cases PRPostgresRepository.GetStatus db id with
  | error e => exact rfl
  | ok status =>
    simp only []
    by_cases h4 : status = "MERGED"
    · rw [if_pos h4]
      by_cases h5 : fails 3 = true
      · rw [if_pos h5]; exact rfl
      rw [if_neg h5]
      cases PRPostgresRepository.GetPR db id with
      | error e => exact rfl
      | ok pr =>
        simp only []
        by_cases h6 : fails 4 = true
        · rw [if_pos h6]; exact rfl
        rw [if_neg h6]
        by_cases h7 : fails 5 = true
        · rw [if_pos h7]; exact rfl
        rw [if_neg h7]
        exact trivial
    rw [if_neg h4]
    by_cases h8 : fails 6 = true
    · rw [if_pos h8]; exact rfl
    rw [if_neg h8]
    cases ((db.pr.filter (fun r => decide (r.pr_id = id))).map
        (fun r => r.merged now)).head? with
    | none => exact rfl
    | some r =>
      simp only []
      by_cases h9 : fails 7 = true
      · rw [if_pos h9]; exact rfl
      rw [if_neg h9]
      by_cases h10 : fails 8 = true
      · rw [if_pos h10]; exact rfl
      rw [if_neg h10]
      exact trivial

theorem ReassignPRBody_committed (fails : Nat → Bool) (rnd : Nat → Nat) (db : Store)
    (id old : String) :
    commitsOnlyOnSuccess (Faulty.ReassignPRBody fails rnd db id old) := by
  unfold Faulty.ReassignPRBody
  by_cases h0 : fails 0 = true
  · rw [if_pos h0]; exact rfl
  rw [if_neg h0]
  by_cases h1 : PRPostgresRepository.PRExists db id = false
  · rw [if_pos h1]; exact rfl
  rw [if_neg h1]
  by_cases h2 : fails 1 = true
  · rw [if_pos h2]; exact rfl
  rw [if_neg h2]
  by_cases h3 : fails 2 = true
  · rw [if_pos h3]; exact rfl
  rw [if_neg h3]
  cases PRPostgresRepository.GetStatus db id with
  | error e => exact rfl
  | ok status =>
    simp only []
    by_cases h4 : status = "MERGED"
    · rw [if_pos h4]; exact rfl
    rw [if_neg h4]
    by_cases h5 : fails 3 = true
    · rw [if_pos h5]; exact rfl
    rw [if_neg h5]
    by_cases h6 : PRPostgresRepository.IsReviewer db id old = false
    · rw [if_pos h6]; exact rfl
    rw [if_neg h6]
    by_cases h7 : fails 4 = true
    · rw [if_pos h7]; exact rfl
    rw [if_neg h7]
    by_cases h8 : PRPostgresRepository.FindNewReviewer rnd db id old = ""
    · rw [if_pos h8]; exact rfl
    rw [if_neg h8]
    by_cases h9 : fails 5 = true
    · rw [if_pos h9]; exact rfl
    rw [if_neg h9]
    by_cases h10 : fails 6 = true
    · rw [if_pos h10]; exact rfl
    rw [if_neg h10]
    cases (db.deleteReviewer id old).insertReviewer
        (PRPostgresRepository.FindNewReviewer rnd db id old) id with
    | none => exact rfl
    | some tx2 =>
      simp only []
      by_cases h11 : fails 7 = true
      · rw [if_pos h11]; exact rfl
      rw [if_neg h11]
      cases tx2.pr.find? (fun r => decide (r.pr_id = id)) with
      | none => exact rfl
      | some r =>
        simp only []
        by_cases h12 : fails 8 = true
        · rw [if_pos h12]; exact rfl
        rw [if_neg h12]
        by_cases h13 : fails 9 = true
        · rw [if_pos h13]; exact rfl
        rw [if_neg h13]
        exact trivial

/-- A body that returned an error did not commit, so the deferred rollback restores the
database. -/
theorem deferredRollback_of_error {α : Type} (db : Store)
    (body : Except GoError α × Store × Bool) (e : GoError)
    (hc : commitsOnlyOnSuccess body) (he : body.1 = .error e) :
    deferredRollback db body.2.1 body.2.2 = db := by
  obtain ⟨r, tx, c⟩ := body
  cases r with
  | ok a => exact absurd he (by simp)
  | error e1 =>
    have hcf : c = false := hc
    simp [deferredRollback, hcf]

/-- With no failing call the fault-aware `CreatePR` is the `CreatePR` of the repository. -/
theorem Faulty_CreatePR_noFault (rnd : Nat → Nat) (db : Store) (id name author : String) :
    Faulty.CreatePR noFault rnd db id name author
      = PRPostgresRepository.CreatePR rnd db id name author := by
  by_cases ha : PRPostgresRepository.AuthorExists db author = false
  · simp [Faulty.CreatePR, Faulty.CreatePRBody, PRPostgresRepository.CreatePR,
        PRPostgresRepository.CreatePRAfterScan, noFault,
      deferredRollback, ha]
  · cases hf : db.pr.find? (fun r => decide (r.pr_id = id)) with
    | none =>
      simp [Faulty.CreatePR, Faulty.CreatePRBody, PRPostgresRepository.CreatePR,
        PRPostgresRepository.CreatePRAfterScan, noFault,
        deferredRollback, ha, hf]
    | some row =>
      have hl : db.lookupPR id = some row := hf
      have hins := insertPR_eq_none_of_lookupPR hl name author
      simp [Faulty.CreatePR, Faulty.CreatePRBody, PRPostgresRepository.CreatePR,
        PRPostgresRepository.CreatePRAfterScan, noFault,
        deferredRollback, ha, hf, hins]

/-- With no failing call the fault-aware `MergePR` is the `MergePR` of the repository. -/
theorem Faulty_MergePR_noFault (now : Nat) (db : Store) (id : String) :
    Faulty.MergePR noFault now db id = PRPostgresRepository.MergePR now db id := by
  by_cases hex : PRPostgresRepository.PRExists db id = false
  · simp [Faulty.MergePR, Faulty.MergePRBody, PRPostgresRepository.MergePR, noFault,
      deferredRollback, hex]
  · cases hgs : PRPostgresRepository.GetStatus db id with
    | error e =>
      simp [Faulty.MergePR, Faulty.MergePRBody, PRPostgresRepository.MergePR, noFault,
        deferredRollback, hex, hgs]
    | ok status =>
      by_cases hs : status = "MERGED"
      · cases hgp : PRPostgresRepository.GetPR db id with
        | error e =>
          simp [Faulty.MergePR, Faulty.MergePRBody, PRPostgresRepository.MergePR, noFault,
            deferredRollback, hex, hgs, hs, hgp]
        | ok pr =>
          simp [Faulty.MergePR, Faulty.MergePRBody, PRPostgresRepository.MergePR, noFault,
            deferredRollback, hex, hgs, hs, hgp]
      · cases hh : ((db.pr.filter (fun r => decide (r.pr_id = id))).map
            (fun r => r.merged now)).head? with
        | none =>
          simp [Faulty.MergePR, Faulty.MergePRBody, PRPostgresRepository.MergePR, noFault,
            deferredRollback, hex, hgs, hs, hh]
        | some r =>
          simp [Faulty.MergePR, Faulty.MergePRBody, PRPostgresRepository.MergePR, noFault,
            deferredRollback, hex, hgs, hs, hh]

/-- With no failing call the fault-aware `ReassignPR` is the `ReassignPR` of the repository. -/
theorem Faulty_ReassignPR_noFault (rnd : Nat → Nat) (db : Store) (id old : String) :
    Faulty.ReassignPR noFault rnd db id old = PRPostgresRepository.ReassignPR rnd db id old := by
  by_cases hex : PRPostgresRepository.PRExists db id = false
  · simp [Faulty.ReassignPR, Faulty.ReassignPRBody, PRPostgresRepository.ReassignPR, noFault,
      deferredRollback, hex]
  · cases hgs : PRPostgresRepository.GetStatus db id with
    | error e =>
      simp [Faulty.ReassignPR, Faulty.ReassignPRBody, PRPostgresRepository.ReassignPR, noFault,
        deferredRollback, hex, hgs]
    | ok status =>
      by_cases hs : status = "MERGED"
      · simp [Faulty.ReassignPR, Faulty.ReassignPRBody, PRPostgresRepository.ReassignPR, noFault,
          deferredRollback, hex, hgs, hs]
      · by_cases hr : PRPostgresRepository.IsReviewer db id old = false
        · simp [Faulty.ReassignPR, Faulty.ReassignPRBody, PRPostgresRepository.ReassignPR,
            noFault, deferredRollback, hex, hgs, hs, hr]
        · by_cases hn : PRPostgresRepository.FindNewReviewer rnd db id old = ""
          · simp [Faulty.ReassignPR, Faulty.ReassignPRBody, PRPostgresRepository.ReassignPR,
              noFault, deferredRollback, hex, hgs, hs, hr, hn]
          · cases hins : (db.deleteReviewer id old).insertReviewer
                (PRPostgresRepository.FindNewReviewer rnd db id old) id with
            | none =>
              simp [Faulty.ReassignPR, Faulty.ReassignPRBody, PRPostgresRepository.ReassignPR,
                noFault, deferredRollback, hex, hgs, hs, hr, hn, hins]
            | some tx2 =>
              cases hf : tx2.pr.find? (fun r => decide (r.pr_id = id)) with
              | none =>
                simp [Faulty.ReassignPR, Faulty.ReassignPRBody, PRPostgresRepository.ReassignPR,
                  noFault, deferredRollback, hex, hgs, hs, hr, hn, hins, hf]
              | some r =>
                simp [Faulty.ReassignPR, Faulty.ReassignPRBody, PRPostgresRepository.ReassignPR,
                  noFault, deferredRollback, hex, hgs, hs, hr, hn, hins, hf]

/-- C18: when `CreatePR`, `MergePR` or `ReassignPR` returns an error, be it a PRError, a
statement rejected by the data or any database call failing after the transaction has begun,
the store after the call is the store before it; the same holds for the service calls. -/
theorem operations_atomic_on_failure (fails : Nat → Bool) (rnd : Nat → Nat) (now : Nat)
    (db : Store) (pullRequestID pullRequestName authorID oldReviewerID : String) (e : GoError) :
    ((Faulty.CreatePR fails rnd db pullRequestID pullRequestName authorID).1 = .error e →
        (Faulty.CreatePR fails rnd db pullRequestID pullRequestName authorID).2 = db)
      ∧ ((Faulty.MergePR fails now db pullRequestID).1 = .error e →
          (Faulty.MergePR fails now db pullRequestID).2 = db)
      ∧ ((Faulty.ReassignPR fails rnd db pullRequestID oldReviewerID).1 = .error e →
          (Faulty.ReassignPR fails rnd db pullRequestID oldReviewerID).2 = db)
      ∧ ((PullRequestService.CreatePR rnd db pullRequestID pullRequestName authorID).1
            = .error e →
          (PullRequestService.CreatePR rnd db pullRequestID pullRequestName authorID).2 = db)
      ∧ ((PullRequestService.MergePR now db pullRequestID).1 = .error e →
          (PullRequestService.MergePR now db pullRequestID).2 = db)
      ∧ ((PullRequestService.ReassignPR rnd db pullRequestID oldReviewerID).1 = .error e →
          (PullRequestService.ReassignPR rnd db pullRequestID oldReviewerID).2 = db) := by
  have hc : ∀ f, (Faulty.CreatePR f rnd db pullRequestID pullRequestName authorID).1 = .error e →
      (Faulty.CreatePR f rnd db pullRequestID pullRequestName authorID).2 = db := fun f he =>
    deferredRollback_of_error db _ e (CreatePRBody_committed f rnd db _ _ _) he
  have hm : ∀ f, (Faulty.MergePR f now db pullRequestID).1 = .error e →
      (Faulty.MergePR f now db pullRequestID).2 = db := fun f he =>
    deferredRollback_of_error db _ e (MergePRBody_committed f now db _) he
  have hr : ∀ f, (Faulty.ReassignPR f rnd db pullRequestID oldReviewerID).1 = .error e →
      (Faulty.ReassignPR f rnd db pullRequestID oldReviewerID).2 = db := fun f he =>
    deferredRollback_of_error db _ e (ReassignPRBody_committed f rnd db _ _) he
  refine ⟨hc fails, hm fails, hr fails, ?_, ?_, ?_⟩
  · intro he
    rcases run_eq (Operation.createPR rnd pullRequestID pullRequestName authorID) db with h | h
    · exact h
    · have h2 : (PullRequestService.CreatePR rnd db pullRequestID pullRequestName authorID).2
          = (PRPostgresRepository.CreatePR rnd db pullRequestID pullRequestName authorID).2 := h
      rw [h2]
      exact CreatePR_store rnd db _ _ _
  · unfold PullRequestService.MergePR
    split_ifs
    · intro _; rfl
    · rw [← Faulty_MergePR_noFault]
      exact hm noFault
  · unfold PullRequestService.ReassignPR
    split_ifs
    · intro _; rfl
    · intro _; rfl
    · rw [← Faulty_ReassignPR_noFault]
      exact hr noFault

/-- The theorem of C18 at the open PR `p1` when the `INSERT` of the new reviewer fails after
the `DELETE` of `R1` went through: the working copy has lost `R1`, the store has not. -/
theorem operations_atomic_on_failure_witness :
    (Faulty.ReassignPR (faultAt 6) (fun _ => 0) storeOpen "p1" "R1").1
        = .error (.wrapped "exec error")
      ∧ (Faulty.ReassignPRBody (faultAt 6) (fun _ => 0) storeOpen "p1" "R1").2.1.reviewer_x_pr
        = []
      ∧ (Faulty.ReassignPR (faultAt 6) (fun _ => 0) storeOpen "p1" "R1").2 = storeOpen :=
  ⟨rfl, rfl,
    (operations_atomic_on_failure (faultAt 6) (fun _ => 0) 0 storeOpen "p1" "x" "A" "R1"
      (.wrapped "exec error")).2.2.1 rfl⟩

/-! ## Statistics -/

/-- C19: for an existing user `GetUserStatistics` returns the user's id, username and team
name, `authored_prs_count` equal to the number of PR rows whose author is the user and
`assigned_reviews_count` equal to the number of reviewer rows of the user, and leaves the store
unchanged; for a user id without a row it fails with code `NOT_FOUND`.  With a non-empty id the
service call gives the same. -/
theorem GetUserStatistics_counts (db : Store) (userID : String) (u : UserRow)
    (hu : db.lookupUser userID = some u) :
    StatisticsPostgresRepository.GetUserStatistics db userID
        = (.ok { UserID := userID, Username := u.username, TeamName := u.team_name,
                 AuthoredPRsCount := (authoredPRs db userID).length,
                 AssignedReviewsCount :=
                   db.reviewer_x_pr.countP (fun r => decide (r.user_id = userID)) }, db)
      ∧ (userID ≠ "" →
          StatisticsService.GetUserStatistics db userID
            = StatisticsPostgresRepository.GetUserStatistics db userID)
      ∧ ∀ (db2 : Store) (id2 : String), (∀ v ∈ db2.users, v.user_id ≠ id2) →
          StatisticsPostgresRepository.GetUserStatistics db2 id2
              = (.error (.prError NewNotFoundError), db2)
            ∧ NewNotFoundError.Code = "NOT_FOUND"
            ∧ (id2 ≠ "" →
                StatisticsService.GetUserStatistics db2 id2
                  = (.error (.prError NewNotFoundError), db2)) := by
  have hf : db.users.find? (fun v => decide (v.user_id = userID)) = some u := hu
  have hmem : u ∈ db.users := List.mem_of_find?_eq_some hf
  have hid : u.user_id = userID := by simpa using List.find?_some hf
  have hex : StatisticsPostgresRepository.UserExists db userID = true := by
    simp only [StatisticsPostgresRepository.UserExists, List.any_eq_true, decide_eq_true_eq]
    exact ⟨u, hmem, hid⟩
  refine ⟨?_, ?_, ?_⟩
  · simp [StatisticsPostgresRepository.GetUserStatistics, hex, hf, hid, authoredPRs,
      List.countP_eq_length_filter]
  · intro hne
    simp [StatisticsService.GetUserStatistics, hne]
  · intro db2 id2 hno
    have hex2 : StatisticsPostgresRepository.UserExists db2 id2 = false := by
      simpa [StatisticsPostgresRepository.UserExists] using hno
    have hrun : StatisticsPostgresRepository.GetUserStatistics db2 id2
        = (.error (.prError NewNotFoundError), db2) := by
      simp [StatisticsPostgresRepository.GetUserStatistics, hex2]
    refine ⟨hrun, rfl, ?_⟩
    intro hne
    simp [StatisticsService.GetUserStatistics, hne, hrun]

/-- The theorem of C19 at the user `A`, who authored `p1` and `p2` and reviews `p3`: the
counts are 2 and 1; and `Z`, who has no row, is not found. -/
theorem GetUserStatistics_counts_witness :
    StatisticsService.GetUserStatistics storeStats "A"
        = (.ok { UserID := "A", Username := "a", TeamName := "T", AuthoredPRsCount := 2,
                 AssignedReviewsCount := 1 }, storeStats)
      ∧ StatisticsService.GetUserStatistics storeStats "Z"
        = (.error (.prError NewNotFoundError), storeStats) :=
  have h := GetUserStatistics_counts storeStats "A" ⟨"A", "a", "T", true⟩ rfl
  ⟨(h.2.1 (by decide)).trans h.1,
    (h.2.2 storeStats "Z" (by simp [storeStats, storeT])).2.2 (by decide)⟩

/-- Under the primary key of `users` a PR joins with at most one user: with the one member of
the team who authored it, or with nobody. -/
theorem join_one_row (users : List UserRow) (hk : (users.map (fun u => u.user_id)).Nodup)
    (teamName : String) (r : PRRow) :
    ((users.filter (fun u =>
        decide (r.author_id = u.user_id) && decide (u.team_name = teamName))).map
          (fun u => (r, u))).map Prod.fst
      = if users.any (fun u =>
          decide (u.user_id = r.author_id) && decide (u.team_name = teamName)) then [r]
        else [] := by
  induction users with
  | nil => rfl
  | cons u us ih =>
    have hnd : u.user_id ∉ us.map (fun v => v.user_id) := (List.nodup_cons.1 hk).1
    have ih2 := ih (List.nodup_cons.1 hk).2
    by_cases hm : r.author_id = u.user_id
    · have hrest : ∀ v ∈ us, ¬ r.author_id = v.user_id := by
        intro v hv heq
        apply hnd
        rw [← hm, heq]
        exact List.mem_map_of_mem _ hv
      have hfil : us.filter (fun v =>
          decide (r.author_id = v.user_id) && decide (v.team_name = teamName)) = [] := by
        rw [List.filter_eq_nil_iff]
        intro v hv hc
        simp only [Bool.and_eq_true, decide_eq_true_eq] at hc
        exact hrest v hv hc.1
      have hany : us.any (fun v =>
          decide (v.user_id = r.author_id) && decide (v.team_name = teamName)) = false := by
        rw [List.any_eq_false]
        intro v hv hc
        simp only [Bool.and_eq_true, decide_eq_true_eq] at hc
        exact hrest v hv hc.1.symm
      by_cases ht : u.team_name = teamName
      · have hp : (decide (r.author_id = u.user_id) && decide (u.team_name = teamName))
            = true := by
          simp only [Bool.and_eq_true, decide_eq_true_eq]
          exact ⟨hm, ht⟩
        have hq : (decide (u.user_id = r.author_id) && decide (u.team_name = teamName))
            = true := by
          simp only [Bool.and_eq_true, decide_eq_true_eq]
          exact ⟨hm.symm, ht⟩
        rw [List.filter_cons, if_pos hp, hfil, List.any_cons, hq]
        rfl
      · have hp : ¬ (decide (r.author_id = u.user_id) && decide (u.team_name = teamName))
            = true := by
          simp only [Bool.and_eq_true, decide_eq_true_eq]
          exact fun hc => ht hc.2
        have hq : (decide (u.user_id = r.author_id) && decide (u.team_name = teamName))
            = false := by
          rw [Bool.and_eq_false_iff]
          right
          exact decide_eq_false ht
        rw [List.filter_cons, if_neg hp, hfil, List.any_cons, hq, hany]
        rfl
    · have hp : ¬ (decide (r.author_id = u.user_id) && decide (u.team_name = teamName))
          = true := by
        simp only [Bool.and_eq_true, decide_eq_true_eq]
        exact fun hc => hm hc.1
      have hq : (decide (u.user_id = r.author_id) && decide (u.team_name = teamName))
          = false := by
        rw [Bool.and_eq_false_iff]
        left
        exact decide_eq_false (fun h => hm h.symm)
      rw [List.filter_cons, if_neg hp, List.any_cons, hq, Bool.false_or]
      exact ih2

/-- Under the primary key of `users` the PR column of the join of `GetTeamStatistics` lists
the PRs authored by members of the team, each once. -/
theorem joinPRUsers_fst (db : Store) (hk : db.usersKeyed) (teamName : String) :
    (StatisticsPostgresRepository.joinPRUsers db teamName).map Prod.fst = teamPRs db teamName := by
  unfold StatisticsPostgresRepository.joinPRUsers teamPRs
  induction db.pr with
  | nil => rfl
  | cons r rs ih =>
    rw [List.flatMap_cons, List.map_append, ih, join_one_row db.users hk teamName r,
      List.filter_cons]
    split_ifs <;> rfl

theorem length_filter_fst (rows : List (PRRow × UserRow)) (p : PRRow → Bool) :
    (rows.filter (fun x => p x.1)).length = ((rows.map Prod.fst).filter p).length := by
  induction rows with
  | nil => rfl
  | cons x xs ih =>
    by_cases hp : p x.1 = true
    · simp [List.filter_cons, hp, ih]
    · simp [List.filter_cons, hp, ih]

theorem length_filter_open_merged (prs : List PRRow)
    (h : ∀ r ∈ prs, r.status = "OPEN" ∨ r.status = "MERGED") :
    prs.length = (prs.filter (fun r => decide (r.status = "MERGED"))).length
      + (prs.filter (fun r => decide (r.status = "OPEN"))).length := by
  induction prs with
  | nil => rfl
  | cons r rs ih =>
    have ih2 := ih (fun x hx => h x (List.mem_cons_of_mem _ hx))
    have hne : ("OPEN" : String) ≠ "MERGED" := by decide
    rcases h r (List.mem_cons_self _ _) with ho | hm
    · have h1 : decide (r.status = "MERGED") = false :=
        decide_eq_false (by rw [ho]; exact hne)
      have h2 : decide (r.status = "OPEN") = true := decide_eq_true ho
      rw [List.filter_cons, List.filter_cons, h1, h2]
      simp only [Bool.false_eq_true, if_false, if_true, List.length_cons]
      omega
    · have h1 : decide (r.status = "OPEN") = false :=
        decide_eq_false (by rw [hm]; exact fun h => hne h.symm)
      have h2 : decide (r.status = "MERGED") = true := decide_eq_true hm
      rw [List.filter_cons, List.filter_cons, h1, h2]
      simp only [Bool.false_eq_true, if_false, if_true, List.length_cons]
      omega

/-- C20: for an existing team whose members authored at least one PR, `GetTeamStatistics`
returns `total_prs` equal to the number of PRs authored by members of the team, `merged_prs` the
number of those with status `MERGED` and `open_prs` the number with status `OPEN`, so that
`total_prs = merged_prs + open_prs` when every status is `OPEN` or `MERGED`; for a team name
without a row it fails with code `NOT_FOUND`.  The store satisfies the primary key of
`users`; with a non-empty team name the service call gives the same. -/
theorem GetTeamStatistics_counts (db : Store) (teamName : String) (hk : db.usersKeyed)
    (hteam : teamName ∈ db.team) (hprs : teamPRs db teamName ≠ []) :
    StatisticsPostgresRepository.GetTeamStatistics db teamName
        = (.ok { TeamName := teamName,
                 TotalPRs := (teamPRs db teamName).length,
                 MergedPRs :=
                   ((teamPRs db teamName).filter (fun r => decide (r.status = "MERGED"))).length,
                 OpenPRs :=
                   ((teamPRs db teamName).filter (fun r => decide (r.status = "OPEN"))).length },
            db)
      ∧ (teamName ≠ "" →
          StatisticsService.GetTeamStatistics db teamName
            = StatisticsPostgresRepository.GetTeamStatistics db teamName)
      ∧ ((∀ r ∈ db.pr, r.status = "OPEN" ∨ r.status = "MERGED") →
          (teamPRs db teamName).length
            = ((teamPRs db teamName).filter (fun r => decide (r.status = "MERGED"))).length
              + ((teamPRs db teamName).filter (fun r => decide (r.status = "OPEN"))).length)
      ∧ ∀ (db2 : Store) (name2 : String), name2 ∉ db2.team →
          StatisticsPostgresRepository.GetTeamStatistics db2 name2
              = (.error (.prError NewNotFoundError), db2)
            ∧ NewNotFoundError.Code = "NOT_FOUND" := by
  have hex : StatisticsPostgresRepository.TeamExists db teamName = true := by
    simp only [StatisticsPostgresRepository.TeamExists, List.any_eq_true, decide_eq_true_eq]
    exact ⟨teamName, hteam, rfl⟩
  have hfst := joinPRUsers_fst db hk teamName
  refine ⟨?_, ?_, ?_, ?_⟩
  · unfold StatisticsPostgresRepository.GetTeamStatistics
    cases hj : StatisticsPostgresRepository.joinPRUsers db teamName with
    | nil =>
      rw [hj] at hfst
      exact absurd hfst.symm hprs
    | cons row rows =>
      have h1 := length_filter_fst (row :: rows) (fun r => decide (r.status = "MERGED"))
      have h2 := length_filter_fst (row :: rows) (fun r => decide (r.status = "OPEN"))
      have hfst2 : (row :: rows).map Prod.fst = teamPRs db teamName := by
        rw [← hj]
        exact hfst
      rw [hfst2] at h1 h2
      have h3 : (row :: rows).length = (teamPRs db teamName).length := by
        rw [← hfst2, List.length_map]
      simp only [hex, Bool.true_eq_false, if_false, h1, h2, h3]
  · intro hne
    simp [StatisticsService.GetTeamStatistics, hne]
  · intro hall
    apply length_filter_open_merged
    intro r hr
    exact hall r (List.mem_of_mem_filter hr)
  · intro db2 name2 hno
    have hex2 : StatisticsPostgresRepository.TeamExists db2 name2 = false := by
      simp only [StatisticsPostgresRepository.TeamExists, List.any_eq_false, decide_eq_true_eq]
      intro t ht heq
      exact hno (heq ▸ ht)
    refine ⟨?_, rfl⟩
    simp [StatisticsPostgresRepository.GetTeamStatistics, hex2]

/-- The theorem of C20 at team `T` with three PRs of `A` and two of `R1`, one of each merged:
5, 2 and 3; and the team `nope` is not found. -/
theorem GetTeamStatistics_counts_witness :
    StatisticsService.GetTeamStatistics storeFive "T"
        = (.ok { TeamName := "T", TotalPRs := 5, MergedPRs := 2, OpenPRs := 3 }, storeFive)
      ∧ StatisticsPostgresRepository.GetTeamStatistics storeFive "nope"
        = (.error (.prError NewNotFoundError), storeFive) :=
  have h := GetTeamStatistics_counts storeFive "T"
    (by simp [Store.usersKeyed, storeFive, storeT]) (by simp [storeFive, storeT])
    (by
      intro hnil
      have hlen : (teamPRs storeFive "T").length = 5 := rfl
      rw [hnil] at hlen
      exact absurd hlen (by decide))
  ⟨(h.2.1 (by decide)).trans h.1, (h.2.2.2 storeFive "nope" (by simp [storeFive, storeT])).1⟩

/-! ## Teams -/

theorem TeamExists_eq_true_iff (db : Store) (teamName : String) :
    TeamPostgresRepository.TeamExists db teamName = true ↔ teamName ∈ db.team := by
  simp only [TeamPostgresRepository.TeamExists, List.any_eq_true, decide_eq_true_eq]
  constructor
  · rintro ⟨t, ht, rfl⟩
    exact ht
  · intro h
    exact ⟨teamName, h, rfl⟩

theorem TeamExists_eq_false_iff (db : Store) (teamName : String) :
    TeamPostgresRepository.TeamExists db teamName = false ↔ teamName ∉ db.team := by
  rw [← TeamExists_eq_true_iff]
  cases TeamPostgresRepository.TeamExists db teamName <;> simp

theorem anyEmptyUserID_eq_false_iff (members : List TeamMember) :
    TeamService.anyEmptyUserID members = false ↔ ∀ m ∈ members, m.UserID ≠ "" := by
  simp [TeamService.anyEmptyUserID]

/-- A request that passes the three checks of `TeamService.AddTeam` reaches the repository. -/
theorem TeamService_AddTeam_of_valid (db : Store) (team : Team) (hname : team.TeamName ≠ "")
    (hmem : team.Members ≠ []) (hids : ∀ m ∈ team.Members, m.UserID ≠ "") :
    TeamService.AddTeam db team = TeamPostgresRepository.AddTeam db team := by
  have hlen : ¬ team.Members.length = 0 := by
    intro h
    exact hmem (List.length_eq_zero.1 h)
  have hany := (anyEmptyUserID_eq_false_iff team.Members).2 hids
  unfold TeamService.AddTeam
  rw [if_neg hname, if_neg hlen, hany]
  rfl

/-- C21: `AddTeam` with a non-empty team name and an empty member list does not create the
team: the service returns the PRError `EMPTY_FIELD` with the message "members field is empty"
and leaves the store as it was, so a name that was not taken is still not a row of `team`.  The
repository function alone would have stored the team and returned it. -/
theorem AddTeam_without_members_rejected (db : Store) (teamName : String)
    (hname : teamName ≠ "") (hfree : teamName ∉ db.team) :
    TeamService.AddTeam db ⟨teamName, []⟩
        = (.error (.prError ⟨"EMPTY_FIELD", "members field is empty"⟩), db)
      ∧ teamName ∉ (TeamService.AddTeam db ⟨teamName, []⟩).2.team
      ∧ TeamPostgresRepository.AddTeam db ⟨teamName, []⟩
        = (.ok ⟨teamName, []⟩, { db with team := db.team ++ [teamName] }) := by
  have hrun : TeamService.AddTeam db ⟨teamName, []⟩
      = (.error (.prError ⟨"EMPTY_FIELD", "members field is empty"⟩), db) := by
    have e : NewEmptyFieldError "members" = ⟨"EMPTY_FIELD", "members field is empty"⟩ := by
      decide
    have hlen : (⟨teamName, []⟩ : Team).Members.length = 0 := rfl
    unfold TeamService.AddTeam
    rw [if_neg hname, if_pos hlen, e]
  refine ⟨hrun, ?_, ?_⟩
  · rw [hrun]
    exact hfree
  · have hex := (TeamExists_eq_false_iff db teamName).2 hfree
    have hany : db.team.any (fun t => decide (t = teamName)) = false := hex
    simp [TeamPostgresRepository.AddTeam, hex, Store.insertTeam, hany,
      TeamPostgresRepository.insertMembers]

/-- The theorem of C21 at team `T`, asked to add the team `E` without members. -/
theorem AddTeam_without_members_rejected_witness :
    TeamService.AddTeam storeT ⟨"E", []⟩
        = (.error (.prError ⟨"EMPTY_FIELD", "members field is empty"⟩), storeT)
      ∧ "E" ∉ (TeamService.AddTeam storeT ⟨"E", []⟩).2.team
      ∧ TeamPostgresRepository.AddTeam storeT ⟨"E", []⟩
        = (.ok ⟨"E", []⟩, { storeT with team := storeT.team ++ ["E"] }) :=
  AddTeam_without_members_rejected storeT "E" (by decide) (by simp [storeT])

/-- C22: when a team named `team.TeamName` already exists and the request passes validation,
`AddTeam` fails with the PRError whose code is `TEAM_EXISTS` and the store is unchanged, on the
repository as through the service. -/
theorem AddTeam_existing_TEAM_EXISTS (db : Store) (team : Team) (hname : team.TeamName ≠ "")
    (hmem : team.Members ≠ []) (hids : ∀ m ∈ team.Members, m.UserID ≠ "")
    (hex : team.TeamName ∈ db.team) :
    TeamService.AddTeam db team = (.error (.prError NewTeamExistsError), db)
      ∧ TeamPostgresRepository.AddTeam db team = (.error (.prError NewTeamExistsError), db)
      ∧ NewTeamExistsError.Code = "TEAM_EXISTS" := by
  have ht := (TeamExists_eq_true_iff db team.TeamName).2 hex
  have hrepo : TeamPostgresRepository.AddTeam db team
      = (.error (.prError NewTeamExistsError), db) := by
    unfold TeamPostgresRepository.AddTeam
    rw [if_pos ht]
  refine ⟨?_, hrepo, rfl⟩
  rw [TeamService_AddTeam_of_valid db team hname hmem hids, hrepo]

/-- The theorem of C22 at team `T`, asked to add a second team `T` with the member `U9`. -/
theorem AddTeam_existing_TEAM_EXISTS_witness :
    TeamService.AddTeam storeT ⟨"T", [⟨"U9", "u9", true⟩]⟩
        = (.error (.prError NewTeamExistsError), storeT)
      ∧ storeT.lookupUser "U9" = none :=
  ⟨(AddTeam_existing_TEAM_EXISTS storeT ⟨"T", [⟨"U9", "u9", true⟩]⟩ (by decide) (by simp)
      (by simp) (by simp [storeT])).1,
    rfl⟩

/-- Members with pairwise distinct ids that are not stored yet are all inserted, in order. -/
theorem insertMembers_fresh (teamName : String) (members : List TeamMember) (tx : Store)
    (hteam : teamName ∈ tx.team)
    (hnd : (members.map (fun m => m.UserID)).Nodup)
    (hfresh : ∀ m ∈ members, ∀ u ∈ tx.users, u.user_id ≠ m.UserID) :
    TeamPostgresRepository.insertMembers tx members teamName
      = some { tx with users := tx.users ++ members.map (fun m => m.toRow teamName) } := by
  induction members generalizing tx with
  | nil => simp [TeamPostgresRepository.insertMembers]
  | cons m rest ih =>
    have hpk : tx.users.any (fun u => decide (u.user_id = m.UserID)) = false := by
      rw [List.any_eq_false]
      intro u hu hc
      exact hfresh m (List.mem_cons_self _ _) u hu (of_decide_eq_true hc)
    have hfk : tx.team.any (fun t => decide (t = teamName)) = true := by
      rw [List.any_eq_true]
      exact ⟨teamName, hteam, decide_eq_true rfl⟩
    have hins : tx.insertUser m.UserID m.Username teamName m.IsActive
        = some { tx with users := tx.users ++ [m.toRow teamName] } := by
      simp [Store.insertUser, hpk, hfk, TeamMember.toRow]
    have hnd2 := List.nodup_cons.1 hnd
    have hrest := ih { tx with users := tx.users ++ [m.toRow teamName] } hteam hnd2.2 (by
      intro m1 hm1 u hu
      rcases List.mem_append.1 hu with hu | hu
      · exact hfresh m1 (List.mem_cons_of_mem _ hm1) u hu
      · rw [List.mem_singleton] at hu
        rw [hu]
        intro heq
        apply hnd2.1
        have hid : m.UserID = m1.UserID := heq
        exact List.mem_map.2 ⟨m1, hm1, hid.symm⟩)
    simp only [TeamPostgresRepository.insertMembers, hins, hrest, List.map_cons,
      List.append_assoc, List.singleton_append]

/-- What `AddTeam` does with a new team whose members are all new. -/
theorem repository_AddTeam_fresh (db : Store) (team : Team) (hfree : team.TeamName ∉ db.team)
    (hnd : (team.Members.map (fun m => m.UserID)).Nodup)
    (hfresh : ∀ m ∈ team.Members, ∀ u ∈ db.users, u.user_id ≠ m.UserID) :
    TeamPostgresRepository.AddTeam db team
      = (.ok team,
          { db with
            team := db.team ++ [team.TeamName],
            users := db.users ++ team.Members.map (fun m => m.toRow team.TeamName) }) := by
  have hex := (TeamExists_eq_false_iff db team.TeamName).2 hfree
  have hany : db.team.any (fun t => decide (t = team.TeamName)) = false := hex
  have hins : db.insertTeam team.TeamName
      = some { db with team := db.team ++ [team.TeamName] } := by
    simp [Store.insertTeam, hany]
  have hmem := insertMembers_fresh team.TeamName team.Members
    { db with team := db.team ++ [team.TeamName] } (by simp) hnd hfresh
  simp only [TeamPostgresRepository.AddTeam, hex, hins, hmem, Bool.false_eq_true, if_false]

/-- C23: for a team with a non-empty unused name and a non-empty list of members whose user
ids are non-empty, pairwise distinct and not yet stored, `AddTeam` succeeds and returns the team
unchanged, and `GetTeam` on the resulting store returns the same team name and exactly the same
members, each with its `user_id`, `username` and `is_active`.  The store satisfies the foreign
key of `users.team_name`. -/
theorem AddTeam_GetTeam_round_trip (db : Store) (team : Team) (hfk : db.usersTeamFK)
    (hname : team.TeamName ≠ "") (hfree : team.TeamName ∉ db.team) (hmem : team.Members ≠ [])
    (hids : ∀ m ∈ team.Members, m.UserID ≠ "")
    (hnd : (team.Members.map (fun m => m.UserID)).Nodup)
    (hfresh : ∀ m ∈ team.Members, ∀ u ∈ db.users, u.user_id ≠ m.UserID) :
    (TeamService.AddTeam db team).1 = .ok team
      ∧ TeamService.GetTeam (TeamService.AddTeam db team).2 team.TeamName
        = (.ok team, (TeamService.AddTeam db team).2) := by
  rw [TeamService_AddTeam_of_valid db team hname hmem hids,
    repository_AddTeam_fresh db team hfree hnd hfresh]
  refine ⟨rfl, ?_⟩
  have hold : db.users.filter (fun u => decide (u.team_name = team.TeamName)) = [] := by
    rw [List.filter_eq_nil_iff]
    intro u hu hc
    have := hfk u hu
    rw [of_decide_eq_true hc] at this
    exact hfree this
  have hnew : (team.Members.map (fun m => m.toRow team.TeamName)).filter
      (fun u => decide (u.team_name = team.TeamName))
        = team.Members.map (fun m => m.toRow team.TeamName) := by
    rw [List.filter_eq_self]
    intro u hu
    obtain ⟨m, _, rfl⟩ := List.mem_map.1 hu
    exact decide_eq_true rfl
  have hback : (team.Members.map (fun m => m.toRow team.TeamName)).map
      (fun u => (⟨u.user_id, u.username, u.is_active⟩ : TeamMember)) = team.Members := by
    rw [List.map_map]
    exact List.map_id'' (fun m => rfl) team.Members
  have hex : TeamPostgresRepository.TeamExists
      { db with
        team := db.team ++ [team.TeamName],
        users := db.users ++ team.Members.map (fun m => m.toRow team.TeamName) }
      team.TeamName = true := by
    rw [TeamExists_eq_true_iff]
    simp
  unfold TeamService.GetTeam TeamPostgresRepository.GetTeam
  rw [if_neg hname, hex]
  simp only [Bool.true_eq_false, if_false, List.filter_append, hold, hnew, List.nil_append, hback]

/-- The theorem of C23 at team `T`, to which the team `N` of `U1` and `U2` is added. -/
theorem AddTeam_GetTeam_round_trip_witness :
    (TeamService.AddTeam storeT teamN).1 = .ok teamN
      ∧ TeamService.GetTeam (TeamService.AddTeam storeT teamN).2 "N"
        = (.ok teamN, (TeamService.AddTeam storeT teamN).2) :=
  AddTeam_GetTeam_round_trip storeT teamN (by simp [Store.usersTeamFK, storeT]) (by decide)
    (by simp [storeT, teamN]) (by simp [teamN]) (by simp [teamN]) (by simp [teamN])
    (by simp [storeT, teamN])

/-! ## Users -/

theorem lookupUser_updateIsActive_map (db : Store) (id other : String) (b : Bool) :
    (db.updateIsActive id b).lookupUser other
      = (db.lookupUser other).map
          (fun v => if v.user_id = id then { v with is_active := b } else v) := by
  have hcomp : ((fun v : UserRow => decide (v.user_id = other)) ∘
      fun v : UserRow => if v.user_id = id then { v with is_active := b } else v)
        = fun v : UserRow => decide (v.user_id = other) := by
    funext v
    by_cases hv : v.user_id = id <;> simp [hv]
  simp only [Store.lookupUser, Store.updateIsActive, List.find?_map, hcomp]

theorem UserExists_eq_false_iff (db : Store) (userID : String) :
    UsersPostgresRepository.UserExists db userID = false ↔ ∀ v ∈ db.users, v.user_id ≠ userID := by
  simp [UsersPostgresRepository.UserExists]

/-- What `SetUserIsActive` does for a user id without a row. -/
theorem SetUserIsActive_of_missing (db : Store) (userID : String) (isActive : Bool)
    (hno : ∀ v ∈ db.users, v.user_id ≠ userID) :
    UsersPostgresRepository.SetUserIsActive db userID isActive
      = (.error (.prError NewNotFoundError), db) := by
  have hfil : db.users.filter (fun v => decide (v.user_id = userID)) = [] := by
    rw [List.filter_eq_nil_iff]
    intro v hv hc
    exact hno v hv (of_decide_eq_true hc)
  simp [UsersPostgresRepository.SetUserIsActive, hfil]

/-- C24: for an existing user `SetUserIsActive(userID, b)` returns that user with
`is_active = b` and the stored `user_id`, `username` and `team_name`, and the store afterwards
differs from the store before only in the `is_active` of that user: every other user row, and
every team, PR and reviewer row, is as it was.  For a user id without a row it fails with code
`NOT_FOUND` and the store is unchanged.  With a non-empty id the service call gives the same. -/
theorem SetUserIsActive_changes_only_is_active (db : Store) (userID : String) (isActive : Bool)
    (u : UserRow) (hu : db.lookupUser userID = some u) :
    (∃ db1 : Store,
        UsersPostgresRepository.SetUserIsActive db userID isActive
            = (.ok ⟨userID, u.username, u.team_name, isActive⟩, db1)
          ∧ db1.lookupUser userID = some { u with is_active := isActive }
          ∧ (∀ other : String, other ≠ userID → db1.lookupUser other = db.lookupUser other)
          ∧ (∀ v : UserRow, v.user_id ≠ userID → (v ∈ db1.users ↔ v ∈ db.users))
          ∧ db1.users.map (fun v => (v.user_id, v.username, v.team_name))
              = db.users.map (fun v => (v.user_id, v.username, v.team_name))
          ∧ db1.team = db.team ∧ db1.pr = db.pr ∧ db1.reviewer_x_pr = db.reviewer_x_pr)
      ∧ (userID ≠ "" →
          UsersService.SetUserIsActive db userID isActive
            = UsersPostgresRepository.SetUserIsActive db userID isActive)
      ∧ ∀ (db2 : Store) (id2 : String), (∀ v ∈ db2.users, v.user_id ≠ id2) →
          UsersPostgresRepository.SetUserIsActive db2 id2 isActive
              = (.error (.prError NewNotFoundError), db2)
            ∧ NewNotFoundError.Code = "NOT_FOUND"
            ∧ (id2 ≠ "" →
                UsersService.SetUserIsActive db2 id2 isActive
                  = (.error (.prError NewNotFoundError), db2)) := by
  have hf : db.users.find? (fun v => decide (v.user_id = userID)) = some u := hu
  have hmem : u ∈ db.users := List.mem_of_find?_eq_some hf
  have hid : u.user_id = userID := by simpa using List.find?_some hf
  have hrows : ¬ (db.users.filter (fun v => decide (v.user_id = userID))).length = 0 := by
    intro h0
    have hnil := List.length_eq_zero.1 h0
    rw [List.filter_eq_nil_iff] at hnil
    exact hnil u hmem (decide_eq_true hid)
  have hlook : (db.updateIsActive userID isActive).lookupUser userID
      = some { u with is_active := isActive } := by
    rw [lookupUser_updateIsActive_map, hu]
    simp [hid]
  have hf1 : (db.updateIsActive userID isActive).users.find?
      (fun v => decide (v.user_id = userID)) = some { u with is_active := isActive } := hlook
  refine ⟨⟨db.updateIsActive userID isActive, ?_, hlook, ?_, ?_, ?_, rfl, rfl, rfl⟩, ?_, ?_⟩
  · simp only [UsersPostgresRepository.SetUserIsActive, hrows, if_false, hf1, hid]
  · intro other hne
    rw [lookupUser_updateIsActive_map]
    cases hl : db.lookupUser other with
    | none => rfl
    | some w =>
      have hw : w.user_id = other := by
        have := List.find?_some hl
        simpa using this
      have hw2 : ¬ w.user_id = userID := by rw [hw]; exact hne
      simp [hw2]
  · intro v hv
    simp only [Store.updateIsActive, List.mem_map]
    constructor
    · rintro ⟨w, hw, hwv⟩
      by_cases hc : w.user_id = userID
      · rw [if_pos hc] at hwv
        exact absurd (by rw [← hwv]; exact hc) hv
      · rw [if_neg hc] at hwv
        rw [← hwv]
        exact hw
    · intro hvm
      exact ⟨v, hvm, if_neg hv⟩
  · simp only [Store.updateIsActive, List.map_map]
    apply List.map_congr_left
    intro w _
    by_cases hc : w.user_id = userID <;> simp [hc]
  · intro hne
    simp [UsersService.SetUserIsActive, hne]
  · intro db2 id2 hno
    have hrun := SetUserIsActive_of_missing db2 id2 isActive hno
    refine ⟨hrun, rfl, ?_⟩
    intro hne
    simp [UsersService.SetUserIsActive, hne, hrun]

/-- The theorem of C24 at the open PR `p1`, when its reviewer `R1` is set inactive. -/
theorem SetUserIsActive_changes_only_is_active_witness :
    UsersService.SetUserIsActive storeOpen "R1" false
        = (.ok ⟨"R1", "r1", "T", false⟩, storeOpen.updateIsActive "R1" false)
      ∧ (storeOpen.updateIsActive "R1" false).users
        = [⟨"A", "a", "T", true⟩, ⟨"R1", "r1", "T", false⟩, ⟨"R2", "r2", "T", true⟩,
            ⟨"R3", "r3", "T", false⟩]
      ∧ UsersService.SetUserIsActive storeOpen "Z" false
        = (.error (.prError NewNotFoundError), storeOpen) :=
  have h := SetUserIsActive_changes_only_is_active storeOpen "R1" false ⟨"R1", "r1", "T", true⟩
    rfl
  ⟨(h.2.1 (by decide)).trans rfl, rfl,
    (h.2.2 storeOpen "Z" (by simp [storeOpen, storeT])).2.2 (by decide)⟩

/-- In a duplicate-free list, the rows that pass a test only one row can pass are that row or
none: mapped to a constant they list it once or not at all. -/
theorem filter_map_const_of_unique {α β : Type} (l : List α) (hnd : l.Nodup) (p : α → Bool)
    (c : β) (huniq : ∀ x ∈ l, ∀ y ∈ l, p x = true → p y = true → x = y) :
    (l.filter p).map (fun _ => c) = if l.any p then [c] else [] := by
  induction l with
  | nil => rfl
  | cons x xs ih =>
    have hx : x ∉ xs := (List.nodup_cons.1 hnd).1
    have ih2 := ih (List.nodup_cons.1 hnd).2
      (fun a ha b hb => huniq a (List.mem_cons_of_mem _ ha) b (List.mem_cons_of_mem _ hb))
    cases hp : p x with
    | true =>
      have hnone : xs.filter p = [] := by
        rw [List.filter_eq_nil_iff]
        intro y hy hpy
        have := huniq x (List.mem_cons_self _ _) y (List.mem_cons_of_mem _ hy) hp hpy
        exact hx (this ▸ hy)
      rw [List.filter_cons, hp, if_pos rfl, hnone, List.any_cons, hp]
      rfl
    | false =>
      rw [List.filter_cons, hp, if_neg (by simp), List.any_cons, hp, Bool.false_or]
      exact ih2

/-- Under the primary key of `reviewer_x_pr` the join of `GetUserReview` lists each PR the
user reviews once. -/
theorem GetUserReview_rows (db : Store) (hk : db.reviewersKeyed) (userID : String) :
    db.pr.flatMap (fun pr =>
        (db.reviewer_x_pr.filter (fun rpr =>
            decide (pr.pr_id = rpr.pr_id) && decide (rpr.user_id = userID))).map
          (fun _ => (⟨pr.pr_id, pr.pr_name, pr.author_id, pr.status⟩ : PullRequestShort)))
      = reviewedPRs db userID := by
  unfold reviewedPRs
  induction db.pr with
  | nil => rfl
  | cons r rs ih =>
    have hone := filter_map_const_of_unique db.reviewer_x_pr hk
      (fun rpr => decide (r.pr_id = rpr.pr_id) && decide (rpr.user_id = userID))
      (⟨r.pr_id, r.pr_name, r.author_id, r.status⟩ : PullRequestShort)
      (by
        intro x _ y _ hpx hpy
        simp only [Bool.and_eq_true, decide_eq_true_eq] at hpx hpy
        cases x
        cases y
        simp only at hpx hpy
        rw [← hpx.1, ← hpy.1, hpx.2, hpy.2])
    have hany : db.reviewer_x_pr.any
        (fun rpr => decide (r.pr_id = rpr.pr_id) && decide (rpr.user_id = userID))
          = decide (userID ∈ PRPostgresRepository.GetReviewers db r.pr_id) := by
      rw [Bool.eq_iff_iff]
      simp only [List.any_eq_true, Bool.and_eq_true, decide_eq_true_eq,
        PRPostgresRepository.GetReviewers, List.mem_map, List.mem_filter]
      constructor
      · rintro ⟨x, hx, h1, h2⟩
        exact ⟨x, ⟨hx, h1.symm⟩, h2⟩
      · rintro ⟨x, ⟨hx, h1⟩, h2⟩
        exact ⟨x, hx, h1.symm, h2⟩
    rw [List.flatMap_cons, ih, hone, hany, List.filter_cons]
    split_ifs <;> rfl

/-- C25: for an existing user `GetUserReview` returns exactly one entry (id, name, author,
status) for each PR on which the user is an assigned reviewer and nothing else, so a user who
reviews nothing gets an empty list; for a user id without a row it fails with code `NOT_FOUND`.
The store satisfies the primary key of `reviewer_x_pr`; with a non-empty id the service call
gives the same. -/
theorem GetUserReview_lists_reviewed_PRs (db : Store) (userID : String) (u : UserRow)
    (hk : db.reviewersKeyed) (hu : db.lookupUser userID = some u) :
    UsersPostgresRepository.GetUserReview db userID = (.ok (reviewedPRs db userID), db)
      ∧ ((∀ r ∈ db.reviewer_x_pr, r.user_id ≠ userID) →
          UsersPostgresRepository.GetUserReview db userID = (.ok [], db))
      ∧ (userID ≠ "" →
          UsersService.GetUserReview db userID
            = UsersPostgresRepository.GetUserReview db userID)
      ∧ ∀ (db2 : Store) (id2 : String), (∀ v ∈ db2.users, v.user_id ≠ id2) →
          UsersPostgresRepository.GetUserReview db2 id2
              = (.error (.prError NewNotFoundError), db2)
            ∧ NewNotFoundError.Code = "NOT_FOUND"
            ∧ (id2 ≠ "" →
                UsersService.GetUserReview db2 id2
                  = (.error (.prError NewNotFoundError), db2)) := by
  have hf : db.users.find? (fun v => decide (v.user_id = userID)) = some u := hu
  have hmem : u ∈ db.users := List.mem_of_find?_eq_some hf
  have hid : u.user_id = userID := by simpa using List.find?_some hf
  have hex : UsersPostgresRepository.UserExists db userID = true := by
    simp only [UsersPostgresRepository.UserExists, List.any_eq_true, decide_eq_true_eq]
    exact ⟨u, hmem, hid⟩
  have hrun : UsersPostgresRepository.GetUserReview db userID
      = (.ok (reviewedPRs db userID), db) := by
    unfold UsersPostgresRepository.GetUserReview
    rw [hex, GetUserReview_rows db hk userID]
    rfl
  refine ⟨hrun, ?_, ?_, ?_⟩
  · intro hnone
    rw [hrun]
    have hempty : reviewedPRs db userID = [] := by
      unfold reviewedPRs
      rw [List.map_eq_nil_iff, List.filter_eq_nil_iff]
      intro r _ hc
      have hin := of_decide_eq_true hc
      simp only [PRPostgresRepository.GetReviewers, List.mem_map, List.mem_filter] at hin
      obtain ⟨x, ⟨hx, _⟩, hxu⟩ := hin
      exact hnone x hx hxu
    rw [hempty]
  · intro hne
    simp [UsersService.GetUserReview, hne]
  · intro db2 id2 hno
    have hex2 := (UserExists_eq_false_iff db2 id2).2 hno
    have hrun2 : UsersPostgresRepository.GetUserReview db2 id2
        = (.error (.prError NewNotFoundError), db2) := by
      unfold UsersPostgresRepository.GetUserReview
      rw [hex2]
      rfl
    refine ⟨hrun2, rfl, ?_⟩
    intro hne
    simp [UsersService.GetUserReview, hne, hrun2]

/-- The theorem of C25 at the store where `A` authored `p1` and `p2` and reviews `p3`: the
list of `A` is `p3`; the author `A` of the only PR of `storeOpen` gets the empty list. -/
theorem GetUserReview_lists_reviewed_PRs_witness :
    UsersService.GetUserReview storeStats "A" = (.ok [⟨"p3", "z", "R1", "OPEN"⟩], storeStats)
      ∧ UsersPostgresRepository.GetUserReview storeOpen "A" = (.ok [], storeOpen)
      ∧ UsersService.GetUserReview storeStats "Z"
        = (.error (.prError NewNotFoundError), storeStats) :=
  have h := GetUserReview_lists_reviewed_PRs storeStats "A" ⟨"A", "a", "T", true⟩
    (by simp [Store.reviewersKeyed, storeStats]) rfl
  have h2 := GetUserReview_lists_reviewed_PRs storeOpen "A" ⟨"A", "a", "T", true⟩
    (by simp [Store.reviewersKeyed, storeOpen]) rfl
  ⟨(h.2.2.1 (by decide)).trans (h.1.trans rfl),
    h2.2.1 (by simp [storeOpen]),
    (h.2.2.2 storeStats "Z" (by simp [storeStats, storeT])).2.2 (by decide)⟩

/-! ## HTTP statuses -/

theorem CreatePRBody_status (fails : Nat → Bool) (rnd : Nat → Nat) (db : Store)
    (id name author : String) :
    statusAsClaimed 201 Handler.createPRStatus
      (Faulty.CreatePRBody fails rnd db id name author).1 := by
  unfold Faulty.CreatePRBody
  by_cases h0 : fails 0 = true
  · rw [if_pos h0]; exact ⟨rfl, rfl⟩
  rw [if_neg h0]
  by_cases h1 : PRPostgresRepository.AuthorExists db author = false
  · rw [if_pos h1]; exact ⟨rfl, rfl⟩
  rw [if_neg h1]
  by_cases h2 : fails 1 = true
  · rw [if_pos h2]; exact ⟨rfl, rfl⟩
  rw [if_neg h2]
  by_cases h3 : fails 2 = true
  · rw [if_pos h3]; exact ⟨rfl, rfl⟩
  rw [if_neg h3]
  cases db.pr.find? (fun r => decide (r.pr_id = id)) with
  | none => exact ⟨rfl, rfl⟩
  | some row =>
    simp only []
    by_cases h4 : fails 3 = true
    · rw [if_pos h4]; exact ⟨rfl, rfl⟩
    rw [if_neg h4]
    by_cases h5 : fails 4 = true
    · rw [if_pos h5]; exact ⟨rfl, rfl⟩
    rw [if_neg h5]
    cases db.insertPR id name author with
    | none => exact ⟨rfl, rfl⟩
    | some tx1 =>
      simp only []
      generalize Faulty.insertReviewers fails 5 tx1
        (PRPostgresRepository.FindReviewers rnd db author) id = res
      obtain ⟨tx2, ok⟩ := res
      cases ok with
      | false => exact ⟨rfl, rfl⟩
      | true =>
        simp only []
        by_cases h6 : fails (5 + (PRPostgresRepository.FindReviewers rnd db author).length) = true
        · rw [if_pos h6]; exact ⟨rfl, rfl⟩
        rw [if_neg h6]
        exact ⟨rfl, rfl⟩

theorem MergePRBody_status (fails : Nat → Bool) (now : Nat) (db : Store) (id : String) :
    statusAsClaimed 200 Handler.mergePRStatus (Faulty.MergePRBody fails now db id).1 := by
  unfold Faulty.MergePRBody PRPostgresRepository.GetStatus PRPostgresRepository.GetPR
  by_cases h0 : fails 0 = true
  · rw [if_pos h0]; exact ⟨rfl, rfl⟩
  rw [if_neg h0]
  by_cases h1 : PRPostgresRepository.PRExists db id = false
  · rw [if_pos h1]; exact ⟨rfl, rfl⟩
  rw [if_neg h1]
  by_cases h2 : fails 1 = true
  · rw [if_pos h2]; exact ⟨rfl, rfl⟩
  rw [if_neg h2]
  by_cases h3 : fails 2 = true
  · rw [if_pos h3]; exact ⟨rfl, rfl⟩
  rw [if_neg h3]
  cases db.pr.find? (fun r => decide (r.pr_id = id)) with
  | none => exact ⟨rfl, rfl⟩
  | some row =>
    simp only []
    by_cases h4 : row.status = "MERGED"
    · rw [if_pos h4]
      by_cases h5 : fails 3 = true
      · rw [if_pos h5]; exact ⟨rfl, rfl⟩
      rw [if_neg h5]
      cases row.merged_at with
      | none => exact ⟨rfl, rfl⟩
      | some t =>
        simp only []
        by_cases h6 : fails 4 = true
        · rw [if_pos h6]; exact ⟨rfl, rfl⟩
        rw [if_neg h6]
        by_cases h7 : fails 5 = true
        · rw [if_pos h7]; exact ⟨rfl, rfl⟩
        rw [if_neg h7]
        exact ⟨rfl, rfl⟩
    rw [if_neg h4]
    by_cases h8 : fails 6 = true
    · rw [if_pos h8]; exact ⟨rfl, rfl⟩
    rw [if_neg h8]
    cases ((db.pr.filter (fun r => decide (r.pr_id = id))).map
        (fun r => r.merged now)).head? with
    | none => exact ⟨rfl, rfl⟩
    | some r =>
      simp only []
      by_cases h9 : fails 7 = true
      · rw [if_pos h9]; exact ⟨rfl, rfl⟩
      rw [if_neg h9]
      by_cases h10 : fails 8 = true
      · rw [if_pos h10]; exact ⟨rfl, rfl⟩
      rw [if_neg h10]
      exact ⟨rfl, rfl⟩

theorem ReassignPRBody_status (fails : Nat → Bool) (rnd : Nat → Nat) (db : Store)
    (id old : String) :
    statusAsClaimed 200 Handler.reassignPRStatus
      (Faulty.ReassignPRBody fails rnd db id old).1 := by
  unfold Faulty.ReassignPRBody PRPostgresRepository.GetStatus
  by_cases h0 : fails 0 = true
  · rw [if_pos h0]; exact ⟨rfl, rfl⟩
  rw [if_neg h0]
  by_cases h1 : PRPostgresRepository.PRExists db id = false
  · rw [if_pos h1]; exact ⟨rfl, rfl⟩
  rw [if_neg h1]
  by_cases h2 : fails 1 = true
  · rw [if_pos h2]; exact ⟨rfl, rfl⟩
  rw [if_neg h2]
  by_cases h3 : fails 2 = true
  · rw [if_pos h3]; exact ⟨rfl, rfl⟩
  rw [if_neg h3]
  cases db.pr.find? (fun r => decide (r.pr_id = id)) with
  | none => exact ⟨rfl, rfl⟩
  | some row =>
    simp only []
    by_cases h4 : row.status = "MERGED"
    · rw [if_pos h4]; exact ⟨rfl, rfl⟩
    rw [if_neg h4]
    by_cases h5 : fails 3 = true
    · rw [if_pos h5]; exact ⟨rfl, rfl⟩
    rw [if_neg h5]
    by_cases h6 : PRPostgresRepository.IsReviewer db id old = false
    · rw [if_pos h6]; exact ⟨rfl, rfl⟩
    rw [if_neg h6]
    by_cases h7 : fails 4 = true
    · rw [if_pos h7]; exact ⟨rfl, rfl⟩
    rw [if_neg h7]
    by_cases h8 : PRPostgresRepository.FindNewReviewer rnd db id old = ""
    · rw [if_pos h8]; exact ⟨rfl, rfl⟩
    rw [if_neg h8]
    by_cases h9 : fails 5 = true
    · rw [if_pos h9]; exact ⟨rfl, rfl⟩
    rw [if_neg h9]
    by_cases h10 : fails 6 = true
    · rw [if_pos h10]; exact ⟨rfl, rfl⟩
    rw [if_neg h10]
    cases (db.deleteReviewer id old).insertReviewer
        (PRPostgresRepository.FindNewReviewer rnd db id old) id with
    | none => exact ⟨rfl, rfl⟩
    | some tx2 =>
      simp only []
      by_cases h11 : fails 7 = true
      · rw [if_pos h11]; exact ⟨rfl, rfl⟩
      rw [if_neg h11]
      cases tx2.pr.find? (fun r => decide (r.pr_id = id)) with
      | none => exact ⟨rfl, rfl⟩
      | some r =>
        simp only []
        by_cases h12 : fails 8 = true
        · rw [if_pos h12]; exact ⟨rfl, rfl⟩
        rw [if_neg h12]
        by_cases h13 : fails 9 = true
        · rw [if_pos h13]; exact ⟨rfl, rfl⟩
        rw [if_neg h13]
        exact ⟨rfl, rfl⟩

/-- C26: the PR handlers map outcomes to HTTP statuses totally: for `CreatePR`, `MergePR` and
`ReassignPR` the handler writes a status for whatever the service returns, and it is the one
the spec names: 201 (`CreatePR`) or 200 on success, 400 for `EMPTY_FIELD`, 404 for `NOT_FOUND`,
409 for `PR_EXISTS`, `PR_MERGED`, `NOT_ASSIGNED` and `NO_CANDIDATE`, 500 for an error that is not
a PRError; the same holds for what the repository returns when database calls fail.  Each case
of the mapping is also stated on the handler alone, for any returned value, any text of a
wrapped error and any message of a PRError: success gives 201 for `CreatePR` and 200 for
`MergePR` and `ReassignPR`, whether or not a call of the service produces it. -/
theorem handlers_map_statuses_totally (fails : Nat → Bool) (rnd : Nat → Nat) (now : Nat)
    (db : Store) (pullRequestID pullRequestName authorID oldReviewerID : String) :
    (Handler.CreatePR rnd db pullRequestID pullRequestName authorID
          = claimedStatus 201
              (PullRequestService.CreatePR rnd db pullRequestID pullRequestName authorID).1
        ∧ (Handler.CreatePR rnd db pullRequestID pullRequestName authorID).isSome = true)
      ∧ (Handler.MergePR now db pullRequestID
            = claimedStatus 200 (PullRequestService.MergePR now db pullRequestID).1
          ∧ (Handler.MergePR now db pullRequestID).isSome = true)
      ∧ (Handler.ReassignPR rnd db pullRequestID oldReviewerID
            = claimedStatus 200
                (PullRequestService.ReassignPR rnd db pullRequestID oldReviewerID).1
          ∧ (Handler.ReassignPR rnd db pullRequestID oldReviewerID).isSome = true)
      ∧ statusAsClaimed 201 Handler.createPRStatus
          (Faulty.CreatePR fails rnd db pullRequestID pullRequestName authorID).1
      ∧ statusAsClaimed 200 Handler.mergePRStatus (Faulty.MergePR fails now db pullRequestID).1
      ∧ statusAsClaimed 200 Handler.reassignPRStatus
          (Faulty.ReassignPR fails rnd db pullRequestID oldReviewerID).1
      ∧ (∀ pr : PullRequest, Handler.createPRStatus (.ok pr) = some 201)
      ∧ (∀ pr : PullRequest, Handler.mergePRStatus (.ok pr) = some 200)
      ∧ (∀ r : PullRequest × String, Handler.reassignPRStatus (.ok r) = some 200)
      ∧ (∀ msg : String,
          Handler.createPRStatus (.error (.wrapped msg)) = some 500
            ∧ Handler.mergePRStatus (.error (.wrapped msg)) = some 500
            ∧ Handler.reassignPRStatus (.error (.wrapped msg)) = some 500)
      ∧ (∀ msg : String,
          Handler.createPRStatus (.error (.prError ⟨"EMPTY_FIELD", msg⟩)) = some 400
            ∧ Handler.createPRStatus (.error (.prError ⟨"NOT_FOUND", msg⟩)) = some 404
            ∧ Handler.createPRStatus (.error (.prError ⟨"PR_EXISTS", msg⟩)) = some 409
            ∧ Handler.mergePRStatus (.error (.prError ⟨"EMPTY_FIELD", msg⟩)) = some 400
            ∧ Handler.mergePRStatus (.error (.prError ⟨"NOT_FOUND", msg⟩)) = some 404
            ∧ Handler.reassignPRStatus (.error (.prError ⟨"EMPTY_FIELD", msg⟩)) = some 400
            ∧ Handler.reassignPRStatus (.error (.prError ⟨"NOT_FOUND", msg⟩)) = some 404
            ∧ Handler.reassignPRStatus (.error (.prError ⟨"PR_MERGED", msg⟩)) = some 409
            ∧ Handler.reassignPRStatus (.error (.prError ⟨"NOT_ASSIGNED", msg⟩)) = some 409
            ∧ Handler.reassignPRStatus (.error (.prError ⟨"NO_CANDIDATE", msg⟩)) = some 409) := by
  refine ⟨?_, ?_, ?_, CreatePRBody_status fails rnd db _ _ _, MergePRBody_status fails now db _,
    ReassignPRBody_status fails rnd db _ _, fun _ => rfl, fun _ => rfl, fun _ => rfl,
    fun _ => ⟨rfl, rfl, rfl⟩, fun _ => ⟨rfl, rfl, rfl, rfl, rfl, rfl, rfl, rfl, rfl, rfl⟩⟩
  · unfold Handler.CreatePR PullRequestService.CreatePR
    by_cases h1 : pullRequestID = ""
    · rw [if_pos h1]; exact ⟨rfl, rfl⟩
    rw [if_neg h1]
    by_cases h2 : pullRequestName = ""
    · rw [if_pos h2]; exact ⟨rfl, rfl⟩
    rw [if_neg h2]
    by_cases h3 : authorID = ""
    · rw [if_pos h3]; exact ⟨rfl, rfl⟩
    rw [if_neg h3, ← Faulty_CreatePR_noFault]
    exact CreatePRBody_status noFault rnd db _ _ _
  · unfold Handler.MergePR PullRequestService.MergePR
    by_cases h1 : pullRequestID = ""
    · rw [if_pos h1]; exact ⟨rfl, rfl⟩
    rw [if_neg h1, ← Faulty_MergePR_noFault]
    exact MergePRBody_status noFault now db _
  · unfold Handler.ReassignPR PullRequestService.ReassignPR
    by_cases h1 : pullRequestID = ""
    · rw [if_pos h1]; exact ⟨rfl, rfl⟩
    rw [if_neg h1]
    by_cases h2 : oldReviewerID = ""
    · rw [if_pos h2]; exact ⟨rfl, rfl⟩
    rw [if_neg h2, ← Faulty_ReassignPR_noFault]
    exact ReassignPRBody_status noFault rnd db _ _

/-- The statuses of some calls: an empty id, an unknown author, a fresh id (refused as
`PR_EXISTS`), a merge, and the four conflicts of a reassignment. -/
theorem handler_status_examples :
    Handler.CreatePR (fun _ => 0) storeT "" "x" "A" = some 400
      ∧ Handler.CreatePR (fun _ => 0) storeT "p1" "x" "Z" = some 404
      ∧ Handler.CreatePR (fun _ => 0) storeT "p1" "x" "A" = some 409
      ∧ Handler.CreatePR (fun _ => 0) storeOpen "p1" "x" "A" = some 500
      ∧ Handler.MergePR 9 storeOpen "p1" = some 200
      ∧ Handler.MergePR 9 storeOpen "nope" = some 404
      ∧ Handler.ReassignPR (fun _ => 0) storeOpen "p1" "R1" = some 200
      ∧ Handler.ReassignPR (fun _ => 0) storeMerged "p1" "R1" = some 409
      ∧ Handler.ReassignPR (fun _ => 0) storeOpen "p1" "A" = some 409
      ∧ Handler.ReassignPR (fun _ => 0) storeSole "q1" "Q" = some 409 :=
  ⟨rfl, rfl, rfl, rfl, rfl, rfl, rfl, rfl, rfl, rfl⟩

/-! ## Two calls of CreatePR with one id -/

/-- C27: two calls of `CreatePR` with the same fresh id, an existing author and non-empty
fields, run one after the other, do not give one success and one `PR_EXISTS`: both return the
PRError with code `PR_EXISTS`, and no PR row with the id is stored after either. -/
theorem CreatePR_same_id_twice_no_success (rnd rnd2 : Nat → Nat) (db : Store)
    (pullRequestID name name2 authorID : String)
    (hid : pullRequestID ≠ "") (hname : name ≠ "") (hname2 : name2 ≠ "") (hauthor : authorID ≠ "")
    (hu : ∃ u ∈ db.users, u.user_id = authorID)
    (hp : ∀ r ∈ db.pr, r.pr_id ≠ pullRequestID) :
    PullRequestService.CreatePR rnd db pullRequestID name authorID
        = (.error (.prError NewPRExistsError), db)
      ∧ PullRequestService.CreatePR rnd2
          (PullRequestService.CreatePR rnd db pullRequestID name authorID).2 pullRequestID name2
          authorID
        = (.error (.prError NewPRExistsError), db)
      ∧ db.lookupPR pullRequestID = none := by
  have hex : PRPostgresRepository.AuthorExists db authorID = true :=
    (AuthorExists_eq_true_iff db authorID).2 hu
  have hnone : db.pr.find? (fun r => decide (r.pr_id = pullRequestID)) = none :=
    (lookupPR_eq_none_iff db pullRequestID).2 hp
  have hrun : ∀ (r : Nat → Nat) (n : String), n ≠ "" →
      PullRequestService.CreatePR r db pullRequestID n authorID
        = (.error (.prError NewPRExistsError), db) := by
    intro r n hn
    simp [PullRequestService.CreatePR, PRPostgresRepository.CreatePR,
      PRPostgresRepository.CreatePRAfterScan, hid, hn, hauthor, hex,
      hnone]
  refine ⟨hrun rnd name hname, ?_, hnone⟩
  rw [hrun rnd name hname]
  exact hrun rnd2 name2 hname2

/-- The theorem of C27 at team `T` with author `A`: `p1` is refused twice. -/
theorem CreatePR_same_id_twice_no_success_witness :
    PullRequestService.CreatePR (fun _ => 0) storeT "p1" "x" "A"
        = (.error (.prError NewPRExistsError), storeT)
      ∧ PullRequestService.CreatePR (fun _ => 1)
          (PullRequestService.CreatePR (fun _ => 0) storeT "p1" "x" "A").2 "p1" "y" "A"
        = (.error (.prError NewPRExistsError), storeT)
      ∧ storeT.lookupPR "p1" = none :=
  CreatePR_same_id_twice_no_success (fun _ => 0) (fun _ => 1) storeT "p1" "x" "y" "A"
    (by decide) (by decide) (by decide) (by decide)
    ⟨⟨"A", "a", "T", true⟩, by simp [storeT], rfl⟩ (by simp [storeT])

/-! ## Statistics of a team without PRs -/

/-- C28: for an existing team none of whose members authored a PR (a team without members
included), `GetTeamStatistics` does not return zeros: the join has no row, both `SUM(...)` are
NULL, and the call fails with the wrapped `scan error`, on the repository as through the
service. -/
theorem GetTeamStatistics_no_PRs_scan_error (db : Store) (teamName : String)
    (hteam : teamName ∈ db.team)
    (hnone : ∀ r ∈ db.pr, ∀ u ∈ db.users, u.user_id = r.author_id → u.team_name ≠ teamName) :
    StatisticsPostgresRepository.GetTeamStatistics db teamName
        = (.error (.wrapped "scan error"), db)
      ∧ (teamName ≠ "" →
          StatisticsService.GetTeamStatistics db teamName
            = (.error (.wrapped "scan error"), db))
      ∧ teamPRs db teamName = [] := by
  have hex : StatisticsPostgresRepository.TeamExists db teamName = true := by
    simp only [StatisticsPostgresRepository.TeamExists, List.any_eq_true, decide_eq_true_eq]
    exact ⟨teamName, hteam, rfl⟩
  have hjoin : StatisticsPostgresRepository.joinPRUsers db teamName = [] := by
    unfold StatisticsPostgresRepository.joinPRUsers
    rw [List.flatMap_eq_nil_iff]
    intro r hr
    rw [List.map_eq_nil_iff, List.filter_eq_nil_iff]
    intro u hu hc
    simp only [Bool.and_eq_true, decide_eq_true_eq] at hc
    exact hnone r hr u hu hc.1.symm hc.2
  have hrun : StatisticsPostgresRepository.GetTeamStatistics db teamName
      = (.error (.wrapped "scan error"), db) := by
    unfold StatisticsPostgresRepository.GetTeamStatistics
    rw [hex, hjoin]
    rfl
  refine ⟨hrun, ?_, ?_⟩
  · intro hne
    simp [StatisticsService.GetTeamStatistics, hne, hrun]
  · unfold teamPRs
    rw [List.filter_eq_nil_iff]
    intro r hr hc
    simp only [List.any_eq_true, Bool.and_eq_true, decide_eq_true_eq] at hc
    obtain ⟨u, hu, h1, h2⟩ := hc
    exact hnone r hr u hu h1 h2

/-- The theorem of C28 at team `T` with four members and no PR. -/
theorem GetTeamStatistics_no_PRs_scan_error_witness :
    StatisticsService.GetTeamStatistics storeT "T" = (.error (.wrapped "scan error"), storeT)
      ∧ teamPRs storeT "T" = [] :=
  have h := GetTeamStatistics_no_PRs_scan_error storeT "T" (by simp [storeT])
    (by simp [storeT])
  ⟨h.2.1 (by decide), h.2.2⟩

/-! ## The frame of a reassignment -/

theorem length_filter_ne_of_nodup {α : Type} [DecidableEq α] (l : List α) (a : α)
    (hnd : l.Nodup) (ha : a ∈ l) :
    (l.filter (fun x => decide (x ≠ a))).length + 1 = l.length := by
  induction l with
  | nil => exact absurd ha (List.not_mem_nil a)
  | cons x xs ih =>
    have hx : x ∉ xs := (List.nodup_cons.1 hnd).1
    by_cases hxa : x = a
    · have hall : xs.filter (fun y => decide (y ≠ a)) = xs := by
        rw [List.filter_eq_self]
        intro y hy
        exact decide_eq_true (fun h => hx (hxa ▸ h ▸ hy))
      have hd : decide (x ≠ a) = false := decide_eq_false (fun h => h hxa)
      rw [List.filter_cons, hd, if_neg (by simp), hall, List.length_cons]
    · have hd : decide (x ≠ a) = true := decide_eq_true hxa
      have ha2 : a ∈ xs := by
        rcases List.mem_cons.1 ha with h | h
        · exact absurd h.symm hxa
        · exact h
      rw [List.filter_cons, hd, if_pos rfl, List.length_cons, List.length_cons,
        ih (List.nodup_cons.1 hnd).2 ha2]

/-- Under the primary key of `reviewer_x_pr` no user is listed twice among the reviewers of a
PR. -/
theorem GetReviewers_nodup (db : Store) (hk : db.reviewersKeyed) (id : String) :
    (PRPostgresRepository.GetReviewers db id).Nodup := by
  unfold PRPostgresRepository.GetReviewers
  apply List.Nodup.map_on
  · intro x hx y hy hxy
    have h1 : x.pr_id = id := of_decide_eq_true (List.mem_filter.1 hx).2
    have h2 : y.pr_id = id := of_decide_eq_true (List.mem_filter.1 hy).2
    cases x
    cases y
    simp only at h1 h2 hxy
    rw [h1, h2, hxy]
  · exact hk.filter _

/-- C29: the frame of a successful `ReassignPR(pr, old)` returning `new`: the reviewer rows
after the call are the rows before without `(pr, old)` plus the row `(pr, new)`, which was not
stored; the PR rows, the users, the teams and the reviewer rows of every other PR are unchanged,
and the PR has as many reviewers after as before.  The store satisfies the primary key of
`reviewer_x_pr`. -/
theorem ReassignPR_frame (rnd : Nat → Nat) (db db1 : Store)
    (pullRequestID oldReviewerID replacedBy : String) (pr : PullRequest)
    (hk : db.reviewersKeyed)
    (h : PRPostgresRepository.ReassignPR rnd db pullRequestID oldReviewerID
        = (.ok (pr, replacedBy), db1)) :
    (∀ r : ReviewerRow, r ∈ db1.reviewer_x_pr ↔
        (r ∈ db.reviewer_x_pr ∧ r ≠ ⟨oldReviewerID, pullRequestID⟩)
          ∨ r = ⟨replacedBy, pullRequestID⟩)
      ∧ (⟨oldReviewerID, pullRequestID⟩ : ReviewerRow) ∈ db.reviewer_x_pr
      ∧ (⟨replacedBy, pullRequestID⟩ : ReviewerRow) ∉ db.reviewer_x_pr
      ∧ db1.pr = db.pr ∧ db1.users = db.users ∧ db1.team = db.team
      ∧ (∀ other : String, other ≠ pullRequestID →
          PRPostgresRepository.GetReviewers db1 other
            = PRPostgresRepository.GetReviewers db other)
      ∧ (PRPostgresRepository.GetReviewers db1 pullRequestID).length
          = (PRPostgresRepository.GetReviewers db pullRequestID).length := by
  have h1 : (PRPostgresRepository.ReassignPR rnd db pullRequestID oldReviewerID).1
      = .ok (pr, replacedBy) := by rw [h]
  obtain ⟨hnew, hne, ⟨row, hrow, hst⟩, hrev⟩ := ReassignPR_ok_inv h1
  have hne2 : PRPostgresRepository.FindNewReviewer rnd db pullRequestID oldReviewerID ≠ "" := by
    rw [← hnew]; exact hne
  obtain ⟨_, _, _, _, u, _, huid, _, _, _, _, hnot⟩ := FindNewReviewer_sound hnew.symm hne
  rw [huid] at hnot
  have hrun := ReassignPR_commit hrow hst hrev hne2
  rw [hrun] at h
  have hdb1 : db1 = reassigned db pullRequestID oldReviewerID replacedBy := by
    have := (Prod.mk.inj h).2
    rw [← this, ← hnew]
  have hold : oldReviewerID ∈ PRPostgresRepository.GetReviewers db pullRequestID :=
    (IsReviewer_eq_true_iff db pullRequestID oldReviewerID).1 hrev
  have hnotrow : (⟨replacedBy, pullRequestID⟩ : ReviewerRow) ∉ db.reviewer_x_pr := by
    intro hmem
    apply hnot
    simp only [PRPostgresRepository.GetReviewers, List.mem_map, List.mem_filter,
      decide_eq_true_eq]
    exact ⟨⟨replacedBy, pullRequestID⟩, ⟨hmem, rfl⟩, rfl⟩
  have holdrow : (⟨oldReviewerID, pullRequestID⟩ : ReviewerRow) ∈ db.reviewer_x_pr := by
    simp only [PRPostgresRepository.GetReviewers, List.mem_map, List.mem_filter,
      decide_eq_true_eq] at hold
    obtain ⟨x, ⟨hx, hx1⟩, hx2⟩ := hold
    cases x
    simp only at hx1 hx2
    rw [← hx1, ← hx2]
    exact hx
  refine ⟨?_, holdrow, hnotrow, by rw [hdb1]; rfl, by rw [hdb1]; rfl, by rw [hdb1]; rfl, ?_, ?_⟩
  · intro r
    rw [hdb1]
    simp only [reassigned, Store.deleteReviewer, List.mem_append, List.mem_filter,
      List.mem_singleton, Bool.not_eq_true', Bool.and_eq_false_iff, decide_eq_false_iff_not]
    constructor
    · rintro (⟨hr, hc⟩ | hr)
      · left
        refine ⟨hr, ?_⟩
        intro heq
        rw [heq] at hc
        rcases hc with hc | hc
        · exact hc rfl
        · exact hc rfl
      · right
        exact hr
    · rintro (⟨hr, hc⟩ | hr)
      · left
        refine ⟨hr, ?_⟩
        by_cases hp : r.pr_id = pullRequestID
        · right
          intro hu
          apply hc
          cases r
          simp only at hp hu
          rw [hp, hu]
        · left
          exact hp
      · right
        exact hr
  · intro other hother
    rw [hdb1]
    exact GetReviewers_reassigned_of_ne db oldReviewerID replacedBy hother
  · rw [hdb1, GetReviewers_reassigned, List.length_append, List.length_singleton]
    exact length_filter_ne_of_nodup _ _ (GetReviewers_nodup db hk pullRequestID) hold

/-- The theorem of C29 at the open PR `p1` of `A` reviewed by `R1`, when `R2` takes over. -/
theorem ReassignPR_frame_witness :
    (∀ r : ReviewerRow, r ∈ (reassigned storeOpen "p1" "R1" "R2").reviewer_x_pr ↔
        (r ∈ storeOpen.reviewer_x_pr ∧ r ≠ ⟨"R1", "p1"⟩) ∨ r = ⟨"R2", "p1"⟩)
      ∧ (⟨"R1", "p1"⟩ : ReviewerRow) ∈ storeOpen.reviewer_x_pr
      ∧ (⟨"R2", "p1"⟩ : ReviewerRow) ∉ storeOpen.reviewer_x_pr
      ∧ (reassigned storeOpen "p1" "R1" "R2").pr = storeOpen.pr
      ∧ (reassigned storeOpen "p1" "R1" "R2").users = storeOpen.users
      ∧ (reassigned storeOpen "p1" "R1" "R2").team = storeOpen.team
      ∧ (∀ other : String, other ≠ "p1" →
          PRPostgresRepository.GetReviewers (reassigned storeOpen "p1" "R1" "R2") other
            = PRPostgresRepository.GetReviewers storeOpen other)
      ∧ (PRPostgresRepository.GetReviewers (reassigned storeOpen "p1" "R1" "R2") "p1").length
          = (PRPostgresRepository.GetReviewers storeOpen "p1").length :=
  ReassignPR_frame (fun _ => 0) storeOpen (reassigned storeOpen "p1" "R1" "R2") "p1" "R1" "R2"
    ⟨"p1", "x", "A", "OPEN", ["R2"], none⟩ (by simp [Store.reviewersKeyed, storeOpen]) rfl

/-! ## Reviewers stay in the team of the author -/

theorem lookupUser_of_mem_keyed {db : Store} (hk : db.usersKeyed) {u : UserRow}
    (hu : u ∈ db.users) : db.lookupUser u.user_id = some u := by
  cases hl : db.lookupUser u.user_id with
  | none =>
    have hno : ∀ v ∈ db.users, v.user_id ≠ u.user_id := by
      simpa [Store.lookupUser] using hl
    exact absurd rfl (hno u hu)
  | some w =>
    have hw : w ∈ db.users := List.mem_of_find?_eq_some hl
    have hwid : w.user_id = u.user_id := by simpa using List.find?_some hl
    rw [usersKeyed_row_eq hk hw hu hwid]

/-- The invariant moves to a store with the same PR rows and reviewer rows in which every user
that had a row still has one with the same team. -/
theorem reviewersInAuthorsTeam_transfer {s1 s2 : Store}
    (hlook : ∀ (id : String) (row1 : PRRow), s1.lookupPR id = some row1 →
        ∃ row, s2.lookupPR id = some row ∧ row.author_id = row1.author_id)
    (hrv : s1.reviewer_x_pr = s2.reviewer_x_pr)
    (husers : ∀ (x : String) (u : UserRow), s2.lookupUser x = some u →
        ∃ u1, s1.lookupUser x = some u1 ∧ u1.team_name = u.team_name)
    (h : s2.reviewersInAuthorsTeam) : s1.reviewersInAuthorsTeam := by
  intro id row1 hrow1 reviewer hrev
  obtain ⟨row, hrow, hauth⟩ := hlook id row1 hrow1
  rw [GetReviewers_congr hrv] at hrev
  obtain ⟨a, u, ha, hu, hteam⟩ := h id row hrow reviewer hrev
  obtain ⟨a1, ha1, hta⟩ := husers _ a ha
  obtain ⟨u1, hu1, htu⟩ := husers _ u hu
  rw [hauth] at ha1
  exact ⟨a1, u1, ha1, hu1, by rw [htu, hta, hteam]⟩

theorem reviewersInAuthorsTeam_updateMerged (db : Store) (id : String) (now : Nat)
    (h : db.reviewersInAuthorsTeam) : (db.updateMerged id now).reviewersInAuthorsTeam := by
  refine @reviewersInAuthorsTeam_transfer (db.updateMerged id now) db ?_ rfl ?_ h
  · intro other row1 hrow1
    rw [lookupPR_updateMerged_map] at hrow1
    cases hl : db.lookupPR other with
    | none => simp [hl] at hrow1
    | some row =>
      simp only [hl, Option.map, Option.some.injEq] at hrow1
      refine ⟨row, rfl, ?_⟩
      rw [← hrow1]
      by_cases hr : row.pr_id = id <;> simp [hr, PRRow.merged]
  · intro x u hu
    exact ⟨u, hu, rfl⟩

theorem reviewersInAuthorsTeam_updateIsActive (db : Store) (userID : String) (b : Bool)
    (h : db.reviewersInAuthorsTeam) : (db.updateIsActive userID b).reviewersInAuthorsTeam := by
  refine @reviewersInAuthorsTeam_transfer (db.updateIsActive userID b) db ?_ rfl ?_ h
  · intro id row1 hrow1
    exact ⟨row1, hrow1, rfl⟩
  · intro x u hu
    rw [lookupUser_updateIsActive_map, hu]
    by_cases hc : u.user_id = userID
    · exact ⟨{ u with is_active := b }, by simp [hc], rfl⟩
    · exact ⟨u, by simp [hc], rfl⟩

theorem usersKeyed_updateIsActive (db : Store) (userID : String) (b : Bool)
    (hk : db.usersKeyed) : (db.updateIsActive userID b).usersKeyed := by
  have hids : (db.updateIsActive userID b).users.map (fun v => v.user_id)
      = db.users.map (fun v => v.user_id) := by
    simp only [Store.updateIsActive, List.map_map]
    apply List.map_congr_left
    intro w _
    by_cases hc : w.user_id = userID <;> simp [hc]
  unfold Store.usersKeyed
  rw [hids]
  exact hk

/-- The store after `SetUserIsActive` is the store before or the store with the flag set. -/
theorem SetUserIsActive_store (db : Store) (userID : String) (isActive : Bool) :
    (UsersPostgresRepository.SetUserIsActive db userID isActive).2 = db
      ∨ (UsersPostgresRepository.SetUserIsActive db userID isActive).2
          = db.updateIsActive userID isActive := by
  unfold UsersPostgresRepository.SetUserIsActive
  simp only
  split
  · left; rfl
  · split
    · left; rfl
    · right; rfl

theorem insertUser_users {s s1 : Store} {user_id username team_name : String}
    {is_active : Bool} (h : s.insertUser user_id username team_name is_active = some s1) :
    s1.users = s.users ++ [⟨user_id, username, team_name, is_active⟩]
      ∧ ∀ v ∈ s.users, v.user_id ≠ user_id := by
  unfold Store.insertUser at h
  by_cases hpk : s.users.any (fun u => decide (u.user_id = user_id)) = true
  · rw [if_pos hpk] at h
    exact absurd h (by simp)
  · rw [if_neg hpk] at h
    have hfresh : ∀ v ∈ s.users, v.user_id ≠ user_id := by
      simpa using hpk
    split at h
    · have := Option.some.inj h
      rw [← this]
      exact ⟨rfl, hfresh⟩
    · exact absurd h (by simp)

/-- The members `AddTeam` inserts are appended to `users`, and the primary key survives. -/
theorem insertMembers_users (members : List TeamMember) (teamName : String) {s s1 : Store}
    (h : TeamPostgresRepository.insertMembers s members teamName = some s1) :
    (∃ extra, s1.users = s.users ++ extra) ∧ (s.usersKeyed → s1.usersKeyed) := by
  induction members generalizing s with
  | nil =>
    simp only [TeamPostgresRepository.insertMembers, Option.some.injEq] at h
    rw [← h]
    exact ⟨⟨[], (List.append_nil _).symm⟩, fun hk => hk⟩
  | cons m rest ih =>
    simp only [TeamPostgresRepository.insertMembers] at h
    cases hu : s.insertUser m.UserID m.Username teamName m.IsActive with
    | none => simp [hu] at h
    | some s2 =>
      simp only [hu] at h
      obtain ⟨husers, hfresh⟩ := insertUser_users hu
      obtain ⟨⟨extra, hextra⟩, hkeep⟩ := ih h
      refine ⟨⟨⟨m.UserID, m.Username, teamName, m.IsActive⟩ :: extra, ?_⟩, ?_⟩
      · rw [hextra, husers, List.append_assoc, List.singleton_append]
      · intro hk
        apply hkeep
        unfold Store.usersKeyed
        rw [husers, List.map_append, List.nodup_append]
        refine ⟨hk, List.nodup_singleton _, ?_⟩
        intro a ha hb
        simp only [List.map_cons, List.map_nil, List.mem_singleton] at hb
        obtain ⟨v, hv, hva⟩ := List.mem_map.1 ha
        exact hfresh v hv (hva.trans hb)

theorem repository_AddTeam_users (db : Store) (team : Team) :
    (∃ extra, (TeamPostgresRepository.AddTeam db team).2.users = db.users ++ extra)
      ∧ (db.usersKeyed → (TeamPostgresRepository.AddTeam db team).2.usersKeyed) := by
  have hsame : (∃ extra, db.users = db.users ++ extra) ∧ (db.usersKeyed → db.usersKeyed) :=
    ⟨⟨[], (List.append_nil _).symm⟩, fun hk => hk⟩
  unfold TeamPostgresRepository.AddTeam
  by_cases hex : TeamPostgresRepository.TeamExists db team.TeamName = true
  · rw [if_pos hex]
    exact hsame
  · rw [if_neg hex]
    cases ht : db.insertTeam team.TeamName with
    | none => exact hsame
    | some tx1 =>
      have h1 : tx1.users = db.users := by
        unfold Store.insertTeam at ht
        split at ht
        · exact absurd ht (by simp)
        · have := Option.some.inj ht
          rw [← this]
      cases hm : TeamPostgresRepository.insertMembers tx1 team.Members team.TeamName with
      | none =>
        simp only [hm]
        exact hsame
      | some tx2 =>
        simp only [hm]
        have h2 := insertMembers_users team.Members team.TeamName hm
        unfold Store.usersKeyed at h2 ⊢
        rw [h1] at h2
        exact h2

theorem reviewersInAuthorsTeam_AddTeam (db : Store) (team : Team)
    (h : db.reviewersInAuthorsTeam) :
    (TeamPostgresRepository.AddTeam db team).2.reviewersInAuthorsTeam := by
  obtain ⟨extra, hextra⟩ := (repository_AddTeam_users db team).1
  refine @reviewersInAuthorsTeam_transfer (TeamPostgresRepository.AddTeam db team).2 db ?_
    (AddTeam_frame db team).2 ?_ h
  · intro id row1 hrow1
    rw [lookupPR_congr (AddTeam_frame db team).1] at hrow1
    exact ⟨row1, hrow1, rfl⟩
  · intro x u hu
    refine ⟨u, ?_, rfl⟩
    have hu2 : db.users.find? (fun v => decide (v.user_id = x)) = some u := hu
    unfold Store.lookupUser
    rw [hextra, List.find?_append, hu2]
    rfl

/-- The store after `ReassignPR` changed is the one in which a stored reviewer of a stored PR
was replaced by the non-empty answer of `FindNewReviewer`. -/
theorem ReassignPR_store_of_reviewer (rnd : Nat → Nat) (db : Store) (id old : String) :
    (PRPostgresRepository.ReassignPR rnd db id old).2 = db
      ∨ ∃ row, db.lookupPR id = some row
          ∧ old ∈ PRPostgresRepository.GetReviewers db id
          ∧ PRPostgresRepository.FindNewReviewer rnd db id old ≠ ""
          ∧ (PRPostgresRepository.ReassignPR rnd db id old).2
              = reassigned db id old (PRPostgresRepository.FindNewReviewer rnd db id old) := by
  rcases ReassignPR_store rnd db id old with h | ⟨row, hrow, hst, hne, h⟩
  · left; exact h
  · cases hr : PRPostgresRepository.IsReviewer db id old with
    | false =>
      left
      have hnot : old ∉ PRPostgresRepository.GetReviewers db id := by
        intro hin
        rw [(IsReviewer_eq_true_iff db id old).2 hin] at hr
        exact absurd hr (by simp)
      rw [ReassignPR_of_not_assigned rnd hrow hst hnot]
    | true =>
      right
      exact ⟨row, hrow, (IsReviewer_eq_true_iff db id old).1 hr, hne, h⟩

theorem reviewersInAuthorsTeam_reassigned (rnd : Nat → Nat) (db : Store) (id old : String)
    (hk : db.usersKeyed) (h : db.reviewersInAuthorsTeam)
    (hold : old ∈ PRPostgresRepository.GetReviewers db id)
    (hne : PRPostgresRepository.FindNewReviewer rnd db id old ≠ "") :
    (reassigned db id old
      (PRPostgresRepository.FindNewReviewer rnd db id old)).reviewersInAuthorsTeam := by
  obtain ⟨o, p, ho, hp, u, hu, huid, hteam, _, _, _, _⟩ := FindNewReviewer_sound rfl hne
  intro other row hrow reviewer hrev
  have hrow0 : db.lookupPR other = some row := hrow
  have husers : ∀ x, (reassigned db id old
      (PRPostgresRepository.FindNewReviewer rnd db id old)).lookupUser x = db.lookupUser x :=
    fun _ => rfl
  rw [husers, husers]
  by_cases hid : other = id
  · rw [hid] at hrow0 hrev
    rw [GetReviewers_reassigned, List.mem_append, List.mem_singleton] at hrev
    rcases hrev with hrev | hrev
    · exact h id row hrow0 reviewer (List.mem_of_mem_filter hrev)
    · obtain ⟨a, uold, ha, huold, hto⟩ := h id row hrow0 old hold
      have hou : uold = o := by
        rw [ho] at huold
        exact (Option.some.inj huold).symm
      refine ⟨a, u, ha, ?_, ?_⟩
      · rw [hrev, ← huid]
        exact lookupUser_of_mem_keyed hk hu
      · rw [hteam, ← hou, hto]
  · rw [GetReviewers_reassigned_of_ne db old _ hid] at hrev
    exact h other row hrow0 reviewer hrev

theorem runRepository_reviewersInAuthorsTeam (op : Operation) (db : Store)
    (hk : db.usersKeyed) (h : db.reviewersInAuthorsTeam) :
    (op.runRepository db).reviewersInAuthorsTeam ∧ (op.runRepository db).usersKeyed := by
  cases op with
  | createPR rnd id name author =>
    simp only [Operation.runRepository, CreatePR_store]
    exact ⟨h, hk⟩
  | mergePR now id =>
    simp only [Operation.runRepository]
    rcases MergePR_store now db id with h1 | ⟨_, _, _, h1⟩
    · rw [h1]; exact ⟨h, hk⟩
    · rw [h1]; exact ⟨reviewersInAuthorsTeam_updateMerged db id now h, hk⟩
  | reassignPR rnd id old =>
    simp only [Operation.runRepository]
    rcases ReassignPR_store_of_reviewer rnd db id old with h1 | ⟨_, _, hold, hne, h1⟩
    · rw [h1]; exact ⟨h, hk⟩
    · rw [h1]; exact ⟨reviewersInAuthorsTeam_reassigned rnd db id old hk h hold hne, hk⟩
  | addTeam team =>
    exact ⟨reviewersInAuthorsTeam_AddTeam db team h, (repository_AddTeam_users db team).2 hk⟩
  | setUserIsActive userID isActive =>
    simp only [Operation.runRepository]
    rcases SetUserIsActive_store db userID isActive with h1 | h1
    · rw [h1]; exact ⟨h, hk⟩
    · rw [h1]
      exact ⟨reviewersInAuthorsTeam_updateIsActive db userID isActive h,
        usersKeyed_updateIsActive db userID isActive hk⟩

/-- C30: the predicate "every assigned reviewer of every PR belongs to the same team as the
author of that PR" is preserved by every operation: when the store satisfies it and no two user
rows share an id (each user is in one team), the store after `CreatePR`, `MergePR`,
`ReassignPR`, `AddTeam` or `SetUserIsActive` satisfies both again, through the service as on the
repository directly. -/
theorem reviewersInAuthorsTeam_preserved (op : Operation) (db : Store) (hk : db.usersKeyed)
    (h : db.reviewersInAuthorsTeam) :
    ((op.run db).reviewersInAuthorsTeam ∧ (op.run db).usersKeyed)
      ∧ (op.runRepository db).reviewersInAuthorsTeam ∧ (op.runRepository db).usersKeyed := by
  have hrepo := runRepository_reviewersInAuthorsTeam op db hk h
  refine ⟨?_, hrepo⟩
  rcases run_eq op db with h1 | h1
  · rw [h1]; exact ⟨h, hk⟩
  · rw [h1]; exact hrepo

theorem storeOpen_reviewersInAuthorsTeam : storeOpen.reviewersInAuthorsTeam := by
  intro id row hrow reviewer hrev
  have hmem : row ∈ storeOpen.pr := List.mem_of_find?_eq_some hrow
  have hid : row.pr_id = id := lookupPR_pr_id hrow
  simp only [storeOpen, List.mem_singleton] at hmem
  subst hmem
  subst hid
  have hr : reviewer = "R1" := by
    simpa [PRPostgresRepository.GetReviewers, storeOpen] using hrev
  subst hr
  exact ⟨⟨"A", "a", "T", true⟩, ⟨"R1", "r1", "T", true⟩, rfl, rfl, rfl⟩

/-- The theorem of C30 at the open PR `p1` of `A` reviewed by `R1`, when `R2`, drawn from the
team of `R1`, takes over. -/
theorem reviewersInAuthorsTeam_preserved_witness :
    storeOpen.usersKeyed ∧ storeOpen.reviewersInAuthorsTeam
      ∧ ((Operation.reassignPR (fun _ => 0) "p1" "R1").run storeOpen).reviewersInAuthorsTeam
      ∧ PRPostgresRepository.GetReviewers
          ((Operation.reassignPR (fun _ => 0) "p1" "R1").run storeOpen) "p1" = ["R2"] :=
  have hk : storeOpen.usersKeyed := by simp [Store.usersKeyed, storeOpen, storeT]
  ⟨hk, storeOpen_reviewersInAuthorsTeam,
    (reviewersInAuthorsTeam_preserved (Operation.reassignPR (fun _ => 0) "p1" "R1") storeOpen hk
      storeOpen_reviewersInAuthorsTeam).1.1,
    rfl⟩

end AvitoPR
